import Mathlib

/-!
# Provman: a shallow embedding of the session / plugin coordination engine

A C string is modelled by the list of its characters up to, and excluding,
the terminating NUL; reading the byte at index `strlen` therefore yields NUL,
which is what `charAt` returns.  A `GHashTable` with string keys is modelled
by an association list; its iteration order is the order of the list (GLib
leaves the order unspecified, none of the results below depends on it).
-/

namespace Provman

/-! ## error.h -/

/-- The enumeration `provman_errors` of include/error.h. -/
inductive provman_errors
  | PROVMAN_ERR_NONE
  | PROVMAN_ERR_UNKNOWN
  | PROVMAN_ERR_OOM
  | PROVMAN_ERR_CORRUPT
  | PROVMAN_ERR_OPEN
  | PROVMAN_ERR_READ
  | PROVMAN_ERR_WRITE
  | PROVMAN_ERR_IO
  | PROVMAN_ERR_NOT_FOUND
  | PROVMAN_ERR_ALREADY_EXISTS
  | PROVMAN_ERR_NOT_SUPPORTED
  | PROVMAN_ERR_CANCELLED
  | PROVMAN_ERR_TRANSACTION_IN_PROGRESS
  | PROVMAN_ERR_NOT_IN_TRANSACTION
  | PROVMAN_ERR_DENIED
  | PROVMAN_ERR_BAD_ARGS
  | PROVMAN_ERR_TIMEOUT
  | PROVMAN_ERR_BAD_KEY
  | PROVMAN_ERR_SUBSYSTEM
  deriving DecidableEq

open provman_errors

/-! ## C strings -/

/-- A NUL-terminated C string, as the list of the characters before the NUL. -/
abbrev CString := List Char

/-- The byte `s[i]` of a C string, for `i <= strlen(s)`: the terminating NUL at `i = strlen(s)`. -/
def charAt (s : CString) (i : Nat) : Char := s.getD i (Char.ofNat 0)

/-- The subtraction of two `unsigned int` values, 32 bits wide. -/
def uint_sub (a b : Nat) : Nat := (a % 2 ^ 32 + 2 ^ 32 - b % 2 ^ 32) % 2 ^ 32

/-- Whether `strncmp(a, b, n)` returns 0: the first `n` bytes of the two strings agree, the
comparison stopping at a common terminating NUL. -/
def strncmp_is0 : CString → CString → Nat → Bool
  | _, _, 0 => true
  | [], [], _ + 1 => true
  | [], _ :: _, _ + 1 => false
  | _ :: _, [], _ + 1 => false
  | x :: xs, y :: ys, n + 1 => if x = y then strncmp_is0 xs ys n else false

/-- Whether `strcmp(a, b)` returns 0. -/
def strcmp_is0 (a b : CString) : Bool := decide (a = b)

/-- Whether `strstr(haystack, needle)` is non-NULL: `needle` occurs somewhere in `haystack`. -/
def strstr_found : CString → CString → Bool
  | [], needle => needle.isEmpty
  | h :: hs, needle => needle.isPrefixOf (h :: hs) || strstr_found hs needle

/-- The function `g_ascii_isspace` of GLib: space, tab, line feed, form feed, carriage return. -/
def g_ascii_isspace (c : Char) : Bool :=
  c = ' ' || c = '\t' || c = '\n' || c = '\x0c' || c = '\r'

/-- The function `g_strstrip` of GLib: leading and trailing white space removed. -/
def g_strstrip (s : CString) : CString :=
  ((s.dropWhile g_ascii_isspace).reverse.dropWhile g_ascii_isspace).reverse

/-! ## utils.c: the key validator -/

/-- The loop of `provman_utils_validate_key`:
`while ((key = strchr(key,'/'))) { if (key[1] == '/') fail; ++key; }`.
The characters other than '/' are those `strchr` skips; at a '/' the next byte is examined and
the scan resumes one byte further. -/
def prv_validate_key_loop : CString → provman_errors
  | [] => PROVMAN_ERR_NONE
  | c :: rest =>
    if c = '/' then
      if charAt rest 0 = '/' then PROVMAN_ERR_BAD_ARGS else prv_validate_key_loop rest
    else prv_validate_key_loop rest

/-- The function `provman_utils_validate_key` of utils.c; `none` is the NULL pointer. -/
def provman_utils_validate_key : Option CString → provman_errors
  | none => PROVMAN_ERR_BAD_ARGS
  | some key =>
    if charAt key 0 ≠ '/' then PROVMAN_ERR_BAD_ARGS
    else prv_validate_key_loop (key.drop 1)

/-- The function `provman_utils_get_context_from_key` of utils.c: NULL (`none`) unless the first
`root_len` bytes of `root` and `key` agree, otherwise the copy of `key + root_len` cut at its
first '/'. -/
def provman_utils_get_context_from_key (key root : CString) (root_len : Nat) : Option CString :=
  if strncmp_is0 root key root_len then some ((key.drop root_len).takeWhile (fun c => c ≠ '/'))
  else none

/-! ## GLib hash tables with string keys -/

/-- A `GHashTable` from strings to strings (`g_str_hash`, `g_str_equal`). -/
abbrev GHashTable := List (CString × CString)

/-- The function `g_hash_table_lookup`; `none` is NULL. -/
def g_hash_table_lookup : GHashTable → CString → Option CString
  | [], _ => none
  | (k, v) :: t, key => if k = key then some v else g_hash_table_lookup t key

/-- The function `g_hash_table_insert`: the value of an existing key is replaced, a new key is
added. -/
def g_hash_table_insert : GHashTable → CString → CString → GHashTable
  | [], key, value => [(key, value)]
  | (k, v) :: t, key, value =>
    if k = key then (key, value) :: t else (k, v) :: g_hash_table_insert t key value

/-- The table left by `g_hash_table_remove`. -/
def g_hash_table_remove : GHashTable → CString → GHashTable
  | [], _ => []
  | (k, v) :: t, key => if k = key then t else (k, v) :: g_hash_table_remove t key

/-- A hash table used as a set of strings (all values NULL), as built by
`provman_utils_get_contexts`. -/
abbrev GHashSet := List CString

/-- The function `g_hash_table_insert(set, key, NULL)`. -/
def g_hash_set_insert (s : GHashSet) (key : CString) : GHashSet :=
  if key ∈ s then s else s ++ [key]

/-- Whether `g_hash_table_lookup_extended(set, key, NULL, NULL)` finds the key. -/
def g_hash_table_lookup_extended (s : GHashSet) (key : CString) : Bool := decide (key ∈ s)

/-- The function `provman_utils_get_contexts` of utils.c: the set of the contexts of the keys of
`settings`. -/
def provman_utils_get_contexts (settings : GHashTable) (root : CString) (root_len : Nat) :
    GHashSet :=
  settings.foldl
    (fun contexts kv =>
      match provman_utils_get_context_from_key kv.1 root root_len with
      | some context => g_hash_set_insert contexts context
      | none => contexts)
    []

/-! ## plugin.h, plugin.c: the plugin registry -/

/-- The structure `provman_plugin` of include/plugin.h, with the fields the functions below read.
`validate_del_fn` returns its error code and the value it stores in `*leaf`. -/
structure provman_plugin where
  name : CString
  root : CString
  validate_set_fn : CString → CString → provman_errors
  validate_del_fn : CString → provman_errors × Bool

/-- The function `prv_check_relationship` of plugin.c. -/
def prv_check_relationship (key1 key2 : CString) : provman_errors :=
  let key1_len := key1.length
  let key2_len := key2.length
  if key1_len > key2_len then
    (if strncmp_is0 key2 key1 key2_len then PROVMAN_ERR_CORRUPT else PROVMAN_ERR_NONE)
  else
    (if strncmp_is0 key1 key2 key1_len then PROVMAN_ERR_CORRUPT else PROVMAN_ERR_NONE)

/-- The inner loop of `provman_plugin_check`, over the plugins `j > i`. -/
def prv_check_against (root : CString) : List provman_plugin → provman_errors
  | [] => PROVMAN_ERR_NONE
  | p :: ps =>
    let err := prv_check_relationship root p.root
    if err ≠ PROVMAN_ERR_NONE then err else prv_check_against root ps

/-- The function `provman_plugin_check` of plugin.c, on the plugin table `g_provman_plugins`. -/
def provman_plugin_check : List provman_plugin → provman_errors
  | [] => PROVMAN_ERR_NONE
  | p :: ps =>
    let err := provman_utils_validate_key (some p.root)
    if err ≠ PROVMAN_ERR_NONE then err
    else
      let err := prv_check_against p.root ps
      if err ≠ PROVMAN_ERR_NONE then err else provman_plugin_check ps

/-- The test `provman_plugin_find_index` applies to one plugin root. -/
def prv_find_index_matches (root uri : CString) : Bool :=
  (decide (root.length = uri.length + 1) && strncmp_is0 root uri (root.length - 1))
    || strstr_found uri root

/-- The loop of `provman_plugin_find_index`, from plugin number `i` on. -/
def prv_find_index_from (uri : CString) : List provman_plugin → Nat → Option Nat
  | [], _ => none
  | p :: ps, i => if prv_find_index_matches p.root uri then some i
                  else prv_find_index_from uri ps (i + 1)

/-- The function `provman_plugin_find_index` of plugin.c: `some i` stands for `*index = i` with
`PROVMAN_ERR_NONE`, `none` for `PROVMAN_ERR_NOT_FOUND`. -/
def provman_plugin_find_index (plugins : List provman_plugin) (uri : CString) : Option Nat :=
  prv_find_index_from uri plugins 0

/-- A plugin root owns a key, as documented in plugin.h and as the first test of
`provman_plugin_find_index` allows: the root begins the key, or the key is the root without its
last character. -/
def root_owns (root key : CString) : Prop :=
  root <+: key ∨ (root ≠ [] ∧ key = root.dropLast)

/-! ## plugin_manager.c -/

/-- The enumeration `plugin_manager_state_t`. -/
inductive plugin_manager_state_t
  | PLUGIN_MANAGER_STATE_IDLE
  | PLUGIN_MANAGER_STATE_SYNC_IN
  | PLUGIN_MANAGER_STATE_SYNC_OUT
  deriving DecidableEq

open plugin_manager_state_t

/-- The structure `plugin_manager_t_`; a cache that is `none` is a NULL entry of `kv_caches`. -/
structure plugin_manager_t where
  state : plugin_manager_state_t
  kv_caches : List (Option GHashTable)
  synced : Nat
  err : provman_errors
  completion_source : Bool
  imsi : Option CString

/-- A call the plugin manager makes through a function pointer of a plugin. -/
inductive plugin_call
  | sync_in_fn (index : Nat) (imsi : Option CString)
  | sync_in_cancel_fn (index : Nat)
  | sync_out_fn (index : Nat) (settings : GHashTable)
  | sync_out_cancel_fn (index : Nat)
  | validate_set_fn (index : Nat) (key value : CString)
  | validate_del_fn (index : Nat) (key : CString)
  deriving DecidableEq

/-- Whether a plugin call is a call of `sync_out_fn`. -/
def plugin_call.is_sync_out : plugin_call → Bool
  | plugin_call.sync_out_fn _ _ => true
  | _ => false

/-- The entry `manager->kv_caches[index]`. -/
def kv_cache (manager : plugin_manager_t) (index : Nat) : Option GHashTable :=
  manager.kv_caches.getD index none

/-- The function `plugin_manager_get`: the error code and the string stored in `*value`. -/
def plugin_manager_get (plugins : List provman_plugin) (manager : plugin_manager_t)
    (key : CString) : provman_errors × Option CString :=
  if manager.state ≠ PLUGIN_MANAGER_STATE_IDLE then (PROVMAN_ERR_DENIED, none)
  else
    match provman_plugin_find_index plugins key with
    | none => (PROVMAN_ERR_NOT_FOUND, none)
    | some index =>
      match kv_cache manager index with
      | none => (PROVMAN_ERR_CORRUPT, none)
      | some cache =>
        match g_hash_table_lookup cache key with
        | none => (PROVMAN_ERR_DENIED, none)
        | some val => (PROVMAN_ERR_NONE, some val)

/-- The function `provman_plugin_get` of plugin.c; `none` is NULL. -/
def provman_plugin_get (plugins : List provman_plugin) (i : Nat) : Option provman_plugin :=
  plugins.get? i

/-- The function `prv_set_common`: the error code, the manager afterwards and the plugin calls
made.  The index comes from `provman_plugin_find_index`, so `provman_plugin_get` never returns
NULL here; that branch only makes the definition total. -/
def prv_set_common (plugins : List provman_plugin) (manager : plugin_manager_t)
    (key value : CString) : provman_errors × plugin_manager_t × List plugin_call :=
  match provman_plugin_find_index plugins key with
  | none => (PROVMAN_ERR_NOT_FOUND, manager, [])
  | some index =>
    match kv_cache manager index with
    | none => (PROVMAN_ERR_CORRUPT, manager, [])
    | some cache =>
      match provman_plugin_get plugins index with
      | none => (PROVMAN_ERR_UNKNOWN, manager, [])
      | some plugin =>
        let err := plugin.validate_set_fn key value
        if err ≠ PROVMAN_ERR_NONE then
          (err, manager, [plugin_call.validate_set_fn index key value])
        else
          (PROVMAN_ERR_NONE,
           { manager with
               kv_caches :=
                 manager.kv_caches.set index (some (g_hash_table_insert cache key value)) },
           [plugin_call.validate_set_fn index key value])

/-- The function `plugin_manager_set`. -/
def plugin_manager_set (plugins : List provman_plugin) (manager : plugin_manager_t)
    (key value : CString) : provman_errors × plugin_manager_t × List plugin_call :=
  if manager.state ≠ PLUGIN_MANAGER_STATE_IDLE then (PROVMAN_ERR_DENIED, manager, [])
  else prv_set_common plugins manager key value

/-- The loop of `plugin_manager_set_all` over the entries of the dictionary: the manager
afterwards, the keys added to the array of errors and the plugin calls made. -/
def prv_set_all_loop (plugins : List provman_plugin) :
    plugin_manager_t → List (CString × CString) →
      plugin_manager_t × List CString × List plugin_call
  | manager, [] => (manager, [], [])
  | manager, (key, value) :: rest =>
    let key := g_strstrip key
    let r := prv_set_common plugins manager key value
    let r2 := prv_set_all_loop plugins r.2.1 rest
    (r2.1, (if r.1 ≠ PROVMAN_ERR_NONE then key :: r2.2.1 else r2.2.1), r.2.2 ++ r2.2.2)

/-- The function `plugin_manager_set_all`: the error code, the manager afterwards, the keys
returned in `*errors` and the plugin calls made. -/
def plugin_manager_set_all (plugins : List provman_plugin) (manager : plugin_manager_t)
    (settings : List (CString × CString)) :
    provman_errors × plugin_manager_t × List CString × List plugin_call :=
  if manager.state ≠ PLUGIN_MANAGER_STATE_IDLE then (PROVMAN_ERR_DENIED, manager, [], [])
  else
    let r := prv_set_all_loop plugins manager settings
    (PROVMAN_ERR_NONE, r.1, r.2.1, r.2.2)

/-- The function `prv_key_matches_search`.  The byte `search_key[search_key_len - 1]` is only
meaningful for a non-empty search key. -/
def prv_key_matches_search (search_key key : CString) : Bool :=
  let search_key_len := search_key.length
  let key_len := key.length
  if key_len ≥ search_key_len then
    if strncmp_is0 search_key key search_key_len then
      if key_len = search_key_len then true
      else if charAt search_key (search_key_len - 1) = '/' then true
      else if charAt key search_key_len = '/' then true
      else false
    else false
  else false

/-- The function `plugin_manager_get_all`: the error code and the entries of the dictionary
built, in the order the caches of the `count` plugins are scanned. -/
def plugin_manager_get_all (count : Nat) (manager : plugin_manager_t) (search_key : CString) :
    provman_errors × List (CString × CString) :=
  if manager.state ≠ PLUGIN_MANAGER_STATE_IDLE then (PROVMAN_ERR_DENIED, [])
  else
    (PROVMAN_ERR_NONE,
     (List.range count).flatMap (fun i =>
       match kv_cache manager i with
       | some ht => ht.filter (fun kv => prv_key_matches_search search_key kv.1)
       | none => []))

/-- The function `provman_plugin_find_children` of plugin.c: the roots collected.  The byte
`uri[uri_len - 1]` is only meaningful for a non-empty uri. -/
def provman_plugin_find_children (plugins : List provman_plugin) (uri : CString) :
    List CString :=
  (plugins.filter (fun plugin =>
    if uri.length > plugin.root.length then false
    else
      strncmp_is0 plugin.root uri uri.length
        && (decide (uri.length = plugin.root.length)
            || decide (charAt uri (uri.length - 1) = '/')
            || decide (charAt plugin.root uri.length = '/')))).map (fun plugin => plugin.root)

/-- The test of the directory loop of `prv_delete_key`: the cached key begins with `key` and
its next byte is a slash. -/
def prv_delete_key_matches (key existing_key : CString) : Bool :=
  strncmp_is0 existing_key key key.length && decide (charAt existing_key key.length = '/')

/-- The key `prv_delete_key` works on: the raw key without one trailing slash.  The index
`key_length - 1` is computed on `unsigned int`: for the empty key it is 4294967295, outside the
string, and what the code reads there is not determined by the key, so the value given here is
only meaningful for a non-empty key. -/
def prv_delete_key_strip (raw_key : CString) : CString :=
  if charAt raw_key (uint_sub raw_key.length 1) = '/' then raw_key.dropLast else raw_key

/-- The function `prv_delete_key`: the error code, the manager afterwards and the plugin calls
made.  As in `prv_set_common`, the branch of a NULL plugin only makes the definition total. -/
def prv_delete_key (plugins : List provman_plugin) (manager : plugin_manager_t)
    (raw_key : CString) (index : Nat) : provman_errors × plugin_manager_t × List plugin_call :=
  let key := prv_delete_key_strip raw_key
  match kv_cache manager index with
  | none => (PROVMAN_ERR_CORRUPT, manager, [])
  | some cache =>
    match provman_plugin_get plugins index with
    | none => (PROVMAN_ERR_UNKNOWN, manager, [])
    | some plugin =>
      let r := plugin.validate_del_fn key
      if r.1 ≠ PROVMAN_ERR_NONE then (r.1, manager, [plugin_call.validate_del_fn index key])
      else if r.2 then
        match g_hash_table_lookup cache key with
        | none => (PROVMAN_ERR_NOT_FOUND, manager, [plugin_call.validate_del_fn index key])
        | some _ =>
          (PROVMAN_ERR_NONE,
           { manager with
               kv_caches := manager.kv_caches.set index (some (g_hash_table_remove cache key)) },
           [plugin_call.validate_del_fn index key])
      else
        let deleted := (cache.filter (fun kv => prv_delete_key_matches key kv.1)).length
        let manager :=
          { manager with
              kv_caches := manager.kv_caches.set index
                (some (cache.filter (fun kv => !(prv_delete_key_matches key kv.1)))) }
        if deleted = 0 then
          (PROVMAN_ERR_NOT_FOUND, manager, [plugin_call.validate_del_fn index key])
        else (PROVMAN_ERR_NONE, manager, [plugin_call.validate_del_fn index key])

/-- The loop of `plugin_manager_remove` over the children found: the value of `err` after the
loop, the manager afterwards and the plugin calls made. -/
def prv_remove_children (plugins : List provman_plugin) :
    provman_errors → plugin_manager_t → List CString →
      provman_errors × plugin_manager_t × List plugin_call
  | err, manager, [] => (err, manager, [])
  | _, manager, root :: rest =>
    match provman_plugin_find_index plugins root with
    | none => prv_remove_children plugins PROVMAN_ERR_NOT_FOUND manager rest
    | some index =>
      let r := prv_delete_key plugins manager root index
      let r2 := prv_remove_children plugins PROVMAN_ERR_NONE r.2.1 rest
      (r2.1, r2.2.1, r.2.2 ++ r2.2.2)

/-- The function `plugin_manager_remove`. -/
def plugin_manager_remove (plugins : List provman_plugin) (manager : plugin_manager_t)
    (key : CString) : provman_errors × plugin_manager_t × List plugin_call :=
  if manager.state ≠ PLUGIN_MANAGER_STATE_IDLE then (PROVMAN_ERR_DENIED, manager, [])
  else
    match provman_plugin_find_index plugins key with
    | some index => prv_delete_key plugins manager key index
    | none =>
      prv_remove_children plugins PROVMAN_ERR_NOT_FOUND manager
        (provman_plugin_find_children plugins key)

/-! ## plugin_manager.c: sync-in and sync-out

The value a plugin returns synchronously from `sync_in_fn` or `sync_out_fn` is an input of the
functions below (`sync_in_ret i`, `sync_out_ret i` for plugin `i`); the completion a plugin
reports later is the argument of the callback.  During one sync-in or sync-out every plugin is
called at most once, so such a function describes any behaviour of the plugins. -/

/-- The function `prv_clear_cache`: the caches of the `count` plugins become NULL. -/
def prv_clear_cache (count : Nat) (manager : plugin_manager_t) : plugin_manager_t :=
  { manager with
      kv_caches := (manager.kv_caches.take count).map (fun _ => none)
        ++ manager.kv_caches.drop count }

/-- The function `prv_schedule_completion`; `completion_source` records that
`prv_complete_callback` is installed as an idle source. -/
def prv_schedule_completion (manager : plugin_manager_t) (err : provman_errors) :
    plugin_manager_t :=
  { manager with err := err, completion_source := true, imsi := none,
                 state := PLUGIN_MANAGER_STATE_IDLE }

/-- The function `prv_complete_callback`: the manager afterwards and the result passed to
`manager->callback`. -/
def prv_complete_callback (manager : plugin_manager_t) : plugin_manager_t × provman_errors :=
  ({ manager with completion_source := false }, manager.err)

/-- The loop `while (manager->synced < count)` of `prv_sync_in_next_plugin`, from the value
`synced`: the value of `synced` when the loop is left and the calls of `sync_in_fn` made.  The
first argument bounds the number of iterations; `count - synced` of them are enough. -/
def prv_sync_in_loop (count : Nat) (sync_in_ret : Nat → provman_errors) (imsi : Option CString) :
    Nat → Nat → Nat × List plugin_call
  | 0, synced => (synced, [])
  | fuel + 1, synced =>
    if synced < count then
      if sync_in_ret synced = PROVMAN_ERR_NONE then
        (synced, [plugin_call.sync_in_fn synced imsi])
      else
        let r := prv_sync_in_loop count sync_in_ret imsi fuel (synced + 1)
        (r.1, plugin_call.sync_in_fn synced imsi :: r.2)
    else (synced, [])

/-- The function `prv_sync_in_next_plugin`: the manager afterwards and the plugin calls made. -/
def prv_sync_in_next_plugin (count : Nat) (sync_in_ret : Nat → provman_errors)
    (manager : plugin_manager_t) : plugin_manager_t × List plugin_call :=
  let r := prv_sync_in_loop count sync_in_ret manager.imsi (count - manager.synced)
    manager.synced
  let manager := { manager with synced := r.1 }
  if manager.synced = count then (prv_schedule_completion manager PROVMAN_ERR_NONE, r.2)
  else (manager, r.2)

/-- The function `prv_plugin_sync_in_cb`, the callback a plugin invokes to complete its
`sync_in_fn`. -/
def prv_plugin_sync_in_cb (count : Nat) (sync_in_ret : Nat → provman_errors)
    (manager : plugin_manager_t) (err : provman_errors) (settings : Option GHashTable) :
    plugin_manager_t × List plugin_call :=
  if err = PROVMAN_ERR_CANCELLED then
    (prv_schedule_completion (prv_clear_cache count manager) err, [])
  else
    let manager :=
      if err = PROVMAN_ERR_NONE then
        { manager with kv_caches := manager.kv_caches.set manager.synced settings }
      else manager
    prv_sync_in_next_plugin count sync_in_ret { manager with synced := manager.synced + 1 }

/-- The function `plugin_manager_sync_in`: the error code, the manager afterwards and the
plugin calls made. -/
def plugin_manager_sync_in (count : Nat) (sync_in_ret : Nat → provman_errors)
    (manager : plugin_manager_t) (imsi : CString) :
    provman_errors × plugin_manager_t × List plugin_call :=
  if manager.state ≠ PLUGIN_MANAGER_STATE_IDLE then (PROVMAN_ERR_DENIED, manager, [])
  else
    let r := prv_sync_in_next_plugin count sync_in_ret
      { manager with synced := 0, state := PLUGIN_MANAGER_STATE_SYNC_IN,
                     err := PROVMAN_ERR_NONE, imsi := some imsi }
    (PROVMAN_ERR_NONE, r.1, r.2)

/-- The loop of `prv_sync_out_next_plugin`, as `prv_sync_in_loop`, reading the array
`kv_caches`: a plugin without cache is skipped, a plugin with a cache is called with it. -/
def prv_sync_out_loop (count : Nat) (sync_out_ret : Nat → provman_errors)
    (kv_caches : List (Option GHashTable)) : Nat → Nat → Nat × List plugin_call
  | 0, synced => (synced, [])
  | fuel + 1, synced =>
    if synced < count then
      match kv_caches.getD synced none with
      | some cache =>
        if sync_out_ret synced = PROVMAN_ERR_NONE then
          (synced, [plugin_call.sync_out_fn synced cache])
        else
          let r := prv_sync_out_loop count sync_out_ret kv_caches fuel (synced + 1)
          (r.1, plugin_call.sync_out_fn synced cache :: r.2)
      | none => prv_sync_out_loop count sync_out_ret kv_caches fuel (synced + 1)
    else (synced, [])

/-- The function `prv_sync_out_next_plugin`. -/
def prv_sync_out_next_plugin (count : Nat) (sync_out_ret : Nat → provman_errors)
    (manager : plugin_manager_t) : plugin_manager_t × List plugin_call :=
  let r := prv_sync_out_loop count sync_out_ret manager.kv_caches (count - manager.synced)
    manager.synced
  let manager := { manager with synced := r.1 }
  if manager.synced = count then
    (prv_schedule_completion (prv_clear_cache count manager) PROVMAN_ERR_NONE, r.2)
  else (manager, r.2)

/-- The function `prv_plugin_sync_out_cb`, the callback a plugin invokes to complete its
`sync_out_fn`. -/
def prv_plugin_sync_out_cb (count : Nat) (sync_out_ret : Nat → provman_errors)
    (manager : plugin_manager_t) (err : provman_errors) : plugin_manager_t × List plugin_call :=
  if err = PROVMAN_ERR_CANCELLED then
    (prv_schedule_completion (prv_clear_cache count manager) err, [])
  else
    prv_sync_out_next_plugin count sync_out_ret { manager with synced := manager.synced + 1 }

/-- The function `plugin_manager_sync_out`. -/
def plugin_manager_sync_out (count : Nat) (sync_out_ret : Nat → provman_errors)
    (manager : plugin_manager_t) : provman_errors × plugin_manager_t × List plugin_call :=
  if manager.state ≠ PLUGIN_MANAGER_STATE_IDLE then (PROVMAN_ERR_DENIED, manager, [])
  else
    let r := prv_sync_out_next_plugin count sync_out_ret
      { manager with synced := 0, state := PLUGIN_MANAGER_STATE_SYNC_OUT,
                     err := PROVMAN_ERR_NONE }
    (PROVMAN_ERR_NONE, r.1, r.2)

/-- The plugins complete a sync-in: as long as the manager is in state SyncIn, the plugin it
waits for (number `synced`) invokes the callback with its result `sync_in_result synced`.  The
first argument bounds the number of callbacks; `count` of them are enough. -/
def sync_in_callbacks (count : Nat) (sync_in_ret : Nat → provman_errors)
    (sync_in_result : Nat → provman_errors × Option GHashTable) :
    Nat → plugin_manager_t → plugin_manager_t × List plugin_call
  | 0, manager => (manager, [])
  | fuel + 1, manager =>
    if manager.state = PLUGIN_MANAGER_STATE_SYNC_IN then
      let r := prv_plugin_sync_in_cb count sync_in_ret manager
        (sync_in_result manager.synced).1 (sync_in_result manager.synced).2
      let r2 := sync_in_callbacks count sync_in_ret sync_in_result fuel r.1
      (r2.1, r.2 ++ r2.2)
    else (manager, [])

/-- A whole sync-in: `plugin_manager_sync_in` followed by the callbacks of the plugins. -/
def run_sync_in (count : Nat) (sync_in_ret : Nat → provman_errors)
    (sync_in_result : Nat → provman_errors × Option GHashTable) (manager : plugin_manager_t)
    (imsi : CString) : provman_errors × plugin_manager_t × List plugin_call :=
  let r := plugin_manager_sync_in count sync_in_ret manager imsi
  let r2 := sync_in_callbacks count sync_in_ret sync_in_result count r.2.1
  (r.1, r2.1, r.2.2 ++ r2.2)

/-- The plugins complete a sync-out, as `sync_in_callbacks`. -/
def sync_out_callbacks (count : Nat) (sync_out_ret : Nat → provman_errors)
    (sync_out_result : Nat → provman_errors) :
    Nat → plugin_manager_t → plugin_manager_t × List plugin_call
  | 0, manager => (manager, [])
  | fuel + 1, manager =>
    if manager.state = PLUGIN_MANAGER_STATE_SYNC_OUT then
      let r := prv_plugin_sync_out_cb count sync_out_ret manager (sync_out_result manager.synced)
      let r2 := sync_out_callbacks count sync_out_ret sync_out_result fuel r.1
      (r2.1, r.2 ++ r2.2)
    else (manager, [])

/-- A whole sync-out: `plugin_manager_sync_out` followed by the callbacks of the plugins. -/
def run_sync_out (count : Nat) (sync_out_ret : Nat → provman_errors)
    (sync_out_result : Nat → provman_errors) (manager : plugin_manager_t) :
    provman_errors × plugin_manager_t × List plugin_call :=
  let r := plugin_manager_sync_out count sync_out_ret manager
  let r2 := sync_out_callbacks count sync_out_ret sync_out_result count r.2.1
  (r.1, r2.1, r.2.2 ++ r2.2)

/-- The calls of `sync_out_fn` the specification describes, over the plugin numbers of the list
and the caches `kv_caches`: a plugin without cache is skipped, a plugin with a cache is called
with it, and the first accepted call that completes with Cancelled is the last one.  The flag
tells whether such a cancellation occurred. -/
def spec_sync_out_calls (sync_out_ret sync_out_result : Nat → provman_errors)
    (kv_caches : List (Option GHashTable)) : List Nat → List plugin_call × Bool
  | [] => ([], false)
  | i :: rest =>
    match kv_caches.getD i none with
    | none => spec_sync_out_calls sync_out_ret sync_out_result kv_caches rest
    | some cache =>
      if sync_out_ret i = PROVMAN_ERR_NONE ∧ sync_out_result i = PROVMAN_ERR_CANCELLED then
        ([plugin_call.sync_out_fn i cache], true)
      else
        let r := spec_sync_out_calls sync_out_ret sync_out_result kv_caches rest
        (plugin_call.sync_out_fn i cache :: r.1, r.2)

/-! ## plugins/ofono.c: the analysis run by sync-out -/

/-- The macro `LOCAL_KEY_TEL_ROOT`. -/
def LOCAL_KEY_TEL_ROOT : CString := "/telephony/".toList

/-- The macro `LOCAL_KEY_CONTEXT_ROOT`. -/
def LOCAL_KEY_CONTEXT_ROOT : CString := LOCAL_KEY_TEL_ROOT ++ "contexts/".toList

/-- The macro `LOCAL_KEY_MMS_ROOT`. -/
def LOCAL_KEY_MMS_ROOT : CString := LOCAL_KEY_TEL_ROOT ++ "mms/".toList

/-- The enumeration `ofono_plugin_cmd_type_t`. -/
inductive ofono_plugin_cmd_type_t
  | OFONO_PLUGIN_DELETE
  | OFONO_PLUGIN_DELETE_MMS
  | OFONO_PLUGIN_ADD
  | OFONO_PLUGIN_ADD_MMS
  | OFONO_PLUGIN_SET
  deriving DecidableEq

open ofono_plugin_cmd_type_t

/-- The structure `ofono_plugin_cmd_t`; a field left NULL by `g_new0` is `none`. -/
structure ofono_plugin_cmd_t where
  type : ofono_plugin_cmd_type_t
  path : Option CString
  value : Option CString
  deriving DecidableEq

/-- The fields of `ofono_plugin_modem_t` that the analysis reads. -/
structure ofono_plugin_modem_t where
  settings : GHashTable
  mms_context : Option CString

/-- The function `prv_have_mms` of ofono.c: some key of `settings` begins with the MMS root. -/
def prv_have_mms (settings : GHashTable) : Bool :=
  settings.any (fun kv => strncmp_is0 LOCAL_KEY_MMS_ROOT kv.1 LOCAL_KEY_MMS_ROOT.length)

/-- The function `prv_ofono_plugin_anaylse` of ofono.c: the command array it leaves in
`plugin_instance->cmds`. -/
def prv_ofono_plugin_anaylse (modem : ofono_plugin_modem_t) (new_settings : GHashTable) :
    List ofono_plugin_cmd_t :=
  let in_contexts :=
    provman_utils_get_contexts modem.settings LOCAL_KEY_CONTEXT_ROOT LOCAL_KEY_CONTEXT_ROOT.length
  let out_contexts :=
    provman_utils_get_contexts new_settings LOCAL_KEY_CONTEXT_ROOT LOCAL_KEY_CONTEXT_ROOT.length
  let in_mms := modem.mms_context.isSome
  let out_mms := prv_have_mms new_settings
  (in_contexts.filter (fun key => !(g_hash_table_lookup_extended out_contexts key))).map
      (fun key => { type := OFONO_PLUGIN_DELETE, path := some key, value := none })
  ++ (if in_mms && !out_mms then
        [{ type := OFONO_PLUGIN_DELETE_MMS, path := modem.mms_context, value := none }]
      else [])
  ++ (out_contexts.filter (fun key => !(g_hash_table_lookup_extended in_contexts key))).map
      (fun key => { type := OFONO_PLUGIN_ADD, path := some key, value := none })
  ++ (if !in_mms && out_mms then
        [{ type := OFONO_PLUGIN_ADD_MMS, path := none, value := none }]
      else [])
  ++ (new_settings.filter
        (fun kv =>
          match g_hash_table_lookup modem.settings kv.1 with
          | none => true
          | some old_value => !(strcmp_is0 kv.2 old_value))).map
      (fun kv => { type := OFONO_PLUGIN_SET, path := some kv.1, value := some kv.2 })

/-- The context of a key of the ofono plugin: the first path segment after
`/telephony/contexts/`, as `prv_ofono_plugin_anaylse` extracts it. -/
def ofono_key_context (key : CString) : Option CString :=
  provman_utils_get_context_from_key key LOCAL_KEY_CONTEXT_ROOT LOCAL_KEY_CONTEXT_ROOT.length

/-- A context is present in a settings table: some key of the table belongs to it. -/
def context_present (settings : GHashTable) (context : CString) : Prop :=
  ∃ kv ∈ settings, ofono_key_context kv.1 = some context

/-- The effect of one command of the diff on a settings table, in the words of the
specification: Delete(ctx) removes every setting of that context, Add(ctx) creates the empty
context (which holds no setting), Set(k, v) assigns v to k.  Deleting the MMS context removes
every setting under the MMS root and adding it creates it empty. -/
def spec_apply_cmd (settings : GHashTable) (cmd : ofono_plugin_cmd_t) : GHashTable :=
  match cmd.type, cmd.path, cmd.value with
  | OFONO_PLUGIN_DELETE, some ctx, _ =>
    settings.filter (fun kv => decide (ofono_key_context kv.1 ≠ some ctx))
  | OFONO_PLUGIN_DELETE_MMS, _, _ =>
    settings.filter (fun kv =>
      !(strncmp_is0 LOCAL_KEY_MMS_ROOT kv.1 LOCAL_KEY_MMS_ROOT.length))
  | OFONO_PLUGIN_SET, some k, some v => g_hash_table_insert settings k v
  | _, _, _ => settings

/-- The commands of a diff applied in order, in the words of the specification. -/
def spec_apply_cmds (settings : GHashTable) (cmds : List ofono_plugin_cmd_t) : GHashTable :=
  cmds.foldl spec_apply_cmd settings

/-! ## provman.c: the session coordinator -/

/-- A method of the interface `com.intel.provman.Settings` with its arguments, as declared in
`g_provman_introspection`; GDBus delivers no other call to `prv_provman_method_call`. -/
inductive provman_call
  | Start (imsi : CString)
  | End
  | Set (key value : CString)
  | SetAll (dict : List (CString × CString))
  | Get (key : CString)
  | GetAll (key : CString)
  | Delete (key : CString)
  deriving DecidableEq

/-- A `GDBusMethodInvocation`: the unique bus name of the caller
(`g_dbus_method_invocation_get_sender`) and the call. -/
structure GDBusMethodInvocation where
  sender : CString
  call : provman_call
  deriving DecidableEq

/-- The string argument `g_variant_get(parameters, "(&s)", &value)` reads from a Start
invocation.  Only Start invocations are ever queued; the other cases only make the function
total. -/
def GDBusMethodInvocation.imsi (invocation : GDBusMethodInvocation) : CString :=
  match invocation.call with
  | provman_call.Start imsi => imsi
  | _ => []

/-- The value returned to a caller by `g_dbus_method_invocation_return_value`. -/
inductive reply_value
  | null
  | string (value : CString)
  | strings (values : List CString)
  | dict (values : List (CString × CString))
  deriving DecidableEq

/-- What is sent back on an invocation. -/
inductive dbus_reply
  | return_value (invocation : GDBusMethodInvocation) (value : reply_value)
  | return_dbus_error (invocation : GDBusMethodInvocation) (error_name : String)
  deriving DecidableEq

/-- The macro `PROVMAN_SERVICE` of config.h, with the value documented in doc/dbus.h. -/
def PROVMAN_SERVICE : String := "com.intel.provman"

/-- The macro `PROVMAN_DBUS_ERR_UNEXPECTED` of error.h. -/
def PROVMAN_DBUS_ERR_UNEXPECTED : String := PROVMAN_SERVICE ++ ".Error.Unexpected"

/-- The enumeration `provman_task_type`. -/
inductive provman_task_type
  | PROVMAN_TASK_SYNC_IN
  | PROVMAN_TASK_SYNC_OUT
  | PROVMAN_TASK_SET
  | PROVMAN_TASK_GET
  | PROVMAN_TASK_SET_ALL
  | PROVMAN_TASK_GET_ALL
  | PROVMAN_TASK_DELETE
  deriving DecidableEq

open provman_task_type

/-- The anonymous union of `provman_task`. -/
inductive provman_task_data
  | unset
  | key (key : CString)
  | key_value (key value : CString)
  | variant (variant : List (CString × CString))
  deriving DecidableEq

/-- The structure `provman_task` of tasks.h. -/
structure provman_task where
  type : provman_task_type
  invocation : Option GDBusMethodInvocation
  imsi : Option CString
  data : provman_task_data
  deriving DecidableEq

/-- The structure `provman_context` of provman.c, with the fields of the coordinator: a source
id is modelled by whether the source is installed, `holder_watcher` by the watched name. -/
structure provman_context where
  timeout_id : Bool
  tasks : List provman_task
  idle_id : Bool
  quitting : Bool
  holder : Option CString
  holder_watcher : Option CString
  queued_clients : List GDBusMethodInvocation
  plugin_manager : plugin_manager_t

/-- The function `plugin_manager_busy`. -/
def plugin_manager_busy (manager : plugin_manager_t) : Bool :=
  decide (manager.state ≠ PLUGIN_MANAGER_STATE_IDLE)

/-- The function `prv_async_in_progress`. -/
def prv_async_in_progress (context : provman_context) : Bool :=
  plugin_manager_busy context.plugin_manager

/-- The function `prv_add_task`: the task is appended and an idle run of `prv_process_task` is
scheduled unless one is pending or an asynchronous task is in progress. -/
def prv_add_task (context : provman_context) (task : provman_task) : provman_context :=
  let context := { context with tasks := context.tasks ++ [task] }
  if !context.idle_id && !prv_async_in_progress context then { context with idle_id := true }
  else context

/-- The function `prv_add_sync_in_task`. -/
def prv_add_sync_in_task (context : provman_context) (imsi : CString) : provman_context :=
  prv_add_task context
    { type := PROVMAN_TASK_SYNC_IN, invocation := none, imsi := some imsi,
      data := provman_task_data.unset }

/-- The function `prv_add_sync_out_task`. -/
def prv_add_sync_out_task (context : provman_context) : provman_context :=
  prv_add_task context
    { type := PROVMAN_TASK_SYNC_OUT, invocation := none, imsi := none,
      data := provman_task_data.unset }

/-- The function `prv_add_get_task`. -/
def prv_add_get_task (context : provman_context) (invocation : GDBusMethodInvocation)
    (key : CString) : provman_context :=
  prv_add_task context
    { type := PROVMAN_TASK_GET, invocation := some invocation, imsi := none,
      data := provman_task_data.key (g_strstrip key) }

/-- The function `prv_add_get_all_task`. -/
def prv_add_get_all_task (context : provman_context) (invocation : GDBusMethodInvocation)
    (key : CString) : provman_context :=
  prv_add_task context
    { type := PROVMAN_TASK_GET_ALL, invocation := some invocation, imsi := none,
      data := provman_task_data.key (g_strstrip key) }

/-- The function `prv_add_set_task`. -/
def prv_add_set_task (context : provman_context) (invocation : GDBusMethodInvocation)
    (key value : CString) : provman_context :=
  prv_add_task context
    { type := PROVMAN_TASK_SET, invocation := some invocation, imsi := none,
      data := provman_task_data.key_value (g_strstrip key) value }

/-- The function `prv_add_set_all_task`. -/
def prv_add_set_all_task (context : provman_context) (invocation : GDBusMethodInvocation)
    (variant : List (CString × CString)) : provman_context :=
  prv_add_task context
    { type := PROVMAN_TASK_SET_ALL, invocation := some invocation, imsi := none,
      data := provman_task_data.variant variant }

/-- The function `prv_add_delete_task`. -/
def prv_add_delete_task (context : provman_context) (invocation : GDBusMethodInvocation)
    (key : CString) : provman_context :=
  prv_add_task context
    { type := PROVMAN_TASK_DELETE, invocation := some invocation, imsi := none,
      data := provman_task_data.key (g_strstrip key) }

/-- The function `prv_session_ended`: the context afterwards and the replies sent. -/
def prv_session_ended (context : provman_context) : provman_context × List dbus_reply :=
  let context := { context with holder := none, holder_watcher := none }
  let context := prv_add_sync_out_task context
  match context.queued_clients with
  | [] => (context, [])
  | invocation :: rest =>
    let context :=
      { context with holder := some invocation.sender, holder_watcher := some invocation.sender }
    let context := prv_add_sync_in_task context invocation.imsi
    ({ context with queued_clients := rest },
     [dbus_reply.return_value invocation reply_value.null])

/-- The function `prv_lost_client`: nothing happens when a sync-out task is found in the task
queue, otherwise the session is ended. -/
def prv_lost_client (context : provman_context) (_name : CString) :
    provman_context × List dbus_reply :=
  if context.tasks.any (fun task => decide (task.type = PROVMAN_TASK_SYNC_OUT)) then (context, [])
  else prv_session_ended context

/-- The function `prv_find_connection`: the sender of the invocation is the holder or has an
invocation in the queue. -/
def prv_find_connection (context : provman_context) (new_invocation : GDBusMethodInvocation) :
    Bool :=
  decide (some new_invocation.sender = context.holder)
    || context.queued_clients.any (fun invocation => decide (new_invocation.sender = invocation.sender))

/-- The function `prv_provman_method_call`: the context afterwards and the replies sent.  The
last case of the inner match is never reached, Start being handled by the first branch. -/
def prv_provman_method_call (context : provman_context) (invocation : GDBusMethodInvocation) :
    provman_context × List dbus_reply :=
  let context := if context.timeout_id then { context with timeout_id := false } else context
  match invocation.call with
  | provman_call.Start value =>
    if context.holder = none then
      let context :=
        { context with holder := some invocation.sender,
                       holder_watcher := some invocation.sender }
      (prv_add_sync_in_task context value,
       [dbus_reply.return_value invocation reply_value.null])
    else if !prv_find_connection context invocation then
      ({ context with queued_clients := context.queued_clients ++ [invocation] }, [])
    else
      (context, [dbus_reply.return_dbus_error invocation PROVMAN_DBUS_ERR_UNEXPECTED])
  | call =>
    if context.holder ≠ some invocation.sender then
      (context, [dbus_reply.return_dbus_error invocation PROVMAN_DBUS_ERR_UNEXPECTED])
    else
      match call with
      | provman_call.End =>
        let r := prv_session_ended context
        (r.1, dbus_reply.return_value invocation reply_value.null :: r.2)
      | provman_call.Set key value => (prv_add_set_task context invocation key value, [])
      | provman_call.SetAll variant => (prv_add_set_all_task context invocation variant, [])
      | provman_call.Get key => (prv_add_get_task context invocation key, [])
      | provman_call.GetAll key => (prv_add_get_all_task context invocation key, [])
      | provman_call.Delete key => (prv_add_delete_task context invocation key, [])
      | provman_call.Start _ => (context, [])

/-- The coordinator context set up by `provman_run` before the main loop runs: the idle
timeout is armed, nothing is queued, and `plugin_manager_new` has left the manager idle with
every cache NULL. -/
def provman_context_init (plugins : List provman_plugin) : provman_context :=
  { timeout_id := true, tasks := [], idle_id := false, quitting := false, holder := none,
    holder_watcher := none, queued_clients := [],
    plugin_manager :=
      { state := PLUGIN_MANAGER_STATE_IDLE, kv_caches := List.replicate plugins.length none,
        synced := 0, err := PROVMAN_ERR_NONE, completion_source := false, imsi := none } }

/-- An event the main loop dispatches to the coordinator: a method call, or the loss of the
watched holder. -/
inductive provman_event
  | method_call (invocation : GDBusMethodInvocation)
  | lost_client

/-- The handler run for an event; the name watcher only exists while a holder is watched. -/
def provman_dispatch (context : provman_context) : provman_event → provman_context
  | provman_event.method_call invocation => (prv_provman_method_call context invocation).1
  | provman_event.lost_client =>
    match context.holder_watcher with
    | some name => (prv_lost_client context name).1
    | none => context

/-- The context after a sequence of events, from the initial context. -/
def provman_run_events (plugins : List provman_plugin) (events : List provman_event) :
    provman_context :=
  events.foldl provman_dispatch (provman_context_init plugins)

instance (settings : GHashTable) (context : CString) :
    Decidable (context_present settings context) := by
  unfold context_present
  infer_instance

instance (root key : CString) : Decidable (root_owns root key) := by
  unfold root_owns
  infer_instance

/-! ## error.c and tasks.c: the tasks run by the coordinator -/

/-- The macro `PROVMAN_DBUS_ERR_CANCELLED` of error.h. -/
def PROVMAN_DBUS_ERR_CANCELLED : String := PROVMAN_SERVICE ++ ".Error.Cancelled"

/-- The macro `PROVMAN_DBUS_ERR_UNKNOWN` of error.h. -/
def PROVMAN_DBUS_ERR_UNKNOWN : String := PROVMAN_SERVICE ++ ".Error.Unknown"

/-- The macro `PROVMAN_DBUS_ERR_OOM` of error.h. -/
def PROVMAN_DBUS_ERR_OOM : String := PROVMAN_SERVICE ++ ".Error.Oom"

/-- The macro `PROVMAN_DBUS_ERR_NOT_FOUND` of error.h. -/
def PROVMAN_DBUS_ERR_NOT_FOUND : String := PROVMAN_SERVICE ++ ".Error.NotFound"

/-- The macro `PROVMAN_DBUS_ERR_BAD_ARGS` of error.h. -/
def PROVMAN_DBUS_ERR_BAD_ARGS : String := PROVMAN_SERVICE ++ ".Error.BadArgs"

/-- The macro `PROVMAN_DBUS_ERR_IN_PROGRESS` of error.h. -/
def PROVMAN_DBUS_ERR_IN_PROGRESS : String := PROVMAN_SERVICE ++ ".Error.TransactionInProgress"

/-- The macro `PROVMAN_DBUS_ERR_NO_TRANSACTION` of error.h. -/
def PROVMAN_DBUS_ERR_NO_TRANSACTION : String := PROVMAN_SERVICE ++ ".Error.NotInTransaction"

/-- The function `provman_err_to_dbus` of error.c. -/
def provman_err_to_dbus : provman_errors → String
  | PROVMAN_ERR_NONE => ""
  | PROVMAN_ERR_OOM => PROVMAN_DBUS_ERR_OOM
  | PROVMAN_ERR_NOT_FOUND => PROVMAN_DBUS_ERR_NOT_FOUND
  | PROVMAN_ERR_CANCELLED => PROVMAN_DBUS_ERR_CANCELLED
  | PROVMAN_ERR_TRANSACTION_IN_PROGRESS => PROVMAN_DBUS_ERR_IN_PROGRESS
  | PROVMAN_ERR_NOT_IN_TRANSACTION => PROVMAN_DBUS_ERR_NO_TRANSACTION
  | PROVMAN_ERR_BAD_ARGS => PROVMAN_DBUS_ERR_BAD_ARGS
  | _ => PROVMAN_DBUS_ERR_UNKNOWN

/-- The behaviour of the plugins seen by the coordinator: the table of plugins and the value
each plugin's `sync_in_fn` and `sync_out_fn` returns when it is called. -/
structure plugin_behaviour where
  plugins : List provman_plugin
  sync_in_ret : Nat → provman_errors
  sync_out_ret : Nat → provman_errors

/-- The function `provman_plugin_get_count`. -/
def provman_plugin_get_count (behaviour : plugin_behaviour) : Nat := behaviour.plugins.length

/-- The reply sent on the invocation of a task, if the task has one. -/
def task_reply (task : provman_task) (reply : GDBusMethodInvocation → dbus_reply) :
    List dbus_reply :=
  match task.invocation with
  | some invocation => [reply invocation]
  | none => []

/-- The function `provman_task_sync_in`: whether the sync-in has been started, the manager
afterwards and the plugin calls made.  A SYNC_IN task always carries an IMSI. -/
def provman_task_sync_in (behaviour : plugin_behaviour) (manager : plugin_manager_t)
    (task : provman_task) : Bool × plugin_manager_t × List plugin_call :=
  let r := plugin_manager_sync_in (provman_plugin_get_count behaviour) behaviour.sync_in_ret
    manager (task.imsi.getD [])
  (decide (r.1 = PROVMAN_ERR_NONE), r.2.1, r.2.2)

/-- The function `provman_task_sync_out`. -/
def provman_task_sync_out (behaviour : plugin_behaviour) (manager : plugin_manager_t) :
    Bool × plugin_manager_t × List plugin_call :=
  let r := plugin_manager_sync_out (provman_plugin_get_count behaviour) behaviour.sync_out_ret
    manager
  (decide (r.1 = PROVMAN_ERR_NONE), r.2.1, r.2.2)

/-- The reply of a task that returns no value: success, or the D-Bus error of `err`. -/
def task_reply_of_err (task : provman_task) (err : provman_errors) (value : reply_value) :
    List dbus_reply :=
  if err = PROVMAN_ERR_NONE then
    task_reply task (fun invocation => dbus_reply.return_value invocation value)
  else
    task_reply task
      (fun invocation => dbus_reply.return_dbus_error invocation (provman_err_to_dbus err))

/-- The function `provman_task_set`: the manager afterwards, the replies sent and the plugin
calls made. -/
def provman_task_set (behaviour : plugin_behaviour) (manager : plugin_manager_t)
    (task : provman_task) : plugin_manager_t × List dbus_reply × List plugin_call :=
  match task.data with
  | provman_task_data.key_value key value =>
    let r := plugin_manager_set behaviour.plugins manager key value
    (r.2.1, task_reply_of_err task r.1 reply_value.null, r.2.2)
  | _ => (manager, [], [])

/-- The function `provman_task_set_all`. -/
def provman_task_set_all (behaviour : plugin_behaviour) (manager : plugin_manager_t)
    (task : provman_task) : plugin_manager_t × List dbus_reply × List plugin_call :=
  match task.data with
  | provman_task_data.variant variant =>
    let r := plugin_manager_set_all behaviour.plugins manager variant
    (r.2.1, task_reply_of_err task r.1 (reply_value.strings r.2.2.1), r.2.2.2)
  | _ => (manager, [], [])

/-- The function `provman_task_get`. -/
def provman_task_get (behaviour : plugin_behaviour) (manager : plugin_manager_t)
    (task : provman_task) : List dbus_reply :=
  match task.data with
  | provman_task_data.key key =>
    let r := plugin_manager_get behaviour.plugins manager key
    task_reply_of_err task r.1 (reply_value.string (r.2.getD []))
  | _ => []

/-- The function `provman_task_get_all`: on failure the error name is computed from the local
variable `err`, which still holds PROVMAN_ERR_NONE. -/
def provman_task_get_all (behaviour : plugin_behaviour) (manager : plugin_manager_t)
    (task : provman_task) : List dbus_reply :=
  match task.data with
  | provman_task_data.key key =>
    let r := plugin_manager_get_all (provman_plugin_get_count behaviour) manager key
    if r.1 ≠ PROVMAN_ERR_NONE then
      task_reply task
        (fun invocation =>
          dbus_reply.return_dbus_error invocation (provman_err_to_dbus PROVMAN_ERR_NONE))
    else
      task_reply task
        (fun invocation => dbus_reply.return_value invocation (reply_value.dict r.2))
  | _ => []

/-- The function `provman_task_delete`. -/
def provman_task_delete (behaviour : plugin_behaviour) (manager : plugin_manager_t)
    (task : provman_task) : plugin_manager_t × List dbus_reply × List plugin_call :=
  match task.data with
  | provman_task_data.key key =>
    let r := plugin_manager_remove behaviour.plugins manager key
    (r.2.1, task_reply_of_err task r.1 reply_value.null, r.2.2)
  | _ => (manager, [], [])

/-! ## provman.c: the main loop around the coordinator

The coordinator runs inside a GLib main loop.  The sources it attaches with `g_idle_add` are
kept in a list in the order of attachment; the main loop dispatches the oldest one first. -/

/-- What `prv_process_task` leaves: the context, the value it returns (TRUE keeps the idle
source attached), whether `g_main_loop_quit` was called, the replies sent and the plugin calls
made. -/
structure process_task_result where
  context : provman_context
  again : Bool
  quit : Bool
  replies : List dbus_reply
  calls : List plugin_call

/-- The switch of `prv_process_task` on the type of the task: whether an asynchronous task has
been started, the manager afterwards, the replies sent and the plugin calls made. -/
def prv_process_task_switch (behaviour : plugin_behaviour) (manager : plugin_manager_t)
    (task : provman_task) : Bool × plugin_manager_t × List dbus_reply × List plugin_call :=
  match task.type with
  | PROVMAN_TASK_SYNC_IN =>
    let r := provman_task_sync_in behaviour manager task
    (r.1, r.2.1, [], r.2.2)
  | PROVMAN_TASK_SYNC_OUT =>
    let r := provman_task_sync_out behaviour manager
    (r.1, r.2.1, [], r.2.2)
  | PROVMAN_TASK_SET =>
    let r := provman_task_set behaviour manager task
    (false, r.1, r.2.1, r.2.2)
  | PROVMAN_TASK_SET_ALL =>
    let r := provman_task_set_all behaviour manager task
    (false, r.1, r.2.1, r.2.2)
  | PROVMAN_TASK_GET => (false, manager, provman_task_get behaviour manager task, [])
  | PROVMAN_TASK_GET_ALL => (false, manager, provman_task_get_all behaviour manager task, [])
  | PROVMAN_TASK_DELETE =>
    let r := provman_task_delete behaviour manager task
    (false, r.1, r.2.1, r.2.2)

/-- The function `prv_process_task`, the callback of the idle source of the coordinator: the
task at the head of the queue, if any, is run and removed. -/
def prv_process_task (behaviour : plugin_behaviour) (context : provman_context) :
    process_task_result :=
  let r : Bool × provman_context × List dbus_reply × List plugin_call :=
    match context.tasks with
    | task :: rest =>
      if !context.quitting then
        let r := prv_process_task_switch behaviour context.plugin_manager task
        (r.1, { context with plugin_manager := r.2.1, tasks := rest }, r.2.2.1, r.2.2.2)
      else (false, context, [], [])
    | [] => (false, context, [], [])
  let async_task := r.1
  let context := r.2.1
  if !async_task then
    if context.quitting || (context.tasks.isEmpty && context.holder.isNone) then
      { context := { context with idle_id := false }, again := false, quit := true,
        replies := r.2.2.1, calls := r.2.2.2 }
    else if context.holder.isSome then
      { context := { context with idle_id := false }, again := false, quit := false,
        replies := r.2.2.1, calls := r.2.2.2 }
    else
      { context := context, again := true, quit := false, replies := r.2.2.1,
        calls := r.2.2.2 }
  else
    { context := { context with idle_id := false }, again := false, quit := false,
      replies := r.2.2.1, calls := r.2.2.2 }

/-- The functions `prv_sync_in_task_finished` and `prv_sync_out_task_finished` of provman.c,
which are the same: `g_idle_add` is called and its result stored in `idle_id`, whatever
`idle_id` held. -/
def prv_sync_task_finished (context : provman_context) : provman_context :=
  { context with idle_id := true }

/-- A source attached with `g_idle_add`, named by its callback. -/
inductive idle_source
  | process_task
  | complete_callback
  deriving DecidableEq

/-- The main loop: the context of the coordinator, the idle sources attached (oldest first),
whether `g_main_loop_quit` has been called, and the replies sent and plugin calls made so
far. -/
structure main_loop where
  context : provman_context
  idle_sources : List idle_source
  quit : Bool
  replies : List dbus_reply
  calls : List plugin_call

/-- Something the main loop dispatches: a method call, the loss of the watched holder, the
oldest idle source, or the callback by which the plugin the manager waits for completes its
`sync_in_fn` or `sync_out_fn`. -/
inductive main_loop_event
  | method_call (invocation : GDBusMethodInvocation)
  | lost_client
  | idle
  | plugin_sync_in_cb (err : provman_errors) (settings : Option GHashTable)
  | plugin_sync_out_cb (err : provman_errors)

/-- The idle sources after a handler has run: `prv_add_task` attaches `prv_process_task` when
it sets `idle_id`, and `prv_schedule_completion` attaches `prv_complete_callback` when it sets
`completion_source`. -/
def attach_idle_sources (before after : provman_context) (sources : List idle_source) :
    List idle_source :=
  let sources :=
    if !before.idle_id && after.idle_id then sources ++ [idle_source.process_task]
    else sources
  if !before.plugin_manager.completion_source && after.plugin_manager.completion_source then
    sources ++ [idle_source.complete_callback]
  else sources

/-- The main loop dispatches one event.  Nothing is dispatched once the loop has been quit; a
plugin callback is only possible while the manager waits for a plugin; an idle source whose
callback returns TRUE stays attached and is dispatched again after the other ones. -/
def main_loop_dispatch (behaviour : plugin_behaviour) (loop : main_loop) :
    main_loop_event → main_loop
  | main_loop_event.method_call invocation =>
    if loop.quit then loop
    else
      let r := prv_provman_method_call loop.context invocation
      { loop with context := r.1,
                  idle_sources := attach_idle_sources loop.context r.1 loop.idle_sources,
                  replies := loop.replies ++ r.2 }
  | main_loop_event.lost_client =>
    if loop.quit then loop
    else
      match loop.context.holder_watcher with
      | some name =>
        let r := prv_lost_client loop.context name
        { loop with context := r.1,
                    idle_sources := attach_idle_sources loop.context r.1 loop.idle_sources,
                    replies := loop.replies ++ r.2 }
      | none => loop
  | main_loop_event.idle =>
    if loop.quit then loop
    else
      match loop.idle_sources with
      | [] => loop
      | idle_source.process_task :: rest =>
        let r := prv_process_task behaviour loop.context
        { context := r.context,
          idle_sources :=
            attach_idle_sources loop.context r.context
              (if r.again then rest ++ [idle_source.process_task] else rest),
          quit := r.quit,
          replies := loop.replies ++ r.replies,
          calls := loop.calls ++ r.calls }
      | idle_source.complete_callback :: rest =>
        let r := prv_complete_callback loop.context.plugin_manager
        { loop with
            context := prv_sync_task_finished { loop.context with plugin_manager := r.1 },
            idle_sources := rest ++ [idle_source.process_task] }
  | main_loop_event.plugin_sync_in_cb err settings =>
    if loop.quit || decide (loop.context.plugin_manager.state ≠ PLUGIN_MANAGER_STATE_SYNC_IN)
    then loop
    else
      let r := prv_plugin_sync_in_cb (provman_plugin_get_count behaviour) behaviour.sync_in_ret
        loop.context.plugin_manager err settings
      let context := { loop.context with plugin_manager := r.1 }
      { loop with context := context,
                  idle_sources := attach_idle_sources loop.context context loop.idle_sources,
                  calls := loop.calls ++ r.2 }
  | main_loop_event.plugin_sync_out_cb err =>
    if loop.quit || decide (loop.context.plugin_manager.state ≠ PLUGIN_MANAGER_STATE_SYNC_OUT)
    then loop
    else
      let r := prv_plugin_sync_out_cb (provman_plugin_get_count behaviour)
        behaviour.sync_out_ret loop.context.plugin_manager err
      let context := { loop.context with plugin_manager := r.1 }
      { loop with context := context,
                  idle_sources := attach_idle_sources loop.context context loop.idle_sources,
                  calls := loop.calls ++ r.2 }

/-- The main loop when `provman_run` starts it. -/
def main_loop_init (behaviour : plugin_behaviour) : main_loop :=
  { context := provman_context_init behaviour.plugins, idle_sources := [], quit := false,
    replies := [], calls := [] }

/-- The main loop after a sequence of events. -/
def main_loop_run (behaviour : plugin_behaviour) (events : List main_loop_event) : main_loop :=
  events.foldl (main_loop_dispatch behaviour) (main_loop_init behaviour)

/-! ## The byte read at index `length - 1`

Lengths are held in `unsigned int` variables, 32 bits wide; the bytes of a string are those at
the indices up to its length, the index of the terminating NUL. -/

/-- In `prv_key_matches_search`: the index at which `search_key[search_key_len-1]` is read, if
the function evaluates that expression (the key is at least as long as the search key,
`strncmp` finds the first `search_key_len` bytes equal and the lengths differ). -/
def prv_key_matches_search_read (search_key key : CString) : Option Nat :=
  let search_key_len := search_key.length
  let key_len := key.length
  if key_len ≥ search_key_len then
    if strncmp_is0 search_key key search_key_len then
      if key_len = search_key_len then none
      else some (uint_sub search_key_len 1)
    else none
  else none

/-- In `provman_plugin_find_children`, for one plugin root: the index at which
`uri[uri_len - 1]` is read, if the function evaluates that expression (the uri is not longer
than the root, `strncmp` finds the first `uri_len` bytes equal and the lengths differ). -/
def provman_plugin_find_children_read (uri root : CString) : Option Nat :=
  let uri_len := uri.length
  let plugin_uri_len := root.length
  if uri_len > plugin_uri_len then none
  else if strncmp_is0 root uri uri_len then
    if uri_len = plugin_uri_len then none
    else some (uint_sub uri_len 1)
  else none

/-! ## The invariant of the wait queue -/

/-- What holds of the holder and the wait queue of the coordinator: without a holder nobody
waits, the senders of the waiting invocations are pairwise distinct, and the holder does not
wait. -/
def wait_queue_invariant (holder : Option CString)
    (queued_clients : List GDBusMethodInvocation) : Prop :=
  (holder = none → queued_clients = [])
    ∧ (queued_clients.map (fun invocation => invocation.sender)).Nodup
    ∧ ∀ name, holder = some name →
        name ∉ queued_clients.map (fun invocation => invocation.sender)

/-! ## Settings tables used as examples -/

/-- A snapshot with two settings of the context `a`. -/
def snapshot_a_xy : GHashTable :=
  [("/telephony/contexts/a/x".toList, "1".toList),
   ("/telephony/contexts/a/y".toList, "2".toList)]

/-- A snapshot with one setting of the context `a`. -/
def snapshot_a_x : GHashTable := [("/telephony/contexts/a/x".toList, "1".toList)]

/-- A final cache with one setting of the context `b`. -/
def cache_b_y : GHashTable := [("/telephony/contexts/b/y".toList, "2".toList)]

/-! ## Clients used as examples -/

/-- The unique bus name of a first client. -/
def client_a : CString := ":1.1".toList

/-- The unique bus name of a second client. -/
def client_b : CString := ":1.2".toList

/-- A Start call of a client, with the empty IMSI. -/
def start_of (sender : CString) : GDBusMethodInvocation :=
  { sender := sender, call := provman_call.Start [] }

/-- An End call of a client. -/
def end_of (sender : CString) : GDBusMethodInvocation :=
  { sender := sender, call := provman_call.End }

/-- The task `prv_add_sync_out_task` appends. -/
def sync_out_task : provman_task :=
  { type := PROVMAN_TASK_SYNC_OUT, invocation := none, imsi := none,
    data := provman_task_data.unset }

/-- The task `prv_add_sync_in_task` appends. -/
def sync_in_task (imsi : CString) : provman_task :=
  { type := PROVMAN_TASK_SYNC_IN, invocation := none, imsi := some imsi,
    data := provman_task_data.unset }

/-! ## Plugin tables used as examples -/

/-- A plugin with the given name and root whose validators accept every key. -/
def plugin_with_root (name root : String) : provman_plugin :=
  { name := name.toList, root := root.toList,
    validate_set_fn := fun _ _ => PROVMAN_ERR_NONE,
    validate_del_fn := fun _ => (PROVMAN_ERR_NONE, false) }

/-- The plugin table of plugin-system.c: the ofono plugin, rooted at `/telephony/`. -/
def system_plugins : List provman_plugin := [plugin_with_root "ofono" "/telephony/"]

/-- The plugin table of plugin-session.c with both plugins compiled in. -/
def session_plugins : List provman_plugin :=
  [plugin_with_root "eds" "/applications/email/",
   plugin_with_root "sync-evolution" "/applications/sync/"]

/-- A plugin table that `provman_plugin_check` accepts, in which the root of the first plugin
occurs inside the root of the second one. -/
def nested_plugins : List provman_plugin :=
  [plugin_with_root "b" "/b/", plugin_with_root "ab" "/a/b/"]

/-- A key under the root of the second session plugin that contains the root of the first
one. -/
def key_in_sync_with_email_inside : CString :=
  "/applications/sync/acc/applications/email/x".toList

/-- A key under no root of the session plugins that contains the root of the first one. -/
def key_outside_with_email_inside : CString := "/x/applications/email/y".toList

/-- The caches of the nested plugins when the first is empty and the second holds one setting
under its root. -/
def caches_of_nested : List (Option GHashTable) :=
  [some [], some [("/a/b/x".toList, "1".toList)]]

/-! ## Plugin managers and a stricter plugin used as examples -/

/-- An idle plugin manager holding the given caches, with no operation pending. -/
def idle_manager (kv_caches : List (Option GHashTable)) : plugin_manager_t :=
  { state := PLUGIN_MANAGER_STATE_IDLE, kv_caches := kv_caches, synced := 0,
    err := PROVMAN_ERR_NONE, completion_source := false, imsi := none }

/-- A plugin rooted at `/telephony/` that refuses to set `/telephony/imsi`, refuses to delete
`/telephony/mms`, reports `/telephony/contexts` and every `/telephony/contexts/<name>` as a
directory and every other key as a leaf. -/
def strict_plugin : provman_plugin :=
  { name := "strict".toList, root := "/telephony/".toList,
    validate_set_fn := fun key _ =>
      if key = "/telephony/imsi".toList then PROVMAN_ERR_BAD_KEY else PROVMAN_ERR_NONE,
    validate_del_fn := fun key =>
      if key = "/telephony/mms".toList then (PROVMAN_ERR_BAD_KEY, false)
      else if key = "/telephony/contexts".toList ∨ key = "/telephony/contexts/a".toList
        ∨ key = "/telephony/contexts/b".toList then (PROVMAN_ERR_NONE, false)
      else (PROVMAN_ERR_NONE, true) }

/-- A plugin table holding the stricter plugin only. -/
def strict_plugins : List provman_plugin := [strict_plugin]

/-! ## Plugin behaviours and caches used as examples -/

/-- A synchronous behaviour: the first plugin accepts the call, every other one rejects it. -/
def accept_first (i : Nat) : provman_errors :=
  if i = 0 then PROVMAN_ERR_NONE else PROVMAN_ERR_UNKNOWN

/-- A synchronous behaviour: every plugin accepts the call. -/
def accept_all (_ : Nat) : provman_errors := PROVMAN_ERR_NONE

/-- A sync-in completion: every plugin completes without error with one setting of the context
`a`. -/
def sync_in_result_a_x (_ : Nat) : provman_errors × Option GHashTable :=
  (PROVMAN_ERR_NONE, some snapshot_a_x)

/-- A sync-out completion: the first plugin completes with an error that is not Cancelled, the
other ones without error. -/
def sync_out_result_first_fails (i : Nat) : provman_errors :=
  if i = 0 then PROVMAN_ERR_UNKNOWN else PROVMAN_ERR_NONE

/-- The caches of two plugins: the first holds `/applications` and `/applications/x`, the
second `/applicationsFoo/x`. -/
def applications_caches : List (Option GHashTable) :=
  [some [("/applications".toList, "r".toList), ("/applications/x".toList, "1".toList)],
   some [("/applicationsFoo/x".toList, "2".toList)]]

/-- Three entries for SetAll: a key with blanks around it, the key the stricter plugin refuses,
and a setting of the context `a`. -/
def set_all_entries : List (CString × CString) :=
  [(" /telephony/mms/apn ".toList, "internet".toList),
   ("/telephony/imsi".toList, "1".toList),
   ("/telephony/contexts/a/x".toList, "1".toList)]

/-! ## A run of the main loop used as an example -/

/-- The system instance: the plugin table of plugin-system.c, its plugin accepting every
`sync_in_fn` and `sync_out_fn` call. -/
def system_behaviour : plugin_behaviour :=
  { plugins := system_plugins, sync_in_ret := accept_all, sync_out_ret := accept_all }

/-- A first client starts a session and a second one queues; the sync-in of the first session
is started and the plugin completes it; before the main loop dispatches the completion, the
first client ends its session. -/
def events_end_before_completion : List main_loop_event :=
  [main_loop_event.method_call (start_of client_a),
   main_loop_event.method_call (start_of client_b),
   main_loop_event.idle,
   main_loop_event.plugin_sync_in_cb PROVMAN_ERR_NONE (some snapshot_a_x),
   main_loop_event.method_call (end_of client_a)]

/-! ## Requests and runs of the main loop used as examples -/

/-- A Set call of a client. -/
def set_of (sender : CString) (key value : String) : GDBusMethodInvocation :=
  { sender := sender, call := provman_call.Set key.toList value.toList }

/-- A Get call of a client. -/
def get_of (sender : CString) (key : String) : GDBusMethodInvocation :=
  { sender := sender, call := provman_call.Get key.toList }

/-- A GetAll call of a client. -/
def get_all_of (sender : CString) (key : String) : GDBusMethodInvocation :=
  { sender := sender, call := provman_call.GetAll key.toList }

/-- The task `prv_add_set_task` appends for a Set call with a key without blanks. -/
def set_task (sender : CString) (key value : String) : provman_task :=
  { type := PROVMAN_TASK_SET, invocation := some (set_of sender key value), imsi := none,
    data := provman_task_data.key_value key.toList value.toList }

/-- The task `prv_add_get_task` appends for a Get call with a key without blanks. -/
def get_task (sender : CString) (key : String) : provman_task :=
  { type := PROVMAN_TASK_GET, invocation := some (get_of sender key), imsi := none,
    data := provman_task_data.key key.toList }

/-- The task `prv_add_get_all_task` appends for a GetAll call with a key without blanks. -/
def get_all_task (sender : CString) (key : String) : provman_task :=
  { type := PROVMAN_TASK_GET_ALL, invocation := some (get_all_of sender key), imsi := none,
    data := provman_task_data.key key.toList }

/-- The stricter plugin alone, accepting every `sync_in_fn` and `sync_out_fn` call. -/
def strict_behaviour : plugin_behaviour :=
  { plugins := strict_plugins, sync_in_ret := accept_all, sync_out_ret := accept_all }

/-- The settings of the example in the documentation of `provman_utils_get_contexts`. -/
def utils_h_settings : GHashTable :=
  [("/telephony/contexts/operator3G/apn".toList, "apn.net".toList),
   ("/telephony/contexts/operator3G/name".toList, "apn1".toList),
   ("/telephony/contexts/company1/apn".toList, "companyapn.net".toList),
   ("/telephony/contexts/company1/name".toList, "fast apn".toList)]

/-- A client starts a session and sends two Set calls before the main loop runs a task; then
the sync-in is run and completed, and every idle source is dispatched. -/
def events_two_sets : List main_loop_event :=
  [main_loop_event.method_call (start_of client_a),
   main_loop_event.method_call (set_of client_a "/telephony/mms/apn" "internet"),
   main_loop_event.method_call (set_of client_a "/telephony/mms/name" "mms"),
   main_loop_event.idle,
   main_loop_event.plugin_sync_in_cb PROVMAN_ERR_NONE (some []),
   main_loop_event.idle,
   main_loop_event.idle]

/-- A first session is started, synchronised and ended; while its sync-out is in progress a
second client starts a session; the plugin completes the sync-out and, before the main loop
dispatches the completion, the second client calls GetAll; then the idle sources are
dispatched. -/
def events_get_all_in_window : List main_loop_event :=
  [main_loop_event.method_call (start_of client_a),
   main_loop_event.idle,
   main_loop_event.plugin_sync_in_cb PROVMAN_ERR_NONE (some snapshot_a_x),
   main_loop_event.idle,
   main_loop_event.idle,
   main_loop_event.method_call (end_of client_a),
   main_loop_event.idle,
   main_loop_event.method_call (start_of client_b),
   main_loop_event.plugin_sync_out_cb PROVMAN_ERR_NONE,
   main_loop_event.method_call (get_all_of client_b "/telephony"),
   main_loop_event.idle,
   main_loop_event.idle,
   main_loop_event.idle]

/-- A first client starts and ends a session and a second one starts its session before the
main loop has run a task; the second client then disconnects, which the name watcher reports
once; the main loop runs every task to completion, and the first client calls Start again. -/
def events_holder_lost_early : List main_loop_event :=
  [main_loop_event.method_call (start_of client_a),
   main_loop_event.method_call (end_of client_a),
   main_loop_event.method_call (start_of client_b),
   main_loop_event.lost_client,
   main_loop_event.idle,
   main_loop_event.plugin_sync_in_cb PROVMAN_ERR_NONE (some []),
   main_loop_event.idle,
   main_loop_event.idle,
   main_loop_event.plugin_sync_out_cb PROVMAN_ERR_NONE,
   main_loop_event.idle,
   main_loop_event.idle,
   main_loop_event.plugin_sync_in_cb PROVMAN_ERR_NONE (some []),
   main_loop_event.idle,
   main_loop_event.idle,
   main_loop_event.method_call (start_of client_a)]

/-! ## Properties of the string primitives -/

theorem strncmp_is0_iff_take (a b : CString) (n : Nat) :
    strncmp_is0 a b n = true ↔ a.take n = b.take n := by
  induction n generalizing a b with
  | zero => simp [strncmp_is0]
  | succ n ih =>
    cases a with
    | nil => cases b <;> simp [strncmp_is0]
    | cons x xs =>
      cases b with
      | nil => simp [strncmp_is0]
      | cons y ys =>
        by_cases h : x = y
        · simp [strncmp_is0, h, ih]
        · simp [strncmp_is0, h]

theorem strncmp_is0_length_iff_starts (a b : CString) :
    strncmp_is0 a b a.length = true ↔ a <+: b := by
  rw [strncmp_is0_iff_take, List.take_length]
  constructor
  · intro h
    rw [h]
    exact List.take_prefix _ _
  · intro h
    exact (List.prefix_iff_eq_take.mp h)

theorem strstr_found_iff_infix (h n : CString) : strstr_found h n = true ↔ n <:+: h := by
  induction h with
  | nil => simp [strstr_found, List.isEmpty_iff]
  | cons c cs ih =>
    simp only [strstr_found, Bool.or_eq_true, List.isPrefixOf_iff_prefix, ih]
    rw [List.infix_cons_iff]


theorem charAt_zero_eq_slash_iff (s : CString) : charAt s 0 = '/' ↔ ['/'] <+: s := by
  cases s with
  | nil => simp [charAt]
  | cons c cs => simp [charAt, eq_comm]

theorem prv_validate_key_loop_eq_none_iff (s : CString) :
    prv_validate_key_loop s = PROVMAN_ERR_NONE ↔ ¬ ['/', '/'] <:+: s := by
  induction s with
  | nil => simp [prv_validate_key_loop]
  | cons c rest ih =>
    rw [List.infix_cons_iff]
    by_cases hc : c = '/'
    · by_cases hr : charAt rest 0 = '/'
      · have hp : ['/'] <+: rest := (charAt_zero_eq_slash_iff rest).mp hr
        simp [prv_validate_key_loop, hc, hr, hp]
      · have hp : ¬ ['/'] <+: rest := fun h => hr ((charAt_zero_eq_slash_iff rest).mpr h)
        simp [prv_validate_key_loop, hc, hr, hp, ih]
    · have hc2 : ¬ '/' = c := fun h => hc h.symm
      simp [prv_validate_key_loop, hc, hc2, ih]

theorem provman_utils_validate_key_eq_none_iff (key : CString) :
    provman_utils_validate_key (some key) = PROVMAN_ERR_NONE ↔
      ['/'] <+: key ∧ ¬ ['/', '/'] <:+: key.drop 1 := by
  unfold provman_utils_validate_key
  by_cases h : charAt key 0 = '/'
  · simp [h, (charAt_zero_eq_slash_iff key).mp h, prv_validate_key_loop_eq_none_iff]
  · have hp : ¬ ['/'] <+: key := fun hp => h ((charAt_zero_eq_slash_iff key).mpr hp)
    simp [h, hp]

/-! ## C3: the key validator -/

/-- C3: the validator does not reject every key with two adjacent slashes.  It accepts a key
exactly when the key starts with a slash and no two adjacent slashes occur after the first
character, so the key `//x`, which starts with two adjacent slashes, is accepted with
`PROVMAN_ERR_NONE`, against the documentation of utils.h. -/
theorem validate_key_accepts_leading_double_slash :
    provman_utils_validate_key (some "//x".toList) = PROVMAN_ERR_NONE
      ∧ ['/', '/'] <:+: "//x".toList
      ∧ ∀ key : CString, provman_utils_validate_key (some key) = PROVMAN_ERR_NONE ↔
          (['/'] <+: key ∧ ¬ ['/', '/'] <:+: key.drop 1) :=
  ⟨by decide, ⟨[], ['x'], rfl⟩, provman_utils_validate_key_eq_none_iff⟩

/-! ## C4 and C6: routing by root and the registry check -/

theorem prv_find_index_matches_iff (root uri : CString) :
    prv_find_index_matches root uri = true ↔
      (root ≠ [] ∧ uri = root.dropLast) ∨ root <:+: uri := by
  unfold prv_find_index_matches
  rw [Bool.or_eq_true, Bool.and_eq_true, decide_eq_true_eq, strncmp_is0_iff_take,
    strstr_found_iff_infix]
  constructor
  · rintro (⟨hlen, htake⟩ | h)
    · left
      refine ⟨by intro h0; simp [h0] at hlen, ?_⟩
      rw [List.dropLast_eq_take, htake, hlen]
      simp
    · exact Or.inr h
  · rintro (⟨hne, huri⟩ | h)
    · left
      have hlen : root.length = uri.length + 1 := by
        have hpos : 0 < root.length := List.length_pos.mpr hne
        rw [huri, List.length_dropLast]
        omega
      refine ⟨hlen, ?_⟩
      rw [← List.dropLast_eq_take, ← huri, hlen]
      simp
    · exact Or.inr h

theorem prv_find_index_from_some (uri : CString) (plugins : List provman_plugin) (i k : Nat)
    (h : prv_find_index_from uri plugins i = some k) :
    ∃ p, plugins.get? (k - i) = some p ∧ i ≤ k ∧ prv_find_index_matches p.root uri = true := by
  induction plugins generalizing i with
  | nil => simp [prv_find_index_from] at h
  | cons p ps ih =>
    unfold prv_find_index_from at h
    by_cases hm : prv_find_index_matches p.root uri = true
    · simp only [hm, if_true, Option.some.injEq] at h
      subst h
      exact ⟨p, by simp, Nat.le_refl _, hm⟩
    · simp only [hm] at h
      obtain ⟨q, hq, hle, hqm⟩ := ih (i + 1) h
      refine ⟨q, ?_, by omega, hqm⟩
      have : k - i = (k - (i + 1)) + 1 := by omega
      rw [this]
      simpa using hq

theorem prv_find_index_from_none (uri : CString) (plugins : List provman_plugin) (i : Nat) :
    prv_find_index_from uri plugins i = none ↔
      ∀ p ∈ plugins, prv_find_index_matches p.root uri = false := by
  induction plugins generalizing i with
  | nil => simp [prv_find_index_from]
  | cons p ps ih =>
    unfold prv_find_index_from
    by_cases hm : prv_find_index_matches p.root uri = true
    · simp [hm]
    · simp [hm, ih]

/-- C4: `provman_plugin_find_index` selects a plugin whose root occurs anywhere in the key (the
test is `strstr`), not only at its start.  With the ofono root `/telephony/` registered, the key
`/x/telephony/apn` is assigned to plugin 0 although the root is no prefix of the key and the key
is not the root without its last character.  What holds in general: a returned plugin has a
root that occurs in the key or equals the key plus one character, and NotFound is returned only
if no registered root is a prefix of the key or the key plus one character. -/
theorem find_index_matches_root_inside_key :
    provman_plugin_find_index system_plugins "/x/telephony/apn".toList = some 0
      ∧ ¬ ("/telephony/".toList <+: "/x/telephony/apn".toList)
      ∧ "/x/telephony/apn".toList ≠ "/telephony/".toList.dropLast
      ∧ (∀ (plugins : List provman_plugin) (uri : CString) (i : Nat),
          provman_plugin_find_index plugins uri = some i →
            ∃ p, plugins.get? i = some p ∧
              ((p.root ≠ [] ∧ uri = p.root.dropLast) ∨ p.root <:+: uri))
      ∧ (∀ (plugins : List provman_plugin) (uri : CString),
          provman_plugin_find_index plugins uri = none →
            ∀ p ∈ plugins, ¬ p.root <+: uri ∧ ¬ (p.root ≠ [] ∧ uri = p.root.dropLast)) := by
  refine ⟨by decide, by decide, by decide, ?_, ?_⟩
  · intro plugins uri i h
    obtain ⟨p, hp, _, hm⟩ := prv_find_index_from_some uri plugins 0 i h
    exact ⟨p, by simpa using hp, (prv_find_index_matches_iff _ _).mp hm⟩
  · intro plugins uri h p hp
    have hm := (prv_find_index_from_none uri plugins 0).mp h p hp
    have hn : ¬ ((p.root ≠ [] ∧ uri = p.root.dropLast) ∨ p.root <:+: uri) := by
      rw [← prv_find_index_matches_iff, hm]
      simp
    exact ⟨fun hpre => hn (Or.inr hpre.isInfix), fun h1 => hn (Or.inl h1)⟩

theorem prv_check_relationship_eq (key1 key2 : CString) :
    prv_check_relationship key1 key2 =
      if key1 <+: key2 ∨ key2 <+: key1 then PROVMAN_ERR_CORRUPT else PROVMAN_ERR_NONE := by
  unfold prv_check_relationship
  by_cases hlen : key1.length > key2.length
  · have h1 : ¬ key1 <+: key2 := fun h => by have := h.length_le; omega
    by_cases h2 : key2 <+: key1
    · simp [hlen, h2, (strncmp_is0_length_iff_starts key2 key1).mpr h2]
    · have h3 : ¬ strncmp_is0 key2 key1 key2.length = true :=
        fun h => h2 ((strncmp_is0_length_iff_starts key2 key1).mp h)
      simp [hlen, h1, h2, h3]
  · by_cases h1 : key1 <+: key2
    · simp [hlen, h1, (strncmp_is0_length_iff_starts key1 key2).mpr h1]
    · have h2 : ¬ key2 <+: key1 := by
        intro h
        have hle := h.length_le
        have heq : key2 = key1 := h.eq_of_length (by omega)
        exact h1 (heq ▸ List.prefix_refl _)
      have h3 : ¬ strncmp_is0 key1 key2 key1.length = true :=
        fun h => h1 ((strncmp_is0_length_iff_starts key1 key2).mp h)
      simp [hlen, h1, h2, h3]

theorem prv_check_against_eq_none_iff (root : CString) (plugins : List provman_plugin) :
    prv_check_against root plugins = PROVMAN_ERR_NONE ↔
      ∀ q ∈ plugins, ¬ (root <+: q.root ∨ q.root <+: root) := by
  induction plugins with
  | nil => simp [prv_check_against]
  | cons p ps ih =>
    unfold prv_check_against
    rw [prv_check_relationship_eq]
    by_cases h : root <+: p.root ∨ p.root <+: root
    · have hne : PROVMAN_ERR_CORRUPT ≠ PROVMAN_ERR_NONE := by decide
      rw [if_pos h, if_pos hne]
      constructor
      · intro hc
        exact absurd hc hne
      · intro hall
        exact absurd h (hall p (List.mem_cons_self _ _))
    · have hnn : ¬ (PROVMAN_ERR_NONE ≠ PROVMAN_ERR_NONE) := by decide
      rw [if_neg h, if_neg hnn, ih]
      constructor
      · intro hall q hq
        rcases List.mem_cons.mp hq with rfl | hq
        · exact h
        · exact hall q hq
      · intro hall q hq
        exact hall q (List.mem_cons_of_mem _ hq)

theorem provman_plugin_check_eq_none_iff (plugins : List provman_plugin)
    (hvalid : ∀ p ∈ plugins, provman_utils_validate_key (some p.root) = PROVMAN_ERR_NONE) :
    provman_plugin_check plugins = PROVMAN_ERR_NONE ↔
      plugins.Pairwise (fun p q => ¬ (p.root <+: q.root ∨ q.root <+: p.root)) := by
  induction plugins with
  | nil => simp [provman_plugin_check]
  | cons p ps ih =>
    have hp := hvalid p (List.mem_cons_self _ _)
    have hps : ∀ q ∈ ps, provman_utils_validate_key (some q.root) = PROVMAN_ERR_NONE :=
      fun q hq => hvalid q (List.mem_cons_of_mem _ hq)
    unfold provman_plugin_check
    rw [List.pairwise_cons, ← ih hps, ← prv_check_against_eq_none_iff]
    by_cases hc : prv_check_against p.root ps = PROVMAN_ERR_NONE
    · simp [hp, hc]
    · simp [hp, hc]

/-- C6 (as stated, refuted): the registry with the root `/a/` registered twice has only valid
roots and no two non-identical roots, yet `provman_plugin_check` fails on it. -/
theorem plugin_check_rejects_identical_roots :
    ¬ ((∀ p ∈ [plugin_with_root "a" "/a/", plugin_with_root "b" "/a/"],
          provman_utils_validate_key (some p.root) = PROVMAN_ERR_NONE) →
        (provman_plugin_check [plugin_with_root "a" "/a/", plugin_with_root "b" "/a/"]
            ≠ PROVMAN_ERR_NONE ↔
          ∃ p ∈ [plugin_with_root "a" "/a/", plugin_with_root "b" "/a/"],
            ∃ q ∈ [plugin_with_root "a" "/a/", plugin_with_root "b" "/a/"],
              p.root ≠ q.root ∧ p.root <+: q.root)) := by
  intro h
  have hv : ∀ p ∈ [plugin_with_root "a" "/a/", plugin_with_root "b" "/a/"],
      provman_utils_validate_key (some p.root) = PROVMAN_ERR_NONE := by decide
  have hfail : provman_plugin_check [plugin_with_root "a" "/a/", plugin_with_root "b" "/a/"]
      ≠ PROVMAN_ERR_NONE := by decide
  obtain ⟨p, hp, q, hq, hne, _⟩ := (h hv).mp hfail
  simp only [List.mem_cons, List.mem_singleton, List.not_mem_nil, or_false] at hp hq
  rcases hp with rfl | rfl <;> rcases hq with rfl | rfl <;> exact hne rfl

/-- C6 (amended): for every registry whose roots are all accepted by the key validator,
`provman_plugin_check` fails if and only if the registry has two entries, at distinct
positions, such that the root of one is a prefix of the root of the other; two entries with
identical roots count.  A registry without such a pair passes. -/
theorem plugin_check_fails_iff_prefix_pair (plugins : List provman_plugin)
    (hvalid : ∀ p ∈ plugins, provman_utils_validate_key (some p.root) = PROVMAN_ERR_NONE) :
    provman_plugin_check plugins ≠ PROVMAN_ERR_NONE ↔
      ∃ i j, i < j ∧ ∃ p q, plugins.get? i = some p ∧ plugins.get? j = some q ∧
        (p.root <+: q.root ∨ q.root <+: p.root) := by
  rw [ne_eq, provman_plugin_check_eq_none_iff plugins hvalid, List.pairwise_iff_getElem]
  constructor
  · intro h
    by_contra hcon
    apply h
    intro i j hi hj hij hrel
    exact hcon ⟨i, j, hij, plugins[i], plugins[j], by simp [List.getElem?_eq_getElem hi],
      by simp [List.getElem?_eq_getElem hj], hrel⟩
  · rintro ⟨i, j, hij, p, q, hp, hq, hrel⟩ h
    rw [List.get?_eq_some] at hp hq
    obtain ⟨hi, rfl⟩ := hp
    obtain ⟨hj, rfl⟩ := hq
    exact h i j hi hj hij (by simpa using hrel)

/-- C6 (amended), at the session registry: its roots are valid and the check passes, no root
being a prefix of the other. -/
theorem plugin_check_fails_iff_prefix_pair_witness :
    (∀ p ∈ session_plugins, provman_utils_validate_key (some p.root) = PROVMAN_ERR_NONE)
      ∧ (provman_plugin_check session_plugins ≠ PROVMAN_ERR_NONE ↔
          ∃ i j, i < j ∧ ∃ p q, session_plugins.get? i = some p ∧
            session_plugins.get? j = some q ∧ (p.root <+: q.root ∨ q.root <+: p.root)) :=
  ⟨by decide, plugin_check_fails_iff_prefix_pair session_plugins (by decide)⟩

/-! ## C5: ownership of a key is unique -/

theorem provman_plugin_check_eq_none (plugins : List provman_plugin)
    (h : provman_plugin_check plugins = PROVMAN_ERR_NONE) :
    (∀ p ∈ plugins, provman_utils_validate_key (some p.root) = PROVMAN_ERR_NONE)
      ∧ plugins.Pairwise (fun p q => ¬ (p.root <+: q.root ∨ q.root <+: p.root)) := by
  have hvalid : ∀ p ∈ plugins, provman_utils_validate_key (some p.root) = PROVMAN_ERR_NONE := by
    induction plugins with
    | nil => simp
    | cons p ps ih =>
      unfold provman_plugin_check at h
      by_cases hv : provman_utils_validate_key (some p.root) = PROVMAN_ERR_NONE
      · by_cases hc : prv_check_against p.root ps = PROVMAN_ERR_NONE
        · simp only [hv, hc, ne_eq, not_true_eq_false, if_false] at h
          intro q hq
          rcases List.mem_cons.mp hq with rfl | hq
          · exact hv
          · exact ih h q hq
        · simp only [hv, ne_eq, not_true_eq_false, if_false, hc, not_false_eq_true,
            if_true] at h
      · simp only [ne_eq, hv, not_false_eq_true, if_true] at h
  exact ⟨hvalid, (provman_plugin_check_eq_none_iff plugins hvalid).mp h⟩

theorem root_owns_comparable (r1 r2 key : CString) (h1 : r1.getLast? = some '/')
    (h2 : r2.getLast? = some '/') (o1 : root_owns r1 key) (o2 : root_owns r2 key) :
    r1 <+: r2 ∨ r2 <+: r1 := by
  rcases o1 with p1 | ⟨_, e1⟩
  · rcases o2 with p2 | ⟨_, e2⟩
    · exact List.prefix_or_prefix_of_prefix p1 p2
    · left
      rw [e2] at p1
      exact p1.trans ( List.dropLast_prefix r2)
  · rcases o2 with p2 | ⟨_, e2⟩
    · right
      rw [e1] at p2
      exact p2.trans ( List.dropLast_prefix r1)
    · left
      have hr1 := List.dropLast_append_getLast? _ h1
      have hr2 := List.dropLast_append_getLast? _ h2
      rw [← e1] at hr1
      rw [← e2] at hr2
      rw [← hr1, ← hr2]

theorem root_owns_unique (plugins : List provman_plugin)
    (hcheck : provman_plugin_check plugins = PROVMAN_ERR_NONE)
    (hslash : ∀ p ∈ plugins, p.root.getLast? = some '/') (key : CString)
    (i j : Nat) (p q : provman_plugin) (hp : plugins.get? i = some p)
    (hq : plugins.get? j = some q) (op : root_owns p.root key) (oq : root_owns q.root key) :
    i = j := by
  have hpair := (provman_plugin_check_eq_none plugins hcheck).2
  rw [List.pairwise_iff_getElem] at hpair
  rw [List.get?_eq_some] at hp hq
  obtain ⟨hi, rfl⟩ := hp
  obtain ⟨hj, rfl⟩ := hq
  have hsi := hslash _ (List.get_mem plugins i hi)
  have hsj := hslash _ (List.get_mem plugins j hj)
  rcases Nat.lt_trichotomy i j with hlt | heq | hgt
  · exact absurd (root_owns_comparable _ _ key hsi hsj op oq) (by simpa using hpair i j hi hj hlt)
  · exact heq
  · exact absurd (root_owns_comparable _ _ key hsj hsi oq op) (by simpa using hpair j i hj hi hgt)

theorem prv_find_index_from_first (uri : CString) (plugins : List provman_plugin) (s i : Nat)
    (p : provman_plugin) (hp : plugins.get? i = some p)
    (hm : prv_find_index_matches p.root uri = true)
    (hbefore : ∀ j q, j < i → plugins.get? j = some q →
      prv_find_index_matches q.root uri = false) :
    prv_find_index_from uri plugins s = some (s + i) := by
  induction plugins generalizing s i with
  | nil => simp at hp
  | cons q qs ih =>
    unfold prv_find_index_from
    cases i with
    | zero =>
      simp only [List.get?_cons_zero, Option.some.injEq] at hp
      subst hp
      simp [hm]
    | succ i =>
      have hq0 : prv_find_index_matches q.root uri = false :=
        hbefore 0 q (Nat.succ_pos _) (by simp)
      simp only [hq0, Bool.false_eq_true, if_false]
      rw [ih (s + 1) i (by simpa using hp)
        (fun j r hj hr => hbefore (j + 1) r (by omega) (by simpa using hr))]
      congr 1
      omega

/-- C5 (as stated, refuted): the roots `/a/` and `/ab` are accepted by `provman_plugin_check`,
both match the key `/a` under the test of `provman_plugin_find_index`, and the plugin found
for that key is the one that comes first in the table, whichever it is. -/
theorem find_index_owner_depends_on_order :
    provman_plugin_check [plugin_with_root "p" "/a/", plugin_with_root "q" "/ab"]
        = PROVMAN_ERR_NONE
      ∧ prv_find_index_matches "/a/".toList "/a".toList = true
      ∧ prv_find_index_matches "/ab".toList "/a".toList = true
      ∧ provman_plugin_find_index [plugin_with_root "p" "/a/", plugin_with_root "q" "/ab"]
          "/a".toList = some 0
      ∧ provman_plugin_find_index [plugin_with_root "q" "/ab", plugin_with_root "p" "/a/"]
          "/a".toList = some 0 := by
  decide

/-- C5 (amended): for every registry that `provman_plugin_check` accepts and whose roots all end
in a slash, and for every key, at most one registered plugin owns the key (its root begins the
key, or the key is the root without its final slash).  When moreover every registered root
that occurs in the key occurs at its start, `provman_plugin_find_index` returns the owner, and
so does it on every reordering of the registry; in particular, applied to a registered root in
which no other registered root occurs further on, it returns that root's own plugin. -/
theorem find_index_unique_owner (plugins : List provman_plugin)
    (hcheck : provman_plugin_check plugins = PROVMAN_ERR_NONE)
    (hslash : ∀ p ∈ plugins, p.root.getLast? = some '/') (key : CString) :
    (∀ i j p q, plugins.get? i = some p → plugins.get? j = some q →
        root_owns p.root key → root_owns q.root key → i = j)
      ∧ ((∀ q ∈ plugins, q.root <:+: key → q.root <+: key) →
          (∀ i p, plugins.get? i = some p → root_owns p.root key →
              provman_plugin_find_index plugins key = some i)
          ∧ (∀ reordered : List provman_plugin, reordered.Perm plugins →
              ∀ i k, provman_plugin_find_index plugins key = some i →
                provman_plugin_find_index reordered key = some k →
                ∃ p, plugins.get? i = some p ∧ reordered.get? k = some p))
      ∧ (∀ i p, plugins.get? i = some p →
          (∀ q ∈ plugins, q.root <:+: p.root → q.root <+: p.root) →
          provman_plugin_find_index plugins p.root = some i) := by
  have huniq := root_owns_unique plugins hcheck hslash
  have hmatch : ∀ (uri : CString), (∀ q ∈ plugins, q.root <:+: uri → q.root <+: uri) →
      ∀ q ∈ plugins, prv_find_index_matches q.root uri = true ↔ root_owns q.root uri := by
    intro uri hstart q hq
    rw [prv_find_index_matches_iff]
    unfold root_owns
    constructor
    · rintro (h | h)
      · exact Or.inr h
      · exact Or.inl (hstart q hq h)
    · rintro (h | h)
      · exact Or.inr h.isInfix
      · exact Or.inl h
  have hfind : ∀ (uri : CString), (∀ q ∈ plugins, q.root <:+: uri → q.root <+: uri) →
      ∀ i p, plugins.get? i = some p → root_owns p.root uri →
        provman_plugin_find_index plugins uri = some i := by
    intro uri hstart i p hp hown
    have h := prv_find_index_from_first uri plugins 0 i p hp
      ((hmatch uri hstart p (List.get?_mem hp)).mpr hown)
      (fun j q hj hq => by
        cases hmq : prv_find_index_matches q.root uri with
        | false => rfl
        | true =>
          have hoq := (hmatch uri hstart q (List.get?_mem hq)).mp hmq
          have := root_owns_unique plugins hcheck hslash uri j i q p hq hp hoq hown
          omega)
    simpa [provman_plugin_find_index] using h
  refine ⟨huniq key, fun hstart => ⟨hfind key hstart, ?_⟩, ?_⟩
  · intro reordered hperm i k hi hk
    obtain ⟨p, hp, _, hpm⟩ := prv_find_index_from_some key plugins 0 i hi
    obtain ⟨r, hr, _, hrm⟩ := prv_find_index_from_some key reordered 0 k hk
    simp only [Nat.sub_zero] at hp hr
    have hrmem : r ∈ plugins := hperm.mem_iff.mp (List.get?_mem hr)
    obtain ⟨j, hj⟩ := List.mem_iff_get?.mp hrmem
    have hop := (hmatch key hstart p (List.get?_mem hp)).mp hpm
    have hor := (hmatch key hstart r hrmem).mp hrm
    have hij := huniq key i j p r hp hj hop hor
    subst hij
    rw [hp] at hj
    simp only [Option.some.injEq] at hj
    subst hj
    exact ⟨p, hp, hr⟩
  · intro i p hp hstart
    exact hfind p.root hstart i p hp (Or.inl (List.prefix_refl _))

/-- C5 (amended) at the session registry and the key `/applications/sync/x`, owned by the
second plugin. -/
theorem find_index_unique_owner_witness :
    provman_plugin_check session_plugins = PROVMAN_ERR_NONE
      ∧ provman_plugin_find_index session_plugins "/applications/sync/x".toList = some 1 :=
  ⟨by decide,
   ((find_index_unique_owner session_plugins (by decide) (by decide)
      "/applications/sync/x".toList).2.1 (by decide)).1 1
      (plugin_with_root "sync-evolution" "/applications/sync/") rfl (Or.inl (by decide))⟩

/-! ## C2: a set is visible to get and reaches no backend -/

theorem g_hash_table_lookup_insert_self (table : GHashTable) (key value : CString) :
    g_hash_table_lookup (g_hash_table_insert table key value) key = some value := by
  induction table with
  | nil => simp [g_hash_table_insert, g_hash_table_lookup]
  | cons kv t ih =>
    obtain ⟨k, v⟩ := kv
    by_cases h : k = key
    · simp [g_hash_table_insert, g_hash_table_lookup, h]
    · simp [g_hash_table_insert, g_hash_table_lookup, h, ih]

theorem kv_caches_getD_set_self (caches : List (Option GHashTable)) (index : Nat)
    (cache table : GHashTable) (h : caches.getD index none = some cache) :
    (caches.set index (some table)).getD index none = some table := by
  have hlt : index < caches.length := by
    by_contra hge
    rw [List.getD_eq_default _ _ (by omega)] at h
    exact Option.noConfusion h
  simp [List.getD_eq_getElem?_getD, List.getElem?_set_self hlt]

/-- C2: for every plugin manager in state Idle, every key and every value, if
`plugin_manager_set` returns `PROVMAN_ERR_NONE` then `plugin_manager_get` of the same key on the
resulting manager returns `PROVMAN_ERR_NONE` with exactly that value, and the set made no call
of any plugin's `sync_out_fn`. -/
theorem plugin_manager_set_then_get (plugins : List provman_plugin)
    (manager : plugin_manager_t) (key value : CString)
    (hidle : manager.state = PLUGIN_MANAGER_STATE_IDLE)
    (hset : (plugin_manager_set plugins manager key value).1 = PROVMAN_ERR_NONE) :
    plugin_manager_get plugins (plugin_manager_set plugins manager key value).2.1 key
        = (PROVMAN_ERR_NONE, some value)
      ∧ ∀ c ∈ (plugin_manager_set plugins manager key value).2.2, c.is_sync_out = false := by
  unfold plugin_manager_set at hset ⊢
  simp only [hidle, ne_eq, not_true_eq_false, if_false] at hset ⊢
  unfold prv_set_common at hset ⊢
  cases hfi : provman_plugin_find_index plugins key with
  | none => simp [hfi] at hset
  | some index =>
    simp only [hfi] at hset ⊢
    cases hc : kv_cache manager index with
    | none => simp [hc] at hset
    | some cache =>
      simp only [hc] at hset ⊢
      cases hp : provman_plugin_get plugins index with
      | none => simp [hp] at hset
      | some plugin =>
        simp only [hp] at hset ⊢
        by_cases hv : plugin.validate_set_fn key value = PROVMAN_ERR_NONE
        · simp only [hv, ne_eq, not_true_eq_false, if_false]
          refine ⟨?_, ?_⟩
          · have hk : ∀ st, kv_cache
                { state := st,
                  kv_caches :=
                    manager.kv_caches.set index (some (g_hash_table_insert cache key value)),
                  synced := manager.synced, err := manager.err,
                  completion_source := manager.completion_source, imsi := manager.imsi } index
                = some (g_hash_table_insert cache key value) :=
              fun _ => kv_caches_getD_set_self manager.kv_caches index cache _ hc
            unfold plugin_manager_get
            simp [hidle, hfi, hk, g_hash_table_lookup_insert_self]
          · intro c hcm
            simp only [List.mem_singleton] at hcm
            subst hcm
            rfl
        · simp [hv] at hset

/-- C2 at a concrete manager: the ofono root with an empty cache, key `/telephony/mms/apn`. -/
theorem plugin_manager_set_then_get_witness :
    plugin_manager_get system_plugins
        (plugin_manager_set system_plugins
          { state := PLUGIN_MANAGER_STATE_IDLE, kv_caches := [some []], synced := 0,
            err := PROVMAN_ERR_NONE, completion_source := false, imsi := none }
          "/telephony/mms/apn".toList "internet".toList).2.1 "/telephony/mms/apn".toList
        = (PROVMAN_ERR_NONE, some "internet".toList)
      ∧ ∀ c ∈ (plugin_manager_set system_plugins
          { state := PLUGIN_MANAGER_STATE_IDLE, kv_caches := [some []], synced := 0,
            err := PROVMAN_ERR_NONE, completion_source := false, imsi := none }
          "/telephony/mms/apn".toList "internet".toList).2.2, c.is_sync_out = false :=
  plugin_manager_set_then_get system_plugins
    { state := PLUGIN_MANAGER_STATE_IDLE, kv_caches := [some []], synced := 0,
      err := PROVMAN_ERR_NONE, completion_source := false, imsi := none }
    "/telephony/mms/apn".toList "internet".toList rfl (by decide)

/-! ## C7: the commands of the ofono diff -/

theorem mem_g_hash_set_insert (s : GHashSet) (key c : CString) :
    c ∈ g_hash_set_insert s key ↔ c ∈ s ∨ c = key := by
  unfold g_hash_set_insert
  by_cases h : key ∈ s
  · simp only [h, if_true]
    constructor
    · exact Or.inl
    · rintro (h1 | h1)
      · exact h1
      · exact h1 ▸ h
  · simp [h]

theorem nodup_g_hash_set_insert (s : GHashSet) (key : CString) (hs : s.Nodup) :
    (g_hash_set_insert s key).Nodup := by
  unfold g_hash_set_insert
  by_cases h : key ∈ s
  · simpa [h] using hs
  · simp only [h, if_false]
    rw [List.nodup_append]
    refine ⟨hs, List.nodup_singleton _, ?_⟩
    intro a ha hb
    rw [List.mem_singleton] at hb
    exact h (hb ▸ ha)

theorem get_contexts_foldl (settings : GHashTable) (root : CString) (root_len : Nat)
    (acc : GHashSet) (hacc : acc.Nodup) :
    (∀ c, c ∈ settings.foldl
          (fun contexts kv =>
            match provman_utils_get_context_from_key kv.1 root root_len with
            | some context => g_hash_set_insert contexts context
            | none => contexts) acc
        ↔ c ∈ acc ∨ ∃ kv ∈ settings,
            provman_utils_get_context_from_key kv.1 root root_len = some c)
    ∧ (settings.foldl
          (fun contexts kv =>
            match provman_utils_get_context_from_key kv.1 root root_len with
            | some context => g_hash_set_insert contexts context
            | none => contexts) acc).Nodup := by
  induction settings generalizing acc with
  | nil => simp [hacc]
  | cons kv t ih =>
    simp only [List.foldl_cons]
    cases hctx : provman_utils_get_context_from_key kv.1 root root_len with
    | none =>
      obtain ⟨h1, h2⟩ := ih acc hacc
      refine ⟨fun c => ?_, h2⟩
      rw [h1 c]
      simp [hctx]
    | some context =>
      obtain ⟨h1, h2⟩ := ih (g_hash_set_insert acc context)
        (nodup_g_hash_set_insert acc context hacc)
      refine ⟨fun c => ?_, h2⟩
      rw [h1 c, mem_g_hash_set_insert]
      simp only [List.mem_cons, exists_eq_or_imp, hctx, Option.some.injEq]
      constructor
      · rintro ((h | h) | h)
        · exact Or.inl h
        · exact Or.inr (Or.inl h.symm)
        · exact Or.inr (Or.inr h)
      · rintro (h | h | h)
        · exact Or.inl (Or.inl h)
        · exact Or.inl (Or.inr h.symm)
        · exact Or.inr h

theorem mem_provman_utils_get_contexts (settings : GHashTable) (root : CString)
    (root_len : Nat) (c : CString) :
    c ∈ provman_utils_get_contexts settings root root_len ↔
      ∃ kv ∈ settings, provman_utils_get_context_from_key kv.1 root root_len = some c := by
  unfold provman_utils_get_contexts
  rw [(get_contexts_foldl settings root root_len [] List.nodup_nil).1 c]
  simp

theorem nodup_provman_utils_get_contexts (settings : GHashTable) (root : CString)
    (root_len : Nat) : (provman_utils_get_contexts settings root root_len).Nodup :=
  (get_contexts_foldl settings root root_len [] List.nodup_nil).2

theorem mem_ofono_contexts (settings : GHashTable) (c : CString) :
    c ∈ provman_utils_get_contexts settings LOCAL_KEY_CONTEXT_ROOT LOCAL_KEY_CONTEXT_ROOT.length
      ↔ context_present settings c :=
  mem_provman_utils_get_contexts settings _ _ c

theorem set_filter_iff (old_settings : GHashTable) (k v : CString) :
    (match g_hash_table_lookup old_settings k with
      | none => true
      | some old_value => !strcmp_is0 v old_value) = true
      ↔ g_hash_table_lookup old_settings k ≠ some v := by
  cases g_hash_table_lookup old_settings k with
  | none => simp
  | some old_value =>
    simp only [strcmp_is0, Bool.not_eq_true', decide_eq_false_iff_not, ne_eq, Option.some.injEq]
    exact ⟨fun h h2 => h h2.symm, fun h h2 => h h2.symm⟩

theorem mem_prv_ofono_plugin_anaylse (modem : ofono_plugin_modem_t) (new_settings : GHashTable)
    (cmd : ofono_plugin_cmd_t) :
    cmd ∈ prv_ofono_plugin_anaylse modem new_settings ↔
      (∃ c, context_present modem.settings c ∧ ¬ context_present new_settings c ∧
          cmd = { type := OFONO_PLUGIN_DELETE, path := some c, value := none })
      ∨ (modem.mms_context.isSome = true ∧ prv_have_mms new_settings = false ∧
          cmd = { type := OFONO_PLUGIN_DELETE_MMS, path := modem.mms_context, value := none })
      ∨ (∃ c, context_present new_settings c ∧ ¬ context_present modem.settings c ∧
          cmd = { type := OFONO_PLUGIN_ADD, path := some c, value := none })
      ∨ (modem.mms_context.isSome = false ∧ prv_have_mms new_settings = true ∧
          cmd = { type := OFONO_PLUGIN_ADD_MMS, path := none, value := none })
      ∨ (∃ k v, (k, v) ∈ new_settings ∧ g_hash_table_lookup modem.settings k ≠ some v ∧
          cmd = { type := OFONO_PLUGIN_SET, path := some k, value := some v }) := by
  unfold prv_ofono_plugin_anaylse
  simp only [List.mem_append, List.mem_map, List.mem_filter, g_hash_table_lookup_extended,
    Bool.not_eq_true', decide_eq_false_iff_not, mem_ofono_contexts, Bool.not_eq_eq_eq_not,
    Bool.not_true, Bool.and_eq_true, Bool.not_eq_true, or_assoc]
  refine or_congr ?_ (or_congr ?_ (or_congr ?_ (or_congr ?_ ?_)))
  · constructor
    · rintro ⟨a, ⟨h1, h2⟩, h3⟩
      exact ⟨a, h1, h2, h3.symm⟩
    · rintro ⟨a, h1, h2, h3⟩
      exact ⟨a, ⟨h1, h2⟩, h3.symm⟩
  · by_cases h : modem.mms_context.isSome = true ∧ prv_have_mms new_settings = false
    · rw [if_pos h, List.mem_singleton]
      exact ⟨fun hc => ⟨h.1, h.2, hc⟩, fun hc => hc.2.2⟩
    · rw [if_neg h]
      exact ⟨fun hc => absurd hc (List.not_mem_nil _), fun hc => absurd ⟨hc.1, hc.2.1⟩ h⟩
  · constructor
    · rintro ⟨a, ⟨h1, h2⟩, h3⟩
      exact ⟨a, h1, h2, h3.symm⟩
    · rintro ⟨a, h1, h2, h3⟩
      exact ⟨a, ⟨h1, h2⟩, h3.symm⟩
  · by_cases h : modem.mms_context.isSome = false ∧ prv_have_mms new_settings = true
    · rw [if_pos h, List.mem_singleton]
      exact ⟨fun hc => ⟨h.1, h.2, hc⟩, fun hc => hc.2.2⟩
    · rw [if_neg h]
      exact ⟨fun hc => absurd hc (List.not_mem_nil _), fun hc => absurd ⟨hc.1, hc.2.1⟩ h⟩
  · constructor
    · rintro ⟨⟨k, v⟩, ⟨h1, h2⟩, h3⟩
      exact ⟨k, v, h1, (set_filter_iff modem.settings k v).mp h2, h3.symm⟩
    · rintro ⟨k, v, h1, h2, h3⟩
      exact ⟨(k, v), ⟨h1, (set_filter_iff modem.settings k v).mpr h2⟩, h3.symm⟩

theorem count_cmd_in_context_segment (type : ofono_plugin_cmd_type_t) (contexts : GHashSet)
    (keep : CString → Bool) (c : CString) (hnodup : contexts.Nodup) (hc : c ∈ contexts)
    (hkeep : keep c = true) :
    List.count ({ type := type, path := some c, value := none } : ofono_plugin_cmd_t)
      ((contexts.filter keep).map (fun key => { type := type, path := some key, value := none }))
      = 1 := by
  have hinj : Function.Injective
      (fun key : CString => ({ type := type, path := some key, value := none } :
        ofono_plugin_cmd_t)) := by
    intro a b hab
    simpa using hab
  rw [List.count_map_of_injective _ _ hinj]
  exact List.count_eq_one_of_mem (hnodup.filter keep) (List.mem_filter.mpr ⟨hc, hkeep⟩)

theorem count_delete_cmd (modem : ofono_plugin_modem_t) (new_settings : GHashTable)
    (c : CString) (hold : context_present modem.settings c)
    (hnew : ¬ context_present new_settings c) :
    (prv_ofono_plugin_anaylse modem new_settings).count
      { type := OFONO_PLUGIN_DELETE, path := some c, value := none } = 1 := by
  unfold prv_ofono_plugin_anaylse
  simp only [List.count_append]
  rw [count_cmd_in_context_segment OFONO_PLUGIN_DELETE _ _ c
    (nodup_provman_utils_get_contexts _ _ _) ((mem_ofono_contexts _ _).mpr hold)
    (by simp [g_hash_table_lookup_extended, mem_ofono_contexts, hnew])]
  have h2 : ∀ l : List ofono_plugin_cmd_t, (∀ x ∈ l, x.type ≠ OFONO_PLUGIN_DELETE) →
      l.count { type := OFONO_PLUGIN_DELETE, path := some c, value := none } = 0 := by
    intro l hl
    rw [List.count_eq_zero]
    intro hmem
    exact hl _ hmem rfl
  rw [h2, h2, h2, h2]
  · intro x hx
    simp only [List.mem_map] at hx
    obtain ⟨_, _, rfl⟩ := hx
    simp
  · intro x hx
    split at hx
    · simp only [List.mem_singleton] at hx
      subst hx
      simp
    · simp at hx
  · intro x hx
    simp only [List.mem_map] at hx
    obtain ⟨_, _, rfl⟩ := hx
    simp
  · intro x hx
    split at hx
    · simp only [List.mem_singleton] at hx
      subst hx
      simp
    · simp at hx

theorem count_add_cmd (modem : ofono_plugin_modem_t) (new_settings : GHashTable)
    (c : CString) (hnew : context_present new_settings c)
    (hold : ¬ context_present modem.settings c) :
    (prv_ofono_plugin_anaylse modem new_settings).count
      { type := OFONO_PLUGIN_ADD, path := some c, value := none } = 1 := by
  unfold prv_ofono_plugin_anaylse
  simp only [List.count_append]
  rw [count_cmd_in_context_segment OFONO_PLUGIN_ADD _ _ c
    (nodup_provman_utils_get_contexts _ _ _) ((mem_ofono_contexts _ _).mpr hnew)
    (by simp [g_hash_table_lookup_extended, mem_ofono_contexts, hold])]
  have h2 : ∀ l : List ofono_plugin_cmd_t, (∀ x ∈ l, x.type ≠ OFONO_PLUGIN_ADD) →
      l.count { type := OFONO_PLUGIN_ADD, path := some c, value := none } = 0 := by
    intro l hl
    rw [List.count_eq_zero]
    intro hmem
    exact hl _ hmem rfl
  rw [h2, h2, h2, h2]
  · intro x hx
    simp only [List.mem_map] at hx
    obtain ⟨_, _, rfl⟩ := hx
    simp
  · intro x hx
    split at hx
    · simp only [List.mem_singleton] at hx
      subst hx
      simp
    · simp at hx
  · intro x hx
    split at hx
    · simp only [List.mem_singleton] at hx
      subst hx
      simp
    · simp at hx
  · intro x hx
    simp only [List.mem_map] at hx
    obtain ⟨_, _, rfl⟩ := hx
    simp

/-- C7: for every previous snapshot (the settings of the modem) and every final cache, the
diff computed by `prv_ofono_plugin_anaylse` contains exactly one Delete for each context
present in the snapshot and absent from the final cache, and no other Delete; exactly one Add
for each context present in the final cache and absent from the snapshot, and no other Add; and
its Set commands are exactly the entries (k, v) of the final cache whose key is absent from the
snapshot or has another value there, so that no Set is emitted for a key that occurs only in
the snapshot. -/
theorem ofono_diff_commands (modem : ofono_plugin_modem_t) (new_settings : GHashTable) :
    (∀ c, context_present modem.settings c → ¬ context_present new_settings c →
        (prv_ofono_plugin_anaylse modem new_settings).count
          { type := OFONO_PLUGIN_DELETE, path := some c, value := none } = 1)
    ∧ (∀ cmd ∈ prv_ofono_plugin_anaylse modem new_settings, cmd.type = OFONO_PLUGIN_DELETE →
        ∃ c, cmd = { type := OFONO_PLUGIN_DELETE, path := some c, value := none } ∧
          context_present modem.settings c ∧ ¬ context_present new_settings c)
    ∧ (∀ c, context_present new_settings c → ¬ context_present modem.settings c →
        (prv_ofono_plugin_anaylse modem new_settings).count
          { type := OFONO_PLUGIN_ADD, path := some c, value := none } = 1)
    ∧ (∀ cmd ∈ prv_ofono_plugin_anaylse modem new_settings, cmd.type = OFONO_PLUGIN_ADD →
        ∃ c, cmd = { type := OFONO_PLUGIN_ADD, path := some c, value := none } ∧
          context_present new_settings c ∧ ¬ context_present modem.settings c)
    ∧ (∀ k v,
        ({ type := OFONO_PLUGIN_SET, path := some k, value := some v } : ofono_plugin_cmd_t)
            ∈ prv_ofono_plugin_anaylse modem new_settings ↔
          (k, v) ∈ new_settings ∧
            (g_hash_table_lookup modem.settings k = none ∨
              ∃ old_value, g_hash_table_lookup modem.settings k = some old_value ∧
                old_value ≠ v))
    ∧ (∀ cmd ∈ prv_ofono_plugin_anaylse modem new_settings, cmd.type = OFONO_PLUGIN_SET →
        ∃ k v, cmd = { type := OFONO_PLUGIN_SET, path := some k, value := some v } ∧
          (k, v) ∈ new_settings) := by
  refine ⟨count_delete_cmd modem new_settings, ?_, count_add_cmd modem new_settings, ?_, ?_, ?_⟩
  · intro cmd hcmd htype
    rcases (mem_prv_ofono_plugin_anaylse modem new_settings cmd).mp hcmd with
      ⟨c, h1, h2, rfl⟩ | ⟨_, _, rfl⟩ | ⟨c, _, _, rfl⟩ | ⟨_, _, rfl⟩ | ⟨k, v, _, _, rfl⟩
    · exact ⟨c, rfl, h1, h2⟩
    all_goals simp at htype
  · intro cmd hcmd htype
    rcases (mem_prv_ofono_plugin_anaylse modem new_settings cmd).mp hcmd with
      ⟨c, _, _, rfl⟩ | ⟨_, _, rfl⟩ | ⟨c, h1, h2, rfl⟩ | ⟨_, _, rfl⟩ | ⟨k, v, _, _, rfl⟩
    · simp at htype
    · simp at htype
    · exact ⟨c, rfl, h1, h2⟩
    all_goals simp at htype
  · intro k v
    have hlook : g_hash_table_lookup modem.settings k ≠ some v ↔
        (g_hash_table_lookup modem.settings k = none ∨
          ∃ old_value, g_hash_table_lookup modem.settings k = some old_value ∧
            old_value ≠ v) := by
      cases g_hash_table_lookup modem.settings k with
      | none => simp
      | some w => simp
    rw [mem_prv_ofono_plugin_anaylse, ← hlook]
    constructor
    · rintro (⟨c, _, _, h⟩ | ⟨_, _, h⟩ | ⟨c, _, _, h⟩ | ⟨_, _, h⟩ | ⟨k2, v2, h1, h2, h⟩)
      · simp at h
      · simp at h
      · simp at h
      · simp at h
      · simp only [ofono_plugin_cmd_t.mk.injEq, Option.some.injEq, true_and] at h
        obtain ⟨rfl, rfl⟩ := h
        exact ⟨h1, h2⟩
    · rintro ⟨h1, h2⟩
      exact Or.inr (Or.inr (Or.inr (Or.inr ⟨k, v, h1, h2, rfl⟩)))
  · intro cmd hcmd htype
    rcases (mem_prv_ofono_plugin_anaylse modem new_settings cmd).mp hcmd with
      ⟨c, _, _, rfl⟩ | ⟨_, _, rfl⟩ | ⟨c, _, _, rfl⟩ | ⟨_, _, rfl⟩ | ⟨k, v, h1, _, rfl⟩
    · simp at htype
    · simp at htype
    · simp at htype
    · simp at htype
    · exact ⟨k, v, rfl, h1⟩

/-! ## C8: applying the diff to the snapshot -/

theorem g_hash_table_lookup_filter_key (table : GHashTable) (p : CString → Bool) (k : CString) :
    g_hash_table_lookup (table.filter (fun kv => p kv.1)) k =
      if p k = true then g_hash_table_lookup table k else none := by
  induction table with
  | nil => simp [g_hash_table_lookup]
  | cons kv t ih =>
    obtain ⟨k0, v0⟩ := kv
    by_cases hp : p k0 = true
    · rw [List.filter_cons_of_pos (by simpa using hp)]
      by_cases hk : k0 = k
      · subst hk
        simp [g_hash_table_lookup, hp]
      · simp [g_hash_table_lookup, hk, ih]
    · rw [List.filter_cons_of_neg (by simpa using hp)]
      by_cases hk : k0 = k
      · subst hk
        simp [g_hash_table_lookup, hp, ih]
      · simp [g_hash_table_lookup, hk, ih]

theorem g_hash_table_lookup_insert (table : GHashTable) (key value k : CString) :
    g_hash_table_lookup (g_hash_table_insert table key value) k =
      if key = k then some value else g_hash_table_lookup table k := by
  induction table with
  | nil => simp [g_hash_table_insert, g_hash_table_lookup]
  | cons kv t ih =>
    obtain ⟨k0, v0⟩ := kv
    by_cases h0 : k0 = key
    · subst h0
      by_cases hk : k0 = k
      · simp [g_hash_table_insert, g_hash_table_lookup, hk]
      · simp [g_hash_table_insert, g_hash_table_lookup, hk]
    · by_cases hk : k0 = k
      · subst hk
        have h1 : ¬ key = k0 := fun h => h0 h.symm
        simp [g_hash_table_insert, g_hash_table_lookup, h0, h1]
      · simp [g_hash_table_insert, g_hash_table_lookup, h0, hk, ih]

theorem g_hash_table_lookup_eq_none_iff (table : GHashTable) (k : CString) :
    g_hash_table_lookup table k = none ↔ ∀ kv ∈ table, kv.1 ≠ k := by
  induction table with
  | nil => simp [g_hash_table_lookup]
  | cons kv t ih =>
    obtain ⟨k0, v0⟩ := kv
    by_cases hk : k0 = k
    · simp [g_hash_table_lookup, hk]
    · simp [g_hash_table_lookup, hk, ih]

theorem g_hash_table_lookup_mem (table : GHashTable) (k v : CString)
    (h : g_hash_table_lookup table k = some v) : (k, v) ∈ table := by
  induction table with
  | nil => simp [g_hash_table_lookup] at h
  | cons kv t ih =>
    obtain ⟨k0, v0⟩ := kv
    by_cases hk : k0 = k
    · simp only [g_hash_table_lookup, hk, if_true, Option.some.injEq] at h
      simp [hk, h]
    · simp only [g_hash_table_lookup, hk, if_false] at h
      exact List.mem_cons_of_mem _ (ih h)

theorem g_hash_table_lookup_of_mem (table : GHashTable) (k v : CString)
    (hnodup : (table.map Prod.fst).Nodup) (h : (k, v) ∈ table) :
    g_hash_table_lookup table k = some v := by
  induction table with
  | nil => simp at h
  | cons kv t ih =>
    obtain ⟨k0, v0⟩ := kv
    simp only [List.map_cons, List.nodup_cons, List.mem_map, not_exists, not_and] at hnodup
    rcases List.mem_cons.mp h with heq | hmem
    · simp only [Prod.mk.injEq] at heq
      simp [g_hash_table_lookup, heq.1, heq.2]
    · have hk : ¬ k0 = k := fun hk => hnodup.1 (k, v) hmem hk.symm
      simp only [g_hash_table_lookup, hk, if_false]
      exact ih hnodup.2 hmem

theorem g_hash_table_lookup_foldl_insert (entries table : GHashTable) (k : CString)
    (hnodup : (entries.map Prod.fst).Nodup) :
    g_hash_table_lookup
        (entries.foldl (fun t kv => g_hash_table_insert t kv.1 kv.2) table) k =
      match g_hash_table_lookup entries k with
      | some v => some v
      | none => g_hash_table_lookup table k := by
  induction entries generalizing table with
  | nil => simp [g_hash_table_lookup]
  | cons kv t ih =>
    obtain ⟨k0, v0⟩ := kv
    simp only [List.map_cons, List.nodup_cons, List.mem_map, not_exists, not_and] at hnodup
    rw [List.foldl_cons, ih _ hnodup.2]
    by_cases hk : k0 = k
    · subst hk
      have hnone : g_hash_table_lookup t k0 = none :=
        (g_hash_table_lookup_eq_none_iff t k0).mpr (fun kv hkv => hnodup.1 kv hkv)
      simp [hnone, g_hash_table_lookup, g_hash_table_lookup_insert]
    · simp [g_hash_table_lookup, hk, g_hash_table_lookup_insert]

theorem spec_apply_delete_cmds (contexts : List CString) (table : GHashTable) (k : CString) :
    g_hash_table_lookup
        (spec_apply_cmds table
          (contexts.map
            (fun key => { type := OFONO_PLUGIN_DELETE, path := some key, value := none })))
        k =
      if ∃ c ∈ contexts, ofono_key_context k = some c then none
      else g_hash_table_lookup table k := by
  unfold spec_apply_cmds
  induction contexts generalizing table with
  | nil => simp
  | cons c cs ih =>
    rw [List.map_cons, List.foldl_cons, ih]
    have happly : spec_apply_cmd table
        { type := OFONO_PLUGIN_DELETE, path := some c, value := none }
        = table.filter (fun kv => decide (ofono_key_context kv.1 ≠ some c)) := rfl
    rw [happly,
      g_hash_table_lookup_filter_key table (fun key => decide (ofono_key_context key ≠ some c))]
    by_cases h1 : ∃ c' ∈ cs, ofono_key_context k = some c'
    · have h2 : ∃ c' ∈ c :: cs, ofono_key_context k = some c' := by
        obtain ⟨c', hc', h⟩ := h1
        exact ⟨c', List.mem_cons_of_mem _ hc', h⟩
      rw [if_pos h1, if_pos h2]
    · rw [if_neg h1]
      by_cases h3 : ofono_key_context k = some c
      · have h2 : ∃ c' ∈ c :: cs, ofono_key_context k = some c' :=
          ⟨c, List.mem_cons_self _ _, h3⟩
        rw [if_pos h2]
        simp [h3]
      · have h2 : ¬ ∃ c' ∈ c :: cs, ofono_key_context k = some c' := by
          rintro ⟨c', hc', h⟩
          rcases List.mem_cons.mp hc' with rfl | hc'
          · exact h3 h
          · exact h1 ⟨c', hc', h⟩
        rw [if_neg h2]
        simp [h3]

theorem spec_apply_add_cmds (contexts : List CString) (table : GHashTable) :
    spec_apply_cmds table
        (contexts.map (fun key => { type := OFONO_PLUGIN_ADD, path := some key, value := none }))
      = table := by
  unfold spec_apply_cmds
  induction contexts with
  | nil => rfl
  | cons c cs ih =>
    rw [List.map_cons, List.foldl_cons]
    exact ih

theorem spec_apply_set_cmds (entries table : GHashTable) :
    spec_apply_cmds table
        (entries.map
          (fun kv => { type := OFONO_PLUGIN_SET, path := some kv.1, value := some kv.2 }))
      = entries.foldl (fun t kv => g_hash_table_insert t kv.1 kv.2) table := by
  unfold spec_apply_cmds
  induction entries generalizing table with
  | nil => rfl
  | cons kv t ih =>
    rw [List.map_cons, List.foldl_cons, List.foldl_cons]
    exact ih _

theorem spec_apply_cmds_append (table : GHashTable) (l1 l2 : List ofono_plugin_cmd_t) :
    spec_apply_cmds table (l1 ++ l2) = spec_apply_cmds (spec_apply_cmds table l1) l2 := by
  unfold spec_apply_cmds
  exact List.foldl_append _ _ _ _

theorem spec_apply_delete_mms (table : GHashTable) (b : Bool) (path : Option CString)
    (k : CString) :
    g_hash_table_lookup
        (spec_apply_cmds table
          (if b = true then
            [{ type := OFONO_PLUGIN_DELETE_MMS, path := path, value := none }] else [])) k =
      if b = true ∧ strncmp_is0 LOCAL_KEY_MMS_ROOT k LOCAL_KEY_MMS_ROOT.length = true then none
      else g_hash_table_lookup table k := by
  cases b with
  | false => simp [spec_apply_cmds]
  | true =>
    have happly : spec_apply_cmds table
        [{ type := OFONO_PLUGIN_DELETE_MMS, path := path, value := none }]
        = table.filter
            (fun kv => !(strncmp_is0 LOCAL_KEY_MMS_ROOT kv.1 LOCAL_KEY_MMS_ROOT.length)) := rfl
    rw [if_pos rfl, happly,
      g_hash_table_lookup_filter_key table
        (fun key => !(strncmp_is0 LOCAL_KEY_MMS_ROOT key LOCAL_KEY_MMS_ROOT.length))]
    by_cases h : strncmp_is0 LOCAL_KEY_MMS_ROOT k LOCAL_KEY_MMS_ROOT.length = true
    · simp [h]
    · simp [h]

theorem spec_apply_add_mms (table : GHashTable) (b : Bool) :
    spec_apply_cmds table
        (if b = true then
          [{ type := OFONO_PLUGIN_ADD_MMS, path := none, value := none }] else []) = table := by
  cases b <;> rfl

theorem prv_have_mms_of_mem (settings : GHashTable) (k v : CString) (h : (k, v) ∈ settings)
    (hk : strncmp_is0 LOCAL_KEY_MMS_ROOT k LOCAL_KEY_MMS_ROOT.length = true) :
    prv_have_mms settings = true := by
  unfold prv_have_mms
  rw [List.any_eq_true]
  exact ⟨(k, v), h, hk⟩

theorem nodup_keys_filter (table : GHashTable) (p : CString × CString → Bool)
    (h : (table.map Prod.fst).Nodup) : ((table.filter p).map Prod.fst).Nodup :=
  List.Nodup.sublist ((List.filter_sublist table).map Prod.fst) h

/-- Where the diff does reconcile: for every snapshot and every final cache with pairwise
distinct keys such that every key of the snapshot that is missing from the final cache belongs
to a context that is absent from the final cache, applying the commands of the diff to the
snapshot, in the order emitted, yields a table that maps every key to the value the final cache
gives it.  The sessions left out are those in which a setting is removed from a context that
stays, for which the diff has no command. -/
theorem ofono_diff_reconciles (modem : ofono_plugin_modem_t) (new_settings : GHashTable)
    (hnodup : (new_settings.map Prod.fst).Nodup)
    (hcover : ∀ kv ∈ modem.settings, g_hash_table_lookup new_settings kv.1 = none →
      ∃ c, ofono_key_context kv.1 = some c ∧ ¬ context_present new_settings c) :
    ∀ k, g_hash_table_lookup
        (spec_apply_cmds modem.settings (prv_ofono_plugin_anaylse modem new_settings)) k
      = g_hash_table_lookup new_settings k := by
  intro k
  unfold prv_ofono_plugin_anaylse
  simp only [spec_apply_cmds_append, spec_apply_set_cmds]
  rw [g_hash_table_lookup_foldl_insert _ _ _ (nodup_keys_filter _ _ hnodup),
    spec_apply_add_mms, spec_apply_add_cmds, spec_apply_delete_mms, spec_apply_delete_cmds]
  cases hnew : g_hash_table_lookup new_settings k with
  | none =>
    have hS : g_hash_table_lookup
        (new_settings.filter (fun kv =>
          match g_hash_table_lookup modem.settings kv.1 with
          | none => true
          | some old_value => !(strcmp_is0 kv.2 old_value))) k = none := by
      rw [g_hash_table_lookup_eq_none_iff] at hnew ⊢
      intro kv hkv
      exact hnew kv (List.mem_filter.mp hkv).1
    rw [hS]
    simp only []
    split
    · rfl
    · split
      · rfl
      · rename_i hD
        cases hold : g_hash_table_lookup modem.settings k with
        | none => rfl
        | some w =>
          exfalso
          have hmem := g_hash_table_lookup_mem _ _ _ hold
          obtain ⟨c, hc, habs⟩ := hcover (k, w) hmem hnew
          apply hD
          refine ⟨c, List.mem_filter.mpr ⟨(mem_ofono_contexts _ _).mpr ⟨(k, w), hmem, hc⟩, ?_⟩, hc⟩
          simp [g_hash_table_lookup_extended, mem_ofono_contexts, habs]
  | some v =>
    have hmem : (k, v) ∈ new_settings := g_hash_table_lookup_mem _ _ _ hnew
    by_cases hq : g_hash_table_lookup modem.settings k = some v
    · have hS : g_hash_table_lookup
          (new_settings.filter (fun kv =>
            match g_hash_table_lookup modem.settings kv.1 with
            | none => true
            | some old_value => !(strcmp_is0 kv.2 old_value))) k = none := by
        rw [g_hash_table_lookup_eq_none_iff]
        intro kv hkv hk
        obtain ⟨h1, h2⟩ := List.mem_filter.mp hkv
        obtain ⟨k1, v1⟩ := kv
        simp only at hk
        subst hk
        have hv : g_hash_table_lookup new_settings k1 = some v1 :=
          g_hash_table_lookup_of_mem _ _ _ hnodup h1
        rw [hnew] at hv
        simp only [Option.some.injEq] at hv
        subst hv
        exact ((set_filter_iff modem.settings k1 v).mp h2) hq
      rw [hS]
      simp only []
      rw [if_neg, if_neg, hq]
      · rintro ⟨c, hc, hctx⟩
        obtain ⟨_, hc2⟩ := List.mem_filter.mp hc
        have hpres : context_present new_settings c := ⟨(k, v), hmem, hctx⟩
        simp [g_hash_table_lookup_extended, mem_ofono_contexts, hpres] at hc2
      · rintro ⟨hb, hk⟩
        have hm := prv_have_mms_of_mem new_settings k v hmem hk
        simp [hm] at hb
    · have hS : g_hash_table_lookup
          (new_settings.filter (fun kv =>
            match g_hash_table_lookup modem.settings kv.1 with
            | none => true
            | some old_value => !(strcmp_is0 kv.2 old_value))) k = some v := by
        apply g_hash_table_lookup_of_mem _ _ _ (nodup_keys_filter _ _ hnodup)
        exact List.mem_filter.mpr ⟨hmem, (set_filter_iff modem.settings k v).mpr hq⟩
      rw [hS]

/-- The diff at the example of the specification, where it does reconcile: the snapshot holds a
setting of context `a`, the final cache a setting of context `b`. -/
theorem ofono_diff_reconciles_witness :
    (cache_b_y.map Prod.fst).Nodup
      ∧ g_hash_table_lookup
          (spec_apply_cmds snapshot_a_x
            (prv_ofono_plugin_anaylse { settings := snapshot_a_x, mms_context := none }
              cache_b_y)) "/telephony/contexts/b/y".toList
        = g_hash_table_lookup cache_b_y "/telephony/contexts/b/y".toList
      ∧ g_hash_table_lookup
          (spec_apply_cmds snapshot_a_x
            (prv_ofono_plugin_anaylse { settings := snapshot_a_x, mms_context := none }
              cache_b_y)) "/telephony/contexts/a/x".toList
        = g_hash_table_lookup cache_b_y "/telephony/contexts/a/x".toList := by
  have hnodup : (cache_b_y.map Prod.fst).Nodup := by decide
  have hcover : ∀ kv ∈ snapshot_a_x, g_hash_table_lookup cache_b_y kv.1 = none →
      ∃ c, ofono_key_context kv.1 = some c ∧ ¬ context_present cache_b_y c := by
    intro kv hkv _
    simp only [snapshot_a_x, List.mem_singleton] at hkv
    subst hkv
    exact ⟨"a".toList, by decide, by decide⟩
  exact ⟨hnodup,
    ofono_diff_reconciles { settings := snapshot_a_x, mms_context := none } cache_b_y
      hnodup hcover _,
    ofono_diff_reconciles { settings := snapshot_a_x, mms_context := none } cache_b_y
      hnodup hcover _⟩

/-! ## C9: the diff of an unchanged table -/

/-- C9 (as stated, refuted): a modem that records an MMS context while its settings table has
no setting under the MMS root gets a Delete-MMS command from a diff against its own table. -/
theorem ofono_diff_unchanged_deletes_mms :
    prv_ofono_plugin_anaylse { settings := [], mms_context := some "/ril_0/context1".toList } []
      ≠ [] := by
  decide

/-- C9 (amended): for every modem whose settings table has pairwise distinct keys, the diff of
that table against itself holds no Delete, no Add and no Set command; and when the modem
records an MMS context exactly if its table has a setting under the MMS root, it holds no MMS
command either, so the command list is empty. -/
theorem ofono_diff_unchanged (modem : ofono_plugin_modem_t)
    (hnodup : (modem.settings.map Prod.fst).Nodup) :
    (∀ cmd ∈ prv_ofono_plugin_anaylse modem modem.settings,
        cmd.type = OFONO_PLUGIN_DELETE_MMS ∨ cmd.type = OFONO_PLUGIN_ADD_MMS)
      ∧ (modem.mms_context.isSome = prv_have_mms modem.settings →
          prv_ofono_plugin_anaylse modem modem.settings = []) := by
  have hmain : ∀ cmd ∈ prv_ofono_plugin_anaylse modem modem.settings,
      (modem.mms_context.isSome = true ∧ prv_have_mms modem.settings = false ∧
          cmd.type = OFONO_PLUGIN_DELETE_MMS)
      ∨ (modem.mms_context.isSome = false ∧ prv_have_mms modem.settings = true ∧
          cmd.type = OFONO_PLUGIN_ADD_MMS) := by
    intro cmd hcmd
    rcases (mem_prv_ofono_plugin_anaylse modem modem.settings cmd).mp hcmd with
      ⟨c, h1, h2, _⟩ | ⟨h1, h2, rfl⟩ | ⟨c, h1, h2, _⟩ | ⟨h1, h2, rfl⟩ | ⟨k, v, h1, h2, _⟩
    · exact absurd h1 h2
    · exact Or.inl ⟨h1, h2, rfl⟩
    · exact absurd h1 h2
    · exact Or.inr ⟨h1, h2, rfl⟩
    · exact absurd (g_hash_table_lookup_of_mem _ _ _ hnodup h1) h2
  refine ⟨?_, ?_⟩
  · intro cmd hcmd
    rcases hmain cmd hcmd with ⟨_, _, h⟩ | ⟨_, _, h⟩
    · exact Or.inl h
    · exact Or.inr h
  · intro hmms
    rw [List.eq_nil_iff_forall_not_mem]
    intro cmd hcmd
    rcases hmain cmd hcmd with ⟨h1, h2, _⟩ | ⟨h1, h2, _⟩
    · rw [h1, h2] at hmms
      exact Bool.noConfusion hmms
    · rw [h1, h2] at hmms
      exact Bool.noConfusion hmms

/-- C9 (amended) at a modem without MMS context whose table holds one context setting. -/
theorem ofono_diff_unchanged_witness :
    (snapshot_a_x.map Prod.fst).Nodup
      ∧ prv_ofono_plugin_anaylse { settings := snapshot_a_x, mms_context := none } snapshot_a_x
          = [] :=
  ⟨by decide,
   (ofono_diff_unchanged { settings := snapshot_a_x, mms_context := none } (by decide)).2
     (by decide)⟩

/-! ## C1: requests of a client that is not the holder -/

/-- C1 (as stated, refuted): after Start from a first client and Start from a second one, the
first is the holder and the second waits; a further Start from the second client, which is not
the holder, is answered at once, with the Unexpected error. -/
theorem queued_start_is_answered :
    (provman_run_events system_plugins
        [provman_event.method_call (start_of client_a),
         provman_event.method_call (start_of client_b)]).holder = some client_a
      ∧ client_b ≠ client_a
      ∧ (prv_provman_method_call
          (provman_run_events system_plugins
            [provman_event.method_call (start_of client_a),
             provman_event.method_call (start_of client_b)])
          (start_of client_b)).2
        = [dbus_reply.return_dbus_error (start_of client_b) PROVMAN_DBUS_ERR_UNEXPECTED] := by
  decide

/-- C1 (amended): for every coordinator state and every invocation whose sender is not the
current holder (there may be no holder, the sender may be waiting in the queue): a Set, SetAll,
Get, GetAll, Delete or End call is answered with the Unexpected error and leaves the holder,
the wait queue and the task queue unchanged; and while there is a holder, a Start call of a
sender that has no Start waiting in the queue receives no reply and is appended to the wait
queue, the holder and the task queue being unchanged, whereas a Start call of a sender that is
already waiting is answered with the Unexpected error and changes none of the three. -/
theorem non_holder_requests (context : provman_context) (invocation : GDBusMethodInvocation)
    (hnot : context.holder ≠ some invocation.sender) :
    ((∀ imsi, invocation.call ≠ provman_call.Start imsi) →
        (prv_provman_method_call context invocation).2
            = [dbus_reply.return_dbus_error invocation PROVMAN_DBUS_ERR_UNEXPECTED]
          ∧ (prv_provman_method_call context invocation).1.tasks = context.tasks
          ∧ (prv_provman_method_call context invocation).1.holder = context.holder
          ∧ (prv_provman_method_call context invocation).1.queued_clients
              = context.queued_clients)
    ∧ (∀ imsi, invocation.call = provman_call.Start imsi → context.holder ≠ none →
        (prv_provman_method_call context invocation).1.tasks = context.tasks
          ∧ (prv_provman_method_call context invocation).1.holder = context.holder
          ∧ ((∀ q ∈ context.queued_clients, q.sender ≠ invocation.sender) →
              (prv_provman_method_call context invocation).2 = []
                ∧ (prv_provman_method_call context invocation).1.queued_clients
                    = context.queued_clients ++ [invocation])
          ∧ ((∃ q ∈ context.queued_clients, q.sender = invocation.sender) →
              (prv_provman_method_call context invocation).2
                  = [dbus_reply.return_dbus_error invocation PROVMAN_DBUS_ERR_UNEXPECTED]
                ∧ (prv_provman_method_call context invocation).1.queued_clients
                    = context.queued_clients)) := by
  obtain ⟨sender, call⟩ := invocation
  simp only at hnot
  have hnot2 : ¬ some sender = context.holder := fun h => hnot h.symm
  refine ⟨?_, ?_⟩
  · intro hcall
    cases call with
    | Start imsi => exact absurd rfl (hcall imsi)
    | End => cases ht : context.timeout_id <;> simp [prv_provman_method_call, ht, hnot]
    | Set key value => cases ht : context.timeout_id <;> simp [prv_provman_method_call, ht, hnot]
    | SetAll dict => cases ht : context.timeout_id <;> simp [prv_provman_method_call, ht, hnot]
    | Get key => cases ht : context.timeout_id <;> simp [prv_provman_method_call, ht, hnot]
    | GetAll key => cases ht : context.timeout_id <;> simp [prv_provman_method_call, ht, hnot]
    | Delete key => cases ht : context.timeout_id <;> simp [prv_provman_method_call, ht, hnot]
  · intro imsi hcall hholder
    simp only at hcall
    subst hcall
    by_cases hq : ∃ q ∈ context.queued_clients, q.sender = sender
    · have hnq : ¬ ∀ q ∈ context.queued_clients, q.sender ≠ sender := by
        intro hall
        obtain ⟨q, hq1, hq2⟩ := hq
        exact hall q hq1 hq2
      have hfind : (∀ x ∈ context.queued_clients, ¬ sender = x.sender) ↔ False := by
        refine iff_false_intro (fun hall => ?_)
        obtain ⟨q, hq1, hq2⟩ := hq
        exact hall q hq1 hq2.symm
      cases ht : context.timeout_id <;>
        simp [prv_provman_method_call, ht, hholder, prv_find_connection, hnot2, hq, hnq, hfind]
    · have hnq : ∀ q ∈ context.queued_clients, q.sender ≠ sender := by
        intro q hq1 hq2
        exact hq ⟨q, hq1, hq2⟩
      have hfind : (∀ x ∈ context.queued_clients, ¬ sender = x.sender) ↔ True := by
        refine iff_true_intro (fun q hq1 hq2 => ?_)
        exact hq ⟨q, hq1, hq2.symm⟩
      cases ht : context.timeout_id <;>
        simp [prv_provman_method_call, ht, hholder, prv_find_connection, hnot2, hq, hnq, hfind]

/-- C1 (amended) at the state reached by one Start: a Get from another client is answered
with the Unexpected error. -/
theorem non_holder_requests_witness :
    (provman_run_events system_plugins
        [provman_event.method_call (start_of client_a)]).holder ≠ some client_b
      ∧ (prv_provman_method_call
          (provman_run_events system_plugins [provman_event.method_call (start_of client_a)])
          { sender := client_b, call := provman_call.Get "/telephony/mms/apn".toList }).2
        = [dbus_reply.return_dbus_error
            { sender := client_b, call := provman_call.Get "/telephony/mms/apn".toList }
            PROVMAN_DBUS_ERR_UNEXPECTED] :=
  ⟨by decide,
   ((non_holder_requests
      (provman_run_events system_plugins [provman_event.method_call (start_of client_a)])
      { sender := client_b, call := provman_call.Get "/telephony/mms/apn".toList }
      (by decide)).1 (fun _ h => provman_call.noConfusion h)).1⟩

/-! ## C10: the holder disconnects -/

/-- C10 (what the code does): after Start and End from a first client and Start from a second
one, all received before the main loop has run a task, the second client is the holder while
the sync-out task of the first session is still in the queue.  Its disconnection then changes
nothing, because `prv_lost_client` finds a sync-out task in the queue, whereas its End would
end the session.  The watcher reports the loss once, so in the run that follows every task is
run to completion, the dead client is still the holder, a new Start of the first client is put
in the wait queue without a reply, and no idle source is left that could ever answer it. -/
theorem lost_holder_ignored_while_sync_out_pending :
    (provman_run_events system_plugins
        [provman_event.method_call (start_of client_a),
         provman_event.method_call (end_of client_a),
         provman_event.method_call (start_of client_b)]).holder = some client_b
      ∧ (prv_lost_client
          (provman_run_events system_plugins
            [provman_event.method_call (start_of client_a),
             provman_event.method_call (end_of client_a),
             provman_event.method_call (start_of client_b)]) client_b).1.holder
        = some client_b
      ∧ (prv_provman_method_call
          (provman_run_events system_plugins
            [provman_event.method_call (start_of client_a),
             provman_event.method_call (end_of client_a),
             provman_event.method_call (start_of client_b)]) (end_of client_b)).1.holder
        = none
      ∧ (prv_lost_client
          (provman_run_events system_plugins
            [provman_event.method_call (start_of client_a),
             provman_event.method_call (end_of client_a),
             provman_event.method_call (start_of client_b)]) client_b).1.tasks
        ≠ (prv_provman_method_call
          (provman_run_events system_plugins
            [provman_event.method_call (start_of client_a),
             provman_event.method_call (end_of client_a),
             provman_event.method_call (start_of client_b)]) (end_of client_b)).1.tasks
      ∧ (main_loop_run system_behaviour events_holder_lost_early).context.holder
        = some client_b
      ∧ (main_loop_run system_behaviour events_holder_lost_early).context.queued_clients
        = [start_of client_a]
      ∧ (main_loop_run system_behaviour events_holder_lost_early).replies
        = [dbus_reply.return_value (start_of client_a) reply_value.null,
           dbus_reply.return_value (end_of client_a) reply_value.null,
           dbus_reply.return_value (start_of client_b) reply_value.null]
      ∧ (main_loop_run system_behaviour events_holder_lost_early).context.tasks = []
      ∧ (main_loop_run system_behaviour events_holder_lost_early).idle_sources = []
      ∧ (main_loop_run system_behaviour events_holder_lost_early).quit = false := by
  refine ⟨by decide, by decide, by decide, by decide, by decide, by decide, by decide,
    by decide, by decide, by decide⟩

theorem prv_add_task_fields (context : provman_context) (task : provman_task) :
    (prv_add_task context task).tasks = context.tasks ++ [task]
      ∧ (prv_add_task context task).holder = context.holder
      ∧ (prv_add_task context task).queued_clients = context.queued_clients := by
  unfold prv_add_task
  simp only []
  split <;> simp

theorem prv_session_ended_fields (context : provman_context) :
    (prv_session_ended context).1.holder
        = (context.queued_clients.head?).map (fun invocation => invocation.sender)
      ∧ (prv_session_ended context).1.queued_clients = context.queued_clients.tail
      ∧ (prv_session_ended context).1.tasks
          = context.tasks ++ sync_out_task ::
              (match context.queued_clients.head? with
               | none => []
               | some invocation => [sync_in_task invocation.imsi])
      ∧ (prv_session_ended context).2
          = (match context.queued_clients.head? with
             | none => []
             | some invocation => [dbus_reply.return_value invocation reply_value.null]) := by
  unfold prv_session_ended
  simp only [prv_add_sync_out_task, prv_add_sync_in_task]
  cases hq : context.queued_clients with
  | nil =>
    simp [(prv_add_task_fields _ _).1, (prv_add_task_fields _ _).2.1,
      (prv_add_task_fields _ _).2.2, hq, sync_out_task]
  | cons invocation rest =>
    simp [(prv_add_task_fields _ _).1, (prv_add_task_fields _ _).2.1,
      (prv_add_task_fields _ _).2.2, hq, sync_out_task, sync_in_task]

theorem prv_provman_method_call_end (context : provman_context) (holder : CString)
    (hholder : context.holder = some holder) :
    prv_provman_method_call context (end_of holder) =
      ((prv_session_ended
          (if context.timeout_id = true then { context with timeout_id := false }
           else context)).1,
       dbus_reply.return_value (end_of holder) reply_value.null ::
         (prv_session_ended
          (if context.timeout_id = true then { context with timeout_id := false }
           else context)).2) := by
  cases ht : context.timeout_id <;> simp [prv_provman_method_call, end_of, ht, hholder]

/-- What `prv_lost_client` does in a coordinator state with a holder H.  If no sync-out task
is waiting in the task queue, the disconnection of H produces the same holder, wait queue and
task queue as an End call of H: a sync-out task is appended, H stops being the holder and the
head of the wait queue, if any, becomes the holder with its sync-in task appended and its Start
answered; the End call sends one more reply, to H.  If a sync-out task is waiting in the task
queue, the code ignores the disconnection: nothing changes and H stays the holder, which is the
defect shown above. -/
theorem lost_holder_as_end (context : provman_context) (holder : CString)
    (hholder : context.holder = some holder) :
    ((∀ task ∈ context.tasks, task.type ≠ PROVMAN_TASK_SYNC_OUT) →
        (prv_lost_client context holder).1.holder
            = (prv_provman_method_call context (end_of holder)).1.holder
          ∧ (prv_lost_client context holder).1.queued_clients
            = (prv_provman_method_call context (end_of holder)).1.queued_clients
          ∧ (prv_lost_client context holder).1.tasks
            = (prv_provman_method_call context (end_of holder)).1.tasks
          ∧ (prv_provman_method_call context (end_of holder)).2
            = dbus_reply.return_value (end_of holder) reply_value.null
                :: (prv_lost_client context holder).2
          ∧ (prv_lost_client context holder).1.holder
            = (context.queued_clients.head?).map (fun invocation => invocation.sender)
          ∧ (prv_lost_client context holder).1.queued_clients = context.queued_clients.tail
          ∧ (prv_lost_client context holder).1.tasks
            = context.tasks ++ sync_out_task ::
                (match context.queued_clients.head? with
                 | none => []
                 | some invocation => [sync_in_task invocation.imsi]))
    ∧ ((∃ task ∈ context.tasks, task.type = PROVMAN_TASK_SYNC_OUT) →
        prv_lost_client context holder = (context, [])) := by
  refine ⟨?_, ?_⟩
  · intro hnone
    have hany : context.tasks.any
        (fun task => decide (task.type = PROVMAN_TASK_SYNC_OUT)) = false := by
      rw [List.any_eq_false]
      intro task htask
      simpa using hnone task htask
    have hlost : prv_lost_client context holder = prv_session_ended context := by
      unfold prv_lost_client
      rw [hany]
      rfl
    rw [hlost, prv_provman_method_call_end context holder hholder]
    obtain ⟨h1, h2, h3, h4⟩ := prv_session_ended_fields context
    obtain ⟨g1, g2, g3, g4⟩ := prv_session_ended_fields
      (if context.timeout_id = true then { context with timeout_id := false } else context)
    have e1 : (if context.timeout_id = true then { context with timeout_id := false }
        else context).queued_clients = context.queued_clients := by
      split <;> rfl
    have e2 : (if context.timeout_id = true then { context with timeout_id := false }
        else context).tasks = context.tasks := by
      split <;> rfl
    rw [e1] at g1 g2 g3 g4
    rw [e2] at g3
    refine ⟨?_, ?_, ?_, ?_, h1, h2, h3⟩
    · simp only [h1, g1]
    · simp only [h2, g2]
    · simp only [h3, g3]
    · simp only [h4, g4]
  · rintro ⟨task, htask, htype⟩
    have hany : context.tasks.any
        (fun task => decide (task.type = PROVMAN_TASK_SYNC_OUT)) = true := by
      rw [List.any_eq_true]
      exact ⟨task, htask, by simpa using htype⟩
    unfold prv_lost_client
    rw [hany]
    rfl

/-- The disconnection of the holder at the state reached by Start of a first client followed
by Start of a second one, with no sync-out task waiting: the waiting client is promoted. -/
theorem lost_holder_as_end_witness :
    (provman_run_events system_plugins
        [provman_event.method_call (start_of client_a),
         provman_event.method_call (start_of client_b)]).holder = some client_a
      ∧ (prv_lost_client
          (provman_run_events system_plugins
            [provman_event.method_call (start_of client_a),
             provman_event.method_call (start_of client_b)]) client_a).1.holder
        = (prv_provman_method_call
            (provman_run_events system_plugins
              [provman_event.method_call (start_of client_a),
               provman_event.method_call (start_of client_b)]) (end_of client_a)).1.holder :=
  ⟨by decide,
   ((lost_holder_as_end
      (provman_run_events system_plugins
        [provman_event.method_call (start_of client_a),
         provman_event.method_call (start_of client_b)]) client_a (by decide)).1
      (by decide)).1⟩

/-! ## C15: a cancelled sync-in -/

theorem kv_cache_prv_clear_cache (count : Nat) (manager : plugin_manager_t) (i : Nat)
    (hi : i < count) : kv_cache (prv_clear_cache count manager) i = none := by
  unfold kv_cache prv_clear_cache
  simp only [List.getD_eq_getElem?_getD]
  by_cases hlen : i < manager.kv_caches.length
  · rw [List.getElem?_append_left (by simp; omega)]
    simp [List.getElem?_map, List.getElem?_take, hi, hlen]
  · rw [List.getElem?_eq_none (by simp; omega)]
    rfl

/-- C15: when the completion callback of a plugin's sync-in reports Cancelled, whatever the
state of the manager and the caches already stored, every plugin's cache becomes absent, the
state becomes Idle, no `sync_in_fn` (nor any other plugin function) is called, and the
completion that has been scheduled delivers Cancelled to the caller of the manager. -/
theorem sync_in_cancelled (count : Nat) (sync_in_ret : Nat → provman_errors)
    (manager : plugin_manager_t) (settings : Option GHashTable) :
    (∀ i, i < count →
        kv_cache (prv_plugin_sync_in_cb count sync_in_ret manager PROVMAN_ERR_CANCELLED
          settings).1 i = none)
      ∧ (prv_plugin_sync_in_cb count sync_in_ret manager PROVMAN_ERR_CANCELLED settings).1.state
          = PLUGIN_MANAGER_STATE_IDLE
      ∧ (prv_plugin_sync_in_cb count sync_in_ret manager PROVMAN_ERR_CANCELLED settings).2 = []
      ∧ (prv_plugin_sync_in_cb count sync_in_ret manager PROVMAN_ERR_CANCELLED
          settings).1.completion_source = true
      ∧ (prv_complete_callback
          (prv_plugin_sync_in_cb count sync_in_ret manager PROVMAN_ERR_CANCELLED settings).1).2
          = PROVMAN_ERR_CANCELLED := by
  have h : prv_plugin_sync_in_cb count sync_in_ret manager PROVMAN_ERR_CANCELLED settings
      = (prv_schedule_completion (prv_clear_cache count manager) PROVMAN_ERR_CANCELLED, []) := by
    unfold prv_plugin_sync_in_cb
    simp
  rw [h]
  refine ⟨fun i hi => ?_, rfl, rfl, rfl, rfl⟩
  exact kv_cache_prv_clear_cache count manager i hi

/-! ## C16: a sync-in without cancellation -/

theorem prv_sync_in_loop_done (count : Nat) (sync_in_ret : Nat → provman_errors)
    (imsi : Option CString) (fuel synced : Nat) (h : count ≤ synced) :
    prv_sync_in_loop count sync_in_ret imsi fuel synced = (synced, []) := by
  cases fuel with
  | zero => rfl
  | succ fuel =>
    unfold prv_sync_in_loop
    simp [Nat.not_lt.mpr h]

theorem prv_sync_in_next_plugin_done (count : Nat) (sync_in_ret : Nat → provman_errors)
    (manager : plugin_manager_t) (h : manager.synced = count) :
    prv_sync_in_next_plugin count sync_in_ret manager
      = (prv_schedule_completion manager PROVMAN_ERR_NONE, []) := by
  unfold prv_sync_in_next_plugin
  rw [prv_sync_in_loop_done count sync_in_ret manager.imsi _ _ (by omega)]
  simp only [h, if_true]
  have hm : ({ manager with synced := count } : plugin_manager_t) = manager := by
    cases manager
    simp only at h
    subst h
    rfl
  rw [hm]

theorem prv_sync_in_next_plugin_accepted (count : Nat) (sync_in_ret : Nat → provman_errors)
    (manager : plugin_manager_t) (hlt : manager.synced < count)
    (hret : sync_in_ret manager.synced = PROVMAN_ERR_NONE) :
    prv_sync_in_next_plugin count sync_in_ret manager
      = (manager, [plugin_call.sync_in_fn manager.synced manager.imsi]) := by
  unfold prv_sync_in_next_plugin
  have hfuel : count - manager.synced = (count - (manager.synced + 1)) + 1 := by omega
  rw [hfuel]
  unfold prv_sync_in_loop
  have hne : ¬ manager.synced = count := by omega
  simp [hlt, hret, hne]

theorem prv_sync_in_next_plugin_rejected (count : Nat) (sync_in_ret : Nat → provman_errors)
    (manager : plugin_manager_t) (hlt : manager.synced < count)
    (hret : sync_in_ret manager.synced ≠ PROVMAN_ERR_NONE) :
    prv_sync_in_next_plugin count sync_in_ret manager
      = ((prv_sync_in_next_plugin count sync_in_ret
            { manager with synced := manager.synced + 1 }).1,
         plugin_call.sync_in_fn manager.synced manager.imsi ::
           (prv_sync_in_next_plugin count sync_in_ret
            { manager with synced := manager.synced + 1 }).2) := by
  have hfuel : count - manager.synced = (count - (manager.synced + 1)) + 1 := by omega
  have hstep : prv_sync_in_loop count sync_in_ret manager.imsi (count - manager.synced)
        manager.synced
      = ((prv_sync_in_loop count sync_in_ret manager.imsi (count - (manager.synced + 1))
            (manager.synced + 1)).1,
         plugin_call.sync_in_fn manager.synced manager.imsi ::
           (prv_sync_in_loop count sync_in_ret manager.imsi (count - (manager.synced + 1))
            (manager.synced + 1)).2) := by
    rw [hfuel]
    conv => lhs; unfold prv_sync_in_loop
    simp [hlt, hret]
  unfold prv_sync_in_next_plugin
  simp only [hstep]
  split <;> rfl

theorem kv_cache_set (manager : plugin_manager_t) (j i : Nat) (x : Option GHashTable)
    (hj : j < manager.kv_caches.length) :
    kv_cache { manager with kv_caches := manager.kv_caches.set j x } i
      = if i = j then x else kv_cache manager i := by
  unfold kv_cache
  simp only [List.getD_eq_getElem?_getD]
  by_cases h : i = j
  · subst h
    simp [List.getElem?_set_self hj]
  · have h2 : ¬ j = i := fun e => h e.symm
    simp [List.getElem?_set_ne h2, h]

theorem sync_in_callbacks_not_sync_in (count : Nat) (sync_in_ret : Nat → provman_errors)
    (sync_in_result : Nat → provman_errors × Option GHashTable) (fuel : Nat)
    (manager : plugin_manager_t) (h : manager.state ≠ PLUGIN_MANAGER_STATE_SYNC_IN) :
    sync_in_callbacks count sync_in_ret sync_in_result fuel manager = (manager, []) := by
  cases fuel with
  | zero => rfl
  | succ fuel =>
    unfold sync_in_callbacks
    simp [h]

theorem sync_in_completes (count : Nat) (sync_in_ret : Nat → provman_errors)
    (sync_in_result : Nat → provman_errors × Option GHashTable)
    (hnocancel : ∀ i, i < count → sync_in_ret i = PROVMAN_ERR_NONE →
      (sync_in_result i).1 ≠ PROVMAN_ERR_CANCELLED) :
    ∀ (d : Nat) (manager : plugin_manager_t) (fuel : Nat),
      count - manager.synced = d → manager.synced ≤ count →
      manager.state = PLUGIN_MANAGER_STATE_SYNC_IN → manager.kv_caches.length = count →
      d ≤ fuel →
      (sync_in_callbacks count sync_in_ret sync_in_result fuel
          (prv_sync_in_next_plugin count sync_in_ret manager).1).1.state
          = PLUGIN_MANAGER_STATE_IDLE
        ∧ (sync_in_callbacks count sync_in_ret sync_in_result fuel
            (prv_sync_in_next_plugin count sync_in_ret manager).1).1.err = PROVMAN_ERR_NONE
        ∧ (sync_in_callbacks count sync_in_ret sync_in_result fuel
            (prv_sync_in_next_plugin count sync_in_ret manager).1).1.completion_source = true
        ∧ (prv_sync_in_next_plugin count sync_in_ret manager).2
            ++ (sync_in_callbacks count sync_in_ret sync_in_result fuel
                (prv_sync_in_next_plugin count sync_in_ret manager).1).2
            = (List.range' manager.synced (count - manager.synced)).map
                (fun i => plugin_call.sync_in_fn i manager.imsi)
        ∧ ∀ i, kv_cache (sync_in_callbacks count sync_in_ret sync_in_result fuel
              (prv_sync_in_next_plugin count sync_in_ret manager).1).1 i
            = if manager.synced ≤ i ∧ i < count ∧ sync_in_ret i = PROVMAN_ERR_NONE
                  ∧ (sync_in_result i).1 = PROVMAN_ERR_NONE
              then (sync_in_result i).2 else kv_cache manager i := by
  intro d
  induction d with
  | zero =>
    intro manager fuel hd hle hstate hlen _
    have hs : manager.synced = count := by omega
    rw [prv_sync_in_next_plugin_done count sync_in_ret manager hs,
      sync_in_callbacks_not_sync_in count sync_in_ret sync_in_result fuel _
        (by simp [prv_schedule_completion])]
    refine ⟨rfl, rfl, rfl, by simp [hd], fun i => ?_⟩
    have hc : ¬ (manager.synced ≤ i ∧ i < count ∧ sync_in_ret i = PROVMAN_ERR_NONE
        ∧ (sync_in_result i).1 = PROVMAN_ERR_NONE) := by
      rintro ⟨h1, h2, _⟩
      omega
    rw [if_neg hc]
    rfl
  | succ d ih =>
    intro manager fuel hd hle hstate hlen hfuel
    have hlt : manager.synced < count := by omega
    have hrange : List.range' manager.synced (count - manager.synced)
        = manager.synced :: List.range' (manager.synced + 1) (count - (manager.synced + 1)) := by
      have : count - manager.synced = (count - (manager.synced + 1)) + 1 := by omega
      rw [this, List.range'_succ]
    by_cases hret : sync_in_ret manager.synced = PROVMAN_ERR_NONE
    · rw [prv_sync_in_next_plugin_accepted count sync_in_ret manager hlt hret]
      obtain ⟨f, rfl⟩ : ∃ f, fuel = f + 1 := ⟨fuel - 1, by omega⟩
      have hncl := hnocancel manager.synced hlt hret
      by_cases hres : (sync_in_result manager.synced).1 = PROVMAN_ERR_NONE
      · have ih' := ih
          { manager with
              kv_caches := manager.kv_caches.set manager.synced (sync_in_result manager.synced).2,
              synced := manager.synced + 1 } f
          (by simp only; omega) (by simp only; omega) hstate (by simp [hlen]) (by omega)
        have hcb : sync_in_callbacks count sync_in_ret sync_in_result (f + 1) manager
            = ((sync_in_callbacks count sync_in_ret sync_in_result f
                (prv_sync_in_next_plugin count sync_in_ret
                  { manager with
                      kv_caches :=
                        manager.kv_caches.set manager.synced (sync_in_result manager.synced).2,
                      synced := manager.synced + 1 }).1).1,
               (prv_sync_in_next_plugin count sync_in_ret
                  { manager with
                      kv_caches :=
                        manager.kv_caches.set manager.synced (sync_in_result manager.synced).2,
                      synced := manager.synced + 1 }).2
                ++ (sync_in_callbacks count sync_in_ret sync_in_result f
                (prv_sync_in_next_plugin count sync_in_ret
                  { manager with
                      kv_caches :=
                        manager.kv_caches.set manager.synced (sync_in_result manager.synced).2,
                      synced := manager.synced + 1 }).1).2) := by
          conv => lhs; unfold sync_in_callbacks
          simp [hstate, prv_plugin_sync_in_cb, hres]
        rw [hcb]
        obtain ⟨h1, h2, h3, h4, h5⟩ := ih'
        refine ⟨h1, h2, h3, ?_, fun i => ?_⟩
        · simp only at h4 ⊢
          rw [hrange, List.map_cons, List.singleton_append, h4]
        · rw [h5 i]
          simp only
          have hset : kv_cache
                  { manager with
                      kv_caches :=
                        manager.kv_caches.set manager.synced (sync_in_result manager.synced).2,
                      synced := manager.synced + 1 } i
              = if i = manager.synced then (sync_in_result manager.synced).2
                else kv_cache manager i :=
            kv_cache_set manager manager.synced i (sync_in_result manager.synced).2 (by omega)
          by_cases hi : i = manager.synced
          · subst hi
            rw [hset]
            simp [hret, hres, hlt]
          · by_cases hc : manager.synced + 1 ≤ i ∧ i < count
                ∧ sync_in_ret i = PROVMAN_ERR_NONE ∧ (sync_in_result i).1 = PROVMAN_ERR_NONE
            · have hc2 : manager.synced ≤ i ∧ i < count
                  ∧ sync_in_ret i = PROVMAN_ERR_NONE
                  ∧ (sync_in_result i).1 = PROVMAN_ERR_NONE :=
                ⟨by omega, hc.2.1, hc.2.2.1, hc.2.2.2⟩
              rw [if_pos hc, if_pos hc2]
            · have hc2 : ¬ (manager.synced ≤ i ∧ i < count
                  ∧ sync_in_ret i = PROVMAN_ERR_NONE
                  ∧ (sync_in_result i).1 = PROVMAN_ERR_NONE) := by
                rintro ⟨a, b, c, e⟩
                exact hc ⟨by omega, b, c, e⟩
              rw [if_neg hc, if_neg hc2, hset, if_neg hi]
      · have ih' := ih { manager with synced := manager.synced + 1 } f
          (by simp only; omega) (by simp only; omega) hstate hlen (by omega)
        have hcb : sync_in_callbacks count sync_in_ret sync_in_result (f + 1) manager
            = ((sync_in_callbacks count sync_in_ret sync_in_result f
                (prv_sync_in_next_plugin count sync_in_ret
                  { manager with synced := manager.synced + 1 }).1).1,
               (prv_sync_in_next_plugin count sync_in_ret
                  { manager with synced := manager.synced + 1 }).2
                ++ (sync_in_callbacks count sync_in_ret sync_in_result f
                (prv_sync_in_next_plugin count sync_in_ret
                  { manager with synced := manager.synced + 1 }).1).2) := by
          conv => lhs; unfold sync_in_callbacks
          simp [hstate, prv_plugin_sync_in_cb, hres, hncl]
        rw [hcb]
        obtain ⟨h1, h2, h3, h4, h5⟩ := ih'
        refine ⟨h1, h2, h3, ?_, fun i => ?_⟩
        · simp only at h4 ⊢
          rw [hrange, List.map_cons, List.singleton_append, h4]
        · rw [h5 i]
          simp only
          by_cases hi : i = manager.synced
          · subst hi
            simp [hres]
            rfl
          · by_cases hc : manager.synced + 1 ≤ i ∧ i < count
                ∧ sync_in_ret i = PROVMAN_ERR_NONE ∧ (sync_in_result i).1 = PROVMAN_ERR_NONE
            · have hc2 : manager.synced ≤ i ∧ i < count
                  ∧ sync_in_ret i = PROVMAN_ERR_NONE
                  ∧ (sync_in_result i).1 = PROVMAN_ERR_NONE :=
                ⟨by omega, hc.2.1, hc.2.2.1, hc.2.2.2⟩
              rw [if_pos hc, if_pos hc2]
            · have hc2 : ¬ (manager.synced ≤ i ∧ i < count
                  ∧ sync_in_ret i = PROVMAN_ERR_NONE
                  ∧ (sync_in_result i).1 = PROVMAN_ERR_NONE) := by
                rintro ⟨a, b, c, e⟩
                exact hc ⟨by omega, b, c, e⟩
              rw [if_neg hc, if_neg hc2]
              rfl
    · rw [prv_sync_in_next_plugin_rejected count sync_in_ret manager hlt hret]
      have ih' := ih { manager with synced := manager.synced + 1 } fuel
        (by simp only; omega) (by simp only; omega) hstate hlen (by omega)
      obtain ⟨h1, h2, h3, h4, h5⟩ := ih'
      refine ⟨h1, h2, h3, ?_, fun i => ?_⟩
      · simp only at h4 ⊢
        rw [hrange, List.map_cons, List.cons_append, h4]
      · rw [h5 i]
        simp only
        by_cases hi : i = manager.synced
        · subst hi
          simp [hret]
          rfl
        · by_cases hc : manager.synced + 1 ≤ i ∧ i < count
              ∧ sync_in_ret i = PROVMAN_ERR_NONE ∧ (sync_in_result i).1 = PROVMAN_ERR_NONE
          · have hc2 : manager.synced ≤ i ∧ i < count
                ∧ sync_in_ret i = PROVMAN_ERR_NONE
                ∧ (sync_in_result i).1 = PROVMAN_ERR_NONE :=
              ⟨by omega, hc.2.1, hc.2.2.1, hc.2.2.2⟩
            rw [if_pos hc, if_pos hc2]
          · have hc2 : ¬ (manager.synced ≤ i ∧ i < count
                ∧ sync_in_ret i = PROVMAN_ERR_NONE
                ∧ (sync_in_result i).1 = PROVMAN_ERR_NONE) := by
              rintro ⟨a, b, c, e⟩
              exact hc ⟨by omega, b, c, e⟩
            rw [if_neg hc, if_neg hc2]
            rfl

/-- C16: for every Idle plugin manager whose caches are all absent and every behaviour of the
plugins in which no accepted `sync_in_fn` completes with Cancelled, a sync-in (the call of
`plugin_manager_sync_in` followed by the callbacks of the plugins) returns success, calls
`sync_in_fn` once on every plugin in registry order, ends in state Idle with a completion
scheduled that delivers success, and afterwards the cache of plugin i is the settings it
passed to the callback if its `sync_in_fn` was accepted and completed without error, and is
absent if the plugin rejected the call or completed with an error. -/
theorem sync_in_without_cancellation (count : Nat) (sync_in_ret : Nat → provman_errors)
    (sync_in_result : Nat → provman_errors × Option GHashTable) (manager : plugin_manager_t)
    (imsi : CString)
    (hidle : manager.state = PLUGIN_MANAGER_STATE_IDLE)
    (hlen : manager.kv_caches.length = count)
    (habsent : ∀ i, kv_cache manager i = none)
    (hnocancel : ∀ i, i < count → sync_in_ret i = PROVMAN_ERR_NONE →
      (sync_in_result i).1 ≠ PROVMAN_ERR_CANCELLED) :
    (run_sync_in count sync_in_ret sync_in_result manager imsi).1 = PROVMAN_ERR_NONE
      ∧ (run_sync_in count sync_in_ret sync_in_result manager imsi).2.2
          = (List.range count).map (fun i => plugin_call.sync_in_fn i (some imsi))
      ∧ (run_sync_in count sync_in_ret sync_in_result manager imsi).2.1.state
          = PLUGIN_MANAGER_STATE_IDLE
      ∧ (run_sync_in count sync_in_ret sync_in_result manager imsi).2.1.completion_source = true
      ∧ (prv_complete_callback
          (run_sync_in count sync_in_ret sync_in_result manager imsi).2.1).2 = PROVMAN_ERR_NONE
      ∧ ∀ i, i < count →
          kv_cache (run_sync_in count sync_in_ret sync_in_result manager imsi).2.1 i
            = if sync_in_ret i = PROVMAN_ERR_NONE ∧ (sync_in_result i).1 = PROVMAN_ERR_NONE
              then (sync_in_result i).2 else none := by
  have hstart : plugin_manager_sync_in count sync_in_ret manager imsi
      = (PROVMAN_ERR_NONE,
         (prv_sync_in_next_plugin count sync_in_ret
            { manager with synced := 0, state := PLUGIN_MANAGER_STATE_SYNC_IN,
                           err := PROVMAN_ERR_NONE, imsi := some imsi }).1,
         (prv_sync_in_next_plugin count sync_in_ret
            { manager with synced := 0, state := PLUGIN_MANAGER_STATE_SYNC_IN,
                           err := PROVMAN_ERR_NONE, imsi := some imsi }).2) := by
    unfold plugin_manager_sync_in
    simp [hidle]
  obtain ⟨h1, h2, h3, h4, h5⟩ := sync_in_completes count sync_in_ret sync_in_result hnocancel
    count
    { manager with synced := 0, state := PLUGIN_MANAGER_STATE_SYNC_IN,
                   err := PROVMAN_ERR_NONE, imsi := some imsi }
    count rfl (Nat.zero_le _) rfl hlen (Nat.le_refl _)
  unfold run_sync_in
  rw [hstart]
  refine ⟨rfl, ?_, h1, h3, ?_, fun i hi => ?_⟩
  · refine h4.trans ?_
    rw [List.range_eq_range']
    rfl
  · unfold prv_complete_callback
    exact h2
  · refine (h5 i).trans ?_
    have hk : kv_cache
        { manager with synced := 0, state := PLUGIN_MANAGER_STATE_SYNC_IN,
                       err := PROVMAN_ERR_NONE, imsi := some imsi } i = none := habsent i
    rw [hk]
    by_cases hc : sync_in_ret i = PROVMAN_ERR_NONE ∧ (sync_in_result i).1 = PROVMAN_ERR_NONE
    · rw [if_pos hc, if_pos ⟨Nat.zero_le _, hi, hc.1, hc.2⟩]
    · rw [if_neg hc, if_neg (fun h => hc ⟨h.2.2.1, h.2.2.2⟩)]

/-- C16 at two plugins without cache: the first accepts the call and completes with one
setting, the second rejects the call; the first plugin has that cache afterwards, the second
has none. -/
theorem sync_in_without_cancellation_witness :
    (idle_manager [none, none]).state = PLUGIN_MANAGER_STATE_IDLE
      ∧ (idle_manager [none, none]).kv_caches.length = 2
      ∧ (run_sync_in 2 accept_first sync_in_result_a_x (idle_manager [none, none])
            "imsi".toList).2.2
          = (List.range 2).map (fun i => plugin_call.sync_in_fn i (some "imsi".toList))
      ∧ kv_cache (run_sync_in 2 accept_first sync_in_result_a_x (idle_manager [none, none])
            "imsi".toList).2.1 0 = some snapshot_a_x
      ∧ kv_cache (run_sync_in 2 accept_first sync_in_result_a_x (idle_manager [none, none])
            "imsi".toList).2.1 1 = none :=
  ⟨rfl, rfl,
   (sync_in_without_cancellation 2 accept_first sync_in_result_a_x (idle_manager [none, none])
      "imsi".toList rfl rfl
      (fun i => match i with
        | 0 => rfl
        | 1 => rfl
        | _ + 2 => rfl)
      (fun _ _ _ h => provman_errors.noConfusion h)).2.1,
   by decide, by decide⟩

/-! ## C17: sync-out -/

theorem prv_sync_out_loop_done (count : Nat) (sync_out_ret : Nat → provman_errors)
    (kv_caches : List (Option GHashTable)) (fuel synced : Nat) (h : count ≤ synced) :
    prv_sync_out_loop count sync_out_ret kv_caches fuel synced = (synced, []) := by
  cases fuel with
  | zero => rfl
  | succ fuel =>
    unfold prv_sync_out_loop
    simp [Nat.not_lt.mpr h]

theorem prv_sync_out_next_plugin_done (count : Nat) (sync_out_ret : Nat → provman_errors)
    (manager : plugin_manager_t) (h : manager.synced = count) :
    prv_sync_out_next_plugin count sync_out_ret manager
      = (prv_schedule_completion (prv_clear_cache count manager) PROVMAN_ERR_NONE, []) := by
  unfold prv_sync_out_next_plugin
  rw [prv_sync_out_loop_done count sync_out_ret manager.kv_caches _ _ (by omega)]
  simp only [h, if_true]
  have hm : ({ manager with synced := count } : plugin_manager_t) = manager := by
    cases manager
    simp only at h
    subst h
    rfl
  rw [hm]

theorem prv_sync_out_next_plugin_skipped (count : Nat) (sync_out_ret : Nat → provman_errors)
    (manager : plugin_manager_t) (hlt : manager.synced < count)
    (hcache : manager.kv_caches.getD manager.synced none = none) :
    prv_sync_out_next_plugin count sync_out_ret manager
      = prv_sync_out_next_plugin count sync_out_ret
          { manager with synced := manager.synced + 1 } := by
  have hfuel : count - manager.synced = (count - (manager.synced + 1)) + 1 := by omega
  have hstep : prv_sync_out_loop count sync_out_ret manager.kv_caches (count - manager.synced)
        manager.synced
      = prv_sync_out_loop count sync_out_ret manager.kv_caches (count - (manager.synced + 1))
          (manager.synced + 1) := by
    rw [hfuel]
    conv => lhs; unfold prv_sync_out_loop
    simp only [hlt, if_true, hcache]
  unfold prv_sync_out_next_plugin
  simp only [hstep]

theorem prv_sync_out_next_plugin_accepted (count : Nat) (sync_out_ret : Nat → provman_errors)
    (manager : plugin_manager_t) (cache : GHashTable) (hlt : manager.synced < count)
    (hcache : manager.kv_caches.getD manager.synced none = some cache)
    (hret : sync_out_ret manager.synced = PROVMAN_ERR_NONE) :
    prv_sync_out_next_plugin count sync_out_ret manager
      = (manager, [plugin_call.sync_out_fn manager.synced cache]) := by
  unfold prv_sync_out_next_plugin
  have hfuel : count - manager.synced = (count - (manager.synced + 1)) + 1 := by omega
  rw [hfuel]
  unfold prv_sync_out_loop
  have hne : ¬ manager.synced = count := by omega
  simp only [hlt, if_true, hcache, hret, hne, if_false]

theorem prv_sync_out_next_plugin_rejected (count : Nat) (sync_out_ret : Nat → provman_errors)
    (manager : plugin_manager_t) (cache : GHashTable) (hlt : manager.synced < count)
    (hcache : manager.kv_caches.getD manager.synced none = some cache)
    (hret : sync_out_ret manager.synced ≠ PROVMAN_ERR_NONE) :
    prv_sync_out_next_plugin count sync_out_ret manager
      = ((prv_sync_out_next_plugin count sync_out_ret
            { manager with synced := manager.synced + 1 }).1,
         plugin_call.sync_out_fn manager.synced cache ::
           (prv_sync_out_next_plugin count sync_out_ret
            { manager with synced := manager.synced + 1 }).2) := by
  have hfuel : count - manager.synced = (count - (manager.synced + 1)) + 1 := by omega
  have hstep : prv_sync_out_loop count sync_out_ret manager.kv_caches (count - manager.synced)
        manager.synced
      = ((prv_sync_out_loop count sync_out_ret manager.kv_caches
            (count - (manager.synced + 1)) (manager.synced + 1)).1,
         plugin_call.sync_out_fn manager.synced cache ::
           (prv_sync_out_loop count sync_out_ret manager.kv_caches
            (count - (manager.synced + 1)) (manager.synced + 1)).2) := by
    rw [hfuel]
    conv => lhs; unfold prv_sync_out_loop
    simp only [hlt, if_true, hcache, hret, if_false]
  unfold prv_sync_out_next_plugin
  simp only [hstep]
  split <;> rfl

theorem sync_out_callbacks_not_sync_out (count : Nat) (sync_out_ret : Nat → provman_errors)
    (sync_out_result : Nat → provman_errors) (fuel : Nat)
    (manager : plugin_manager_t) (h : manager.state ≠ PLUGIN_MANAGER_STATE_SYNC_OUT) :
    sync_out_callbacks count sync_out_ret sync_out_result fuel manager = (manager, []) := by
  cases fuel with
  | zero => rfl
  | succ fuel =>
    unfold sync_out_callbacks
    simp [h]

theorem sync_out_completes (count : Nat) (sync_out_ret sync_out_result : Nat → provman_errors) :
    ∀ (d : Nat) (manager : plugin_manager_t) (fuel : Nat),
      count - manager.synced = d → manager.synced ≤ count →
      manager.state = PLUGIN_MANAGER_STATE_SYNC_OUT → d ≤ fuel →
      (sync_out_callbacks count sync_out_ret sync_out_result fuel
          (prv_sync_out_next_plugin count sync_out_ret manager).1).1.state
          = PLUGIN_MANAGER_STATE_IDLE
        ∧ (sync_out_callbacks count sync_out_ret sync_out_result fuel
            (prv_sync_out_next_plugin count sync_out_ret manager).1).1.completion_source = true
        ∧ (∀ i, i < count →
            kv_cache (sync_out_callbacks count sync_out_ret sync_out_result fuel
              (prv_sync_out_next_plugin count sync_out_ret manager).1).1 i = none)
        ∧ (prv_sync_out_next_plugin count sync_out_ret manager).2
            ++ (sync_out_callbacks count sync_out_ret sync_out_result fuel
                (prv_sync_out_next_plugin count sync_out_ret manager).1).2
            = (spec_sync_out_calls sync_out_ret sync_out_result manager.kv_caches
                (List.range' manager.synced (count - manager.synced))).1
        ∧ (sync_out_callbacks count sync_out_ret sync_out_result fuel
            (prv_sync_out_next_plugin count sync_out_ret manager).1).1.err
            = if (spec_sync_out_calls sync_out_ret sync_out_result manager.kv_caches
                  (List.range' manager.synced (count - manager.synced))).2 = true
              then PROVMAN_ERR_CANCELLED else PROVMAN_ERR_NONE := by
  intro d
  induction d with
  | zero =>
    intro manager fuel hd hle hstate _
    have hs : manager.synced = count := by omega
    rw [prv_sync_out_next_plugin_done count sync_out_ret manager hs,
      sync_out_callbacks_not_sync_out count sync_out_ret sync_out_result fuel _
        (by simp [prv_schedule_completion])]
    refine ⟨rfl, rfl, fun i hi => kv_cache_prv_clear_cache count manager i hi, ?_, ?_⟩
    · simp [hd, spec_sync_out_calls]
    · simp [hd, spec_sync_out_calls, prv_schedule_completion]
  | succ d ih =>
    intro manager fuel hd hle hstate hfuel
    have hlt : manager.synced < count := by omega
    have hrange : List.range' manager.synced (count - manager.synced)
        = manager.synced :: List.range' (manager.synced + 1) (count - (manager.synced + 1)) := by
      have : count - manager.synced = (count - (manager.synced + 1)) + 1 := by omega
      rw [this, List.range'_succ]
    have ih' := ih { manager with synced := manager.synced + 1 }
    simp only at ih'
    rw [hrange]
    cases hcache : manager.kv_caches.getD manager.synced none with
    | none =>
      rw [prv_sync_out_next_plugin_skipped count sync_out_ret manager hlt hcache]
      have hspec : spec_sync_out_calls sync_out_ret sync_out_result manager.kv_caches
          (manager.synced :: List.range' (manager.synced + 1) (count - (manager.synced + 1)))
          = spec_sync_out_calls sync_out_ret sync_out_result manager.kv_caches
              (List.range' (manager.synced + 1) (count - (manager.synced + 1))) := by
        conv => lhs; unfold spec_sync_out_calls
        simp only [hcache]
      rw [hspec]
      exact ih' fuel (by omega) (by omega) hstate (by omega)
    | some cache =>
      by_cases hret : sync_out_ret manager.synced = PROVMAN_ERR_NONE
      · rw [prv_sync_out_next_plugin_accepted count sync_out_ret manager cache hlt hcache hret]
        obtain ⟨f, rfl⟩ : ∃ f, fuel = f + 1 := ⟨fuel - 1, by omega⟩
        by_cases hres : sync_out_result manager.synced = PROVMAN_ERR_CANCELLED
        · have hspec : spec_sync_out_calls sync_out_ret sync_out_result manager.kv_caches
              (manager.synced :: List.range' (manager.synced + 1) (count - (manager.synced + 1)))
              = ([plugin_call.sync_out_fn manager.synced cache], true) := by
            conv => lhs; unfold spec_sync_out_calls
            simp only [hcache, hret, hres, and_self, if_true]
          have hcb : sync_out_callbacks count sync_out_ret sync_out_result (f + 1) manager
              = (prv_schedule_completion (prv_clear_cache count manager)
                  PROVMAN_ERR_CANCELLED, []) := by
            conv => lhs; unfold sync_out_callbacks
            simp only [hstate, if_true, prv_plugin_sync_out_cb, hres]
            rw [sync_out_callbacks_not_sync_out count sync_out_ret sync_out_result f _
              (by simp [prv_schedule_completion])]
            rfl
          rw [hspec, hcb]
          exact ⟨rfl, rfl, fun i hi => kv_cache_prv_clear_cache count manager i hi, rfl, rfl⟩
        · have hspec : spec_sync_out_calls sync_out_ret sync_out_result manager.kv_caches
              (manager.synced :: List.range' (manager.synced + 1) (count - (manager.synced + 1)))
              = (plugin_call.sync_out_fn manager.synced cache ::
                  (spec_sync_out_calls sync_out_ret sync_out_result manager.kv_caches
                    (List.range' (manager.synced + 1) (count - (manager.synced + 1)))).1,
                 (spec_sync_out_calls sync_out_ret sync_out_result manager.kv_caches
                    (List.range' (manager.synced + 1) (count - (manager.synced + 1)))).2) := by
            conv => lhs; unfold spec_sync_out_calls
            simp only [hcache, hret, hres, and_false, if_false]
          have hcb : sync_out_callbacks count sync_out_ret sync_out_result (f + 1) manager
              = ((sync_out_callbacks count sync_out_ret sync_out_result f
                  (prv_sync_out_next_plugin count sync_out_ret
                    { manager with synced := manager.synced + 1 }).1).1,
                 (prv_sync_out_next_plugin count sync_out_ret
                    { manager with synced := manager.synced + 1 }).2
                  ++ (sync_out_callbacks count sync_out_ret sync_out_result f
                  (prv_sync_out_next_plugin count sync_out_ret
                    { manager with synced := manager.synced + 1 }).1).2) := by
            conv => lhs; unfold sync_out_callbacks
            simp only [hstate, if_true, prv_plugin_sync_out_cb, hres, if_false]
          rw [hspec, hcb]
          obtain ⟨h1, h2, h3, h4, h5⟩ := ih' f (by omega) (by omega) hstate (by omega)
          refine ⟨h1, h2, h3, ?_, h5⟩
          simp only [List.singleton_append]
          rw [h4]
      · rw [prv_sync_out_next_plugin_rejected count sync_out_ret manager cache hlt hcache hret]
        have hspec : spec_sync_out_calls sync_out_ret sync_out_result manager.kv_caches
            (manager.synced :: List.range' (manager.synced + 1) (count - (manager.synced + 1)))
            = (plugin_call.sync_out_fn manager.synced cache ::
                (spec_sync_out_calls sync_out_ret sync_out_result manager.kv_caches
                  (List.range' (manager.synced + 1) (count - (manager.synced + 1)))).1,
               (spec_sync_out_calls sync_out_ret sync_out_result manager.kv_caches
                  (List.range' (manager.synced + 1) (count - (manager.synced + 1)))).2) := by
          conv => lhs; unfold spec_sync_out_calls
          simp only [hcache, hret, false_and, if_false]
        rw [hspec]
        obtain ⟨h1, h2, h3, h4, h5⟩ := ih' fuel (by omega) (by omega) hstate (by omega)
        refine ⟨h1, h2, h3, ?_, h5⟩
        simp only [List.cons_append]
        rw [h4]

theorem spec_sync_out_calls_no_cancel (sync_out_ret sync_out_result : Nat → provman_errors)
    (kv_caches : List (Option GHashTable)) (l : List Nat)
    (h : ∀ i ∈ l, sync_out_ret i = PROVMAN_ERR_NONE →
      sync_out_result i ≠ PROVMAN_ERR_CANCELLED) :
    spec_sync_out_calls sync_out_ret sync_out_result kv_caches l
      = (l.filterMap (fun i => (kv_caches.getD i none).map (plugin_call.sync_out_fn i)),
         false) := by
  induction l with
  | nil => rfl
  | cons i rest ih =>
    have ih' := ih (fun k hk => h k (List.mem_cons_of_mem _ hk))
    unfold spec_sync_out_calls
    cases hc : kv_caches.getD i none with
    | none => simp only [ih', List.filterMap_cons, hc, Option.map_none']
    | some cache =>
      have hn : ¬ (sync_out_ret i = PROVMAN_ERR_NONE
          ∧ sync_out_result i = PROVMAN_ERR_CANCELLED) :=
        fun hh => h i (List.mem_cons_self _ _) hh.1 hh.2
      simp only [hn, if_false, ih', List.filterMap_cons, hc, Option.map_some']

theorem spec_sync_out_calls_mem (sync_out_ret sync_out_result : Nat → provman_errors)
    (kv_caches : List (Option GHashTable)) (l : List Nat) (c : plugin_call)
    (h : c ∈ (spec_sync_out_calls sync_out_ret sync_out_result kv_caches l).1) :
    ∃ i ∈ l, ∃ cache, kv_caches.getD i none = some cache
      ∧ c = plugin_call.sync_out_fn i cache := by
  induction l with
  | nil => simp [spec_sync_out_calls] at h
  | cons i rest ih =>
    unfold spec_sync_out_calls at h
    cases hc : kv_caches.getD i none with
    | none =>
      simp only [hc] at h
      obtain ⟨k, hk, cache, h1, h2⟩ := ih h
      exact ⟨k, List.mem_cons_of_mem _ hk, cache, h1, h2⟩
    | some cache =>
      simp only [hc] at h
      split at h
      · simp only [List.mem_singleton] at h
        exact ⟨i, List.mem_cons_self _ _, cache, hc, h⟩
      · rcases List.mem_cons.mp h with h | h
        · exact ⟨i, List.mem_cons_self _ _, cache, hc, h⟩
        · obtain ⟨k, hk, cache2, h1, h2⟩ := ih h
          exact ⟨k, List.mem_cons_of_mem _ hk, cache2, h1, h2⟩

/-- C17: for every Idle plugin manager and every behaviour of the plugins, a sync-out (the call
of `plugin_manager_sync_out` followed by the callbacks of the plugins) returns success and calls
`sync_out_fn`, in registry order and with the plugin's cache, on the plugins whose cache is
present (an empty table is a present cache), skipping the plugins without cache and stopping
after the first accepted call that completes with Cancelled; a synchronous rejection or another
completion moves on to the next plugin.  At the end every plugin's cache is absent, the state
is Idle and the scheduled completion delivers Cancelled if a call completed with Cancelled and
success otherwise.  When no accepted call completes with Cancelled, the calls are exactly those
on the plugins with a present cache. -/
theorem sync_out_calls_and_clears (count : Nat)
    (sync_out_ret sync_out_result : Nat → provman_errors) (manager : plugin_manager_t)
    (hidle : manager.state = PLUGIN_MANAGER_STATE_IDLE) :
    (run_sync_out count sync_out_ret sync_out_result manager).1 = PROVMAN_ERR_NONE
      ∧ (run_sync_out count sync_out_ret sync_out_result manager).2.2
          = (spec_sync_out_calls sync_out_ret sync_out_result manager.kv_caches
              (List.range count)).1
      ∧ (∀ c ∈ (run_sync_out count sync_out_ret sync_out_result manager).2.2,
          ∃ i, i < count ∧ ∃ cache, kv_cache manager i = some cache
            ∧ c = plugin_call.sync_out_fn i cache)
      ∧ ((∀ i, i < count → sync_out_ret i = PROVMAN_ERR_NONE →
            sync_out_result i ≠ PROVMAN_ERR_CANCELLED) →
          (run_sync_out count sync_out_ret sync_out_result manager).2.2
            = (List.range count).filterMap
                (fun i => (kv_cache manager i).map (plugin_call.sync_out_fn i)))
      ∧ (run_sync_out count sync_out_ret sync_out_result manager).2.1.state
          = PLUGIN_MANAGER_STATE_IDLE
      ∧ (∀ i, i < count →
          kv_cache (run_sync_out count sync_out_ret sync_out_result manager).2.1 i = none)
      ∧ (run_sync_out count sync_out_ret sync_out_result manager).2.1.completion_source = true
      ∧ (prv_complete_callback
          (run_sync_out count sync_out_ret sync_out_result manager).2.1).2
          = if (spec_sync_out_calls sync_out_ret sync_out_result manager.kv_caches
                (List.range count)).2 = true
            then PROVMAN_ERR_CANCELLED else PROVMAN_ERR_NONE := by
  have hstart : plugin_manager_sync_out count sync_out_ret manager
      = (PROVMAN_ERR_NONE,
         (prv_sync_out_next_plugin count sync_out_ret
            { manager with synced := 0, state := PLUGIN_MANAGER_STATE_SYNC_OUT,
                           err := PROVMAN_ERR_NONE }).1,
         (prv_sync_out_next_plugin count sync_out_ret
            { manager with synced := 0, state := PLUGIN_MANAGER_STATE_SYNC_OUT,
                           err := PROVMAN_ERR_NONE }).2) := by
    unfold plugin_manager_sync_out
    simp [hidle]
  obtain ⟨h1, h2, h3, h4, h5⟩ := sync_out_completes count sync_out_ret sync_out_result
    count
    { manager with synced := 0, state := PLUGIN_MANAGER_STATE_SYNC_OUT,
                   err := PROVMAN_ERR_NONE }
    count rfl (Nat.zero_le _) rfl (Nat.le_refl _)
  have hcalls : (run_sync_out count sync_out_ret sync_out_result manager).2.2
      = (spec_sync_out_calls sync_out_ret sync_out_result manager.kv_caches
          (List.range count)).1 := by
    unfold run_sync_out
    rw [hstart]
    refine h4.trans ?_
    rw [List.range_eq_range']
    rfl
  refine ⟨?_, hcalls, ?_, ?_, ?_, ?_, ?_, ?_⟩
  · unfold run_sync_out
    rw [hstart]
  · intro c hc
    rw [hcalls] at hc
    obtain ⟨i, hi, cache, hk, hceq⟩ := spec_sync_out_calls_mem _ _ _ _ c hc
    exact ⟨i, List.mem_range.mp hi, cache, hk, hceq⟩
  · intro hno
    rw [hcalls, spec_sync_out_calls_no_cancel _ _ _ _
      (fun i hi => hno i (List.mem_range.mp hi))]
    rfl
  · unfold run_sync_out
    rw [hstart]
    exact h1
  · unfold run_sync_out
    rw [hstart]
    exact h3
  · unfold run_sync_out
    rw [hstart]
    exact h2
  · unfold run_sync_out prv_complete_callback
    rw [hstart]
    refine h5.trans ?_
    rw [List.range_eq_range']
    rfl

/-- C17 at three plugins: the first has an empty cache and completes with an error, the second
has no cache, the third has one setting; `sync_out_fn` is called on the first and the third. -/
theorem sync_out_calls_and_clears_witness :
    (idle_manager [some [], none, some cache_b_y]).state = PLUGIN_MANAGER_STATE_IDLE
      ∧ (run_sync_out 3 accept_all sync_out_result_first_fails
            (idle_manager [some [], none, some cache_b_y])).2.2
          = (List.range 3).filterMap
              (fun i => (kv_cache (idle_manager [some [], none, some cache_b_y]) i).map
                (plugin_call.sync_out_fn i))
      ∧ (List.range 3).filterMap
            (fun i => (kv_cache (idle_manager [some [], none, some cache_b_y]) i).map
              (plugin_call.sync_out_fn i))
          = [plugin_call.sync_out_fn 0 [], plugin_call.sync_out_fn 2 cache_b_y] :=
  ⟨rfl,
   (sync_out_calls_and_clears 3 accept_all sync_out_result_first_fails
      (idle_manager [some [], none, some cache_b_y]) rfl).2.2.2.1
      (fun i _ _ => by
        unfold sync_out_result_first_fails
        split <;> exact fun h => provman_errors.noConfusion h),
   by decide⟩

/-! ## C18: SetAll -/

theorem prv_set_common_ok (plugins : List provman_plugin) (manager : plugin_manager_t)
    (key value : CString) (h : (prv_set_common plugins manager key value).1 = PROVMAN_ERR_NONE) :
    ∃ index cache plugin,
      provman_plugin_find_index plugins key = some index
        ∧ kv_cache manager index = some cache
        ∧ provman_plugin_get plugins index = some plugin
        ∧ plugin.validate_set_fn key value = PROVMAN_ERR_NONE
        ∧ (prv_set_common plugins manager key value).2.1
            = { manager with
                  kv_caches :=
                    manager.kv_caches.set index (some (g_hash_table_insert cache key value)) } := by
  unfold prv_set_common at h ⊢
  cases hfi : provman_plugin_find_index plugins key with
  | none => simp [hfi] at h
  | some index =>
    simp only [hfi] at h ⊢
    cases hc : kv_cache manager index with
    | none => simp [hc] at h
    | some cache =>
      simp only [hc] at h ⊢
      cases hp : provman_plugin_get plugins index with
      | none => simp [hp] at h
      | some plugin =>
        simp only [hp] at h ⊢
        by_cases hv : plugin.validate_set_fn key value = PROVMAN_ERR_NONE
        · exact ⟨index, cache, plugin, rfl, hc, hp, hv, by simp [hv]⟩
        · simp [hv] at h

theorem prv_set_common_err (plugins : List provman_plugin) (manager : plugin_manager_t)
    (key value : CString) :
    (prv_set_common plugins manager key value).1 =
      match provman_plugin_find_index plugins key with
      | none => PROVMAN_ERR_NOT_FOUND
      | some index =>
        match (kv_cache manager index).isSome, provman_plugin_get plugins index with
        | false, _ => PROVMAN_ERR_CORRUPT
        | true, none => PROVMAN_ERR_UNKNOWN
        | true, some plugin => plugin.validate_set_fn key value := by
  unfold prv_set_common
  cases hfi : provman_plugin_find_index plugins key with
  | none => rfl
  | some index =>
    simp only []
    cases hc : kv_cache manager index with
    | none => rfl
    | some cache =>
      cases hp : provman_plugin_get plugins index with
      | none => rfl
      | some plugin =>
        simp only [Option.isSome_some]
        by_cases hv : plugin.validate_set_fn key value = PROVMAN_ERR_NONE
        · simp [hv]
        · simp [hv]

theorem prv_set_common_failed (plugins : List provman_plugin) (manager : plugin_manager_t)
    (key value : CString) (h : (prv_set_common plugins manager key value).1 ≠ PROVMAN_ERR_NONE) :
    (prv_set_common plugins manager key value).2.1 = manager := by
  unfold prv_set_common at h ⊢
  cases hfi : provman_plugin_find_index plugins key with
  | none => rfl
  | some index =>
    simp only [hfi] at h ⊢
    cases hc : kv_cache manager index with
    | none => rfl
    | some cache =>
      simp only [hc] at h ⊢
      cases hp : provman_plugin_get plugins index with
      | none => rfl
      | some plugin =>
        simp only [hp] at h ⊢
        by_cases hv : plugin.validate_set_fn key value = PROVMAN_ERR_NONE
        · simp [hv] at h
        · simp [hv]

theorem kv_cache_isSome_set (manager : plugin_manager_t) (j i : Nat) (old new : GHashTable)
    (hold : kv_cache manager j = some old) :
    (kv_cache { manager with kv_caches := manager.kv_caches.set j (some new) } i).isSome
      = (kv_cache manager i).isSome := by
  have hj : j < manager.kv_caches.length := by
    unfold kv_cache at hold
    by_contra hge
    rw [List.getD_eq_default _ _ (by omega)] at hold
    exact Option.noConfusion hold
  rw [kv_cache_set manager j i (some new) hj]
  by_cases h : i = j
  · subst h
    simp [hold]
  · simp [h]

theorem prv_set_common_presence (plugins : List provman_plugin) (manager : plugin_manager_t)
    (key value : CString) :
    (prv_set_common plugins manager key value).2.1.state = manager.state
      ∧ ∀ i, (kv_cache (prv_set_common plugins manager key value).2.1 i).isSome
          = (kv_cache manager i).isSome := by
  by_cases h : (prv_set_common plugins manager key value).1 = PROVMAN_ERR_NONE
  · obtain ⟨index, cache, plugin, _, hc, _, _, hm⟩ := prv_set_common_ok plugins manager key value h
    rw [hm]
    exact ⟨rfl, fun i => kv_cache_isSome_set manager index i cache _ hc⟩
  · rw [prv_set_common_failed plugins manager key value h]
    exact ⟨rfl, fun _ => rfl⟩

theorem prv_set_common_err_congr (plugins : List provman_plugin) (m1 m2 : plugin_manager_t)
    (key value : CString) (h : ∀ i, (kv_cache m1 i).isSome = (kv_cache m2 i).isSome) :
    (prv_set_common plugins m1 key value).1 = (prv_set_common plugins m2 key value).1 := by
  rw [prv_set_common_err, prv_set_common_err]
  cases provman_plugin_find_index plugins key with
  | none => rfl
  | some index => simp only [h index]

theorem prv_set_common_get_self (plugins : List provman_plugin) (manager : plugin_manager_t)
    (key value : CString) (hidle : manager.state = PLUGIN_MANAGER_STATE_IDLE)
    (h : (prv_set_common plugins manager key value).1 = PROVMAN_ERR_NONE) :
    plugin_manager_get plugins (prv_set_common plugins manager key value).2.1 key
      = (PROVMAN_ERR_NONE, some value) := by
  obtain ⟨index, cache, plugin, hfi, hc, _, _, hm⟩ := prv_set_common_ok plugins manager key value h
  rw [hm]
  have hj : index < manager.kv_caches.length := by
    unfold kv_cache at hc
    by_contra hge
    rw [List.getD_eq_default _ _ (by omega)] at hc
    exact Option.noConfusion hc
  unfold plugin_manager_get
  rw [if_neg (fun hn => hn hidle)]
  simp only [hfi]
  rw [kv_cache_set manager index index _ hj]
  simp [g_hash_table_lookup_insert_self]

theorem prv_set_common_get_other (plugins : List provman_plugin) (manager : plugin_manager_t)
    (key value other : CString) (hne : key ≠ other) :
    plugin_manager_get plugins (prv_set_common plugins manager key value).2.1 other
      = plugin_manager_get plugins manager other := by
  by_cases h : (prv_set_common plugins manager key value).1 = PROVMAN_ERR_NONE
  · obtain ⟨index, cache, plugin, _, hc, _, _, hm⟩ := prv_set_common_ok plugins manager key value h
    rw [hm]
    have hj : index < manager.kv_caches.length := by
      unfold kv_cache at hc
      by_contra hge
      rw [List.getD_eq_default _ _ (by omega)] at hc
      exact Option.noConfusion hc
    unfold plugin_manager_get
    by_cases hst : manager.state = PLUGIN_MANAGER_STATE_IDLE
    · rw [if_neg (fun hn => hn hst), if_neg (fun hn => hn hst)]
      cases hfo : provman_plugin_find_index plugins other with
      | none => rfl
      | some io =>
        simp only []
        rw [kv_cache_set manager index io _ hj]
        by_cases hio : io = index
        · subst hio
          simp only [if_true, hc]
          rw [g_hash_table_lookup_insert, if_neg hne]
        · simp only [hio, if_false]
    · rw [if_pos hst, if_pos hst]
  · rw [prv_set_common_failed plugins manager key value h]

theorem plugin_manager_set_idle (plugins : List provman_plugin) (manager : plugin_manager_t)
    (key value : CString) (hidle : manager.state = PLUGIN_MANAGER_STATE_IDLE) :
    plugin_manager_set plugins manager key value = prv_set_common plugins manager key value := by
  unfold plugin_manager_set
  rw [if_neg (fun hn => hn hidle)]

theorem prv_set_all_loop_spec (plugins : List provman_plugin) (initial : plugin_manager_t)
    (hinit : initial.state = PLUGIN_MANAGER_STATE_IDLE) :
    ∀ (entries : List (CString × CString)) (manager : plugin_manager_t),
      manager.state = PLUGIN_MANAGER_STATE_IDLE →
      (∀ i, (kv_cache manager i).isSome = (kv_cache initial i).isSome) →
      (prv_set_all_loop plugins manager entries).2.1
          = ((entries.map (fun e => (g_strstrip e.1, e.2))).filter
              (fun e => decide
                ((plugin_manager_set plugins initial e.1 e.2).1 ≠ PROVMAN_ERR_NONE))).map
              Prod.fst
        ∧ (prv_set_all_loop plugins manager entries).1
            = entries.foldl
                (fun m e => (plugin_manager_set plugins m (g_strstrip e.1) e.2).2.1) manager
        ∧ (prv_set_all_loop plugins manager entries).1.state = PLUGIN_MANAGER_STATE_IDLE
        ∧ ∀ i, (kv_cache (prv_set_all_loop plugins manager entries).1 i).isSome
            = (kv_cache initial i).isSome := by
  intro entries
  induction entries with
  | nil =>
    intro manager hidle hpres
    exact ⟨rfl, rfl, hidle, hpres⟩
  | cons e rest ih =>
    intro manager hidle hpres
    obtain ⟨key, value⟩ := e
    obtain ⟨hst, hp⟩ := prv_set_common_presence plugins manager (g_strstrip key) value
    obtain ⟨h1, h2, h3, h4⟩ := ih (prv_set_common plugins manager (g_strstrip key) value).2.1
      (hst.trans hidle) (fun i => (hp i).trans (hpres i))
    have herr : (prv_set_common plugins manager (g_strstrip key) value).1
        = (plugin_manager_set plugins initial (g_strstrip key) value).1 := by
      rw [plugin_manager_set_idle plugins initial _ _ hinit]
      exact prv_set_common_err_congr plugins manager initial _ _ hpres
    unfold prv_set_all_loop
    simp only [List.map_cons, List.foldl_cons, List.filter_cons]
    rw [plugin_manager_set_idle plugins manager _ _ hidle]
    refine ⟨?_, h2, h3, h4⟩
    rw [h1, herr]
    by_cases hf : (plugin_manager_set plugins initial (g_strstrip key) value).1
        = PROVMAN_ERR_NONE
    · simp [hf]
    · simp [hf]

/-- C18: for every Idle plugin manager and every list of (key, value) entries,
`plugin_manager_set_all` returns success together with exactly the whitespace-stripped keys, in
input order, of the entries whose single set fails (whether a set fails does not depend on the
sets made before it), processes every entry whatever fails, and leaves the manager that
applying `plugin_manager_set` to the stripped entries one after the other in input order
leaves.  An entry whose set succeeds is returned by a subsequent get of its stripped key, unless
a later entry with the same stripped key succeeds too. -/
theorem set_all_is_sequence_of_sets (plugins : List provman_plugin)
    (manager : plugin_manager_t) (entries : List (CString × CString))
    (hidle : manager.state = PLUGIN_MANAGER_STATE_IDLE) :
    (plugin_manager_set_all plugins manager entries).1 = PROVMAN_ERR_NONE
      ∧ (plugin_manager_set_all plugins manager entries).2.2.1
          = ((entries.map (fun e => (g_strstrip e.1, e.2))).filter
              (fun e => decide
                ((plugin_manager_set plugins manager e.1 e.2).1 ≠ PROVMAN_ERR_NONE))).map
              Prod.fst
      ∧ (plugin_manager_set_all plugins manager entries).2.1
          = entries.foldl
              (fun m e => (plugin_manager_set plugins m (g_strstrip e.1) e.2).2.1) manager
      ∧ ∀ before key value after, entries = before ++ (key, value) :: after →
          (plugin_manager_set plugins manager (g_strstrip key) value).1 = PROVMAN_ERR_NONE →
          (∀ e ∈ after, g_strstrip e.1 = g_strstrip key →
            (plugin_manager_set plugins manager (g_strstrip e.1) e.2).1 ≠ PROVMAN_ERR_NONE) →
          plugin_manager_get plugins (plugin_manager_set_all plugins manager entries).2.1
            (g_strstrip key) = (PROVMAN_ERR_NONE, some value) := by
  have hall : plugin_manager_set_all plugins manager entries
      = (PROVMAN_ERR_NONE, (prv_set_all_loop plugins manager entries).1,
          (prv_set_all_loop plugins manager entries).2.1,
          (prv_set_all_loop plugins manager entries).2.2) := by
    unfold plugin_manager_set_all
    rw [if_neg (fun hn => hn hidle)]
  obtain ⟨h1, h2, _, _⟩ := prv_set_all_loop_spec plugins manager hidle entries manager hidle
    (fun _ => rfl)
  rw [hall]
  refine ⟨rfl, h1, h2, ?_⟩
  intro before key value after hsplit hok hlater
  subst hsplit
  obtain ⟨_, hb2, hb3, hb4⟩ := prv_set_all_loop_spec plugins manager hidle before manager hidle
    (fun _ => rfl)
  have hloop : ∀ (m : plugin_manager_t) (l1 l2 : List (CString × CString)),
      (prv_set_all_loop plugins m (l1 ++ l2)).1
        = (prv_set_all_loop plugins (prv_set_all_loop plugins m l1).1 l2).1 := by
    intro m l1
    induction l1 generalizing m with
    | nil => intro l2; rfl
    | cons e rest ih =>
      intro l2
      obtain ⟨k, v⟩ := e
      simp only [List.cons_append]
      conv => lhs; unfold prv_set_all_loop
      conv => rhs; arg 1; arg 2; unfold prv_set_all_loop
      exact ih _ l2
  have hafter : ∀ (l : List (CString × CString)) (m : plugin_manager_t),
      m.state = PLUGIN_MANAGER_STATE_IDLE →
      (∀ i, (kv_cache m i).isSome = (kv_cache manager i).isSome) →
      (∀ e ∈ l, g_strstrip e.1 = g_strstrip key →
        (plugin_manager_set plugins manager (g_strstrip e.1) e.2).1 ≠ PROVMAN_ERR_NONE) →
      plugin_manager_get plugins (prv_set_all_loop plugins m l).1 (g_strstrip key)
        = plugin_manager_get plugins m (g_strstrip key) := by
    intro l
    induction l with
    | nil => intro m _ _ _; rfl
    | cons e rest ih =>
      intro m hm hpres hl
      obtain ⟨k, v⟩ := e
      obtain ⟨hst, hp⟩ := prv_set_common_presence plugins m (g_strstrip k) v
      have hstep : (prv_set_all_loop plugins m ((k, v) :: rest)).1
          = (prv_set_all_loop plugins (prv_set_common plugins m (g_strstrip k) v).2.1 rest).1 := by
        conv => lhs; unfold prv_set_all_loop
      rw [hstep, ih _ (hst.trans hm) (fun i => (hp i).trans (hpres i))
        (fun e he => hl e (List.mem_cons_of_mem _ he))]
      by_cases hk : g_strstrip k = g_strstrip key
      · have hfail := hl (k, v) (List.mem_cons_self _ _) hk
        rw [plugin_manager_set_idle plugins manager _ _ hidle] at hfail
        have hfail2 : (prv_set_common plugins m (g_strstrip k) v).1 ≠ PROVMAN_ERR_NONE := by
          rw [prv_set_common_err_congr plugins m manager _ _ hpres]
          exact hfail
        rw [prv_set_common_failed plugins m _ _ hfail2]
      · exact prv_set_common_get_other plugins m _ v _ hk
  simp only []
  rw [hloop manager before ((key, value) :: after)]
  have hstep : (prv_set_all_loop plugins (prv_set_all_loop plugins manager before).1
        ((key, value) :: after)).1
      = (prv_set_all_loop plugins
          (prv_set_common plugins (prv_set_all_loop plugins manager before).1
            (g_strstrip key) value).2.1 after).1 := by
    conv => lhs; unfold prv_set_all_loop
  obtain ⟨hst, hp⟩ := prv_set_common_presence plugins (prv_set_all_loop plugins manager before).1
    (g_strstrip key) value
  rw [hstep, hafter after _ (hst.trans hb3) (fun i => (hp i).trans (hb4 i)) hlater]
  apply prv_set_common_get_self plugins _ _ _ hb3
  rw [prv_set_common_err_congr plugins _ manager _ _ hb4]
  rw [plugin_manager_set_idle plugins manager _ _ hidle] at hok
  exact hok

/-- C18 at the stricter plugin with an empty cache and three entries of which the second is
refused: exactly that key is returned and the first entry, stored under its stripped key, is
returned by a subsequent get. -/
theorem set_all_is_sequence_of_sets_witness :
    (idle_manager [some []]).state = PLUGIN_MANAGER_STATE_IDLE
      ∧ (plugin_manager_set_all strict_plugins (idle_manager [some []]) set_all_entries).2.2.1
          = ["/telephony/imsi".toList]
      ∧ g_strstrip " /telephony/mms/apn ".toList = "/telephony/mms/apn".toList
      ∧ plugin_manager_get strict_plugins
          (plugin_manager_set_all strict_plugins (idle_manager [some []]) set_all_entries).2.1
          (g_strstrip " /telephony/mms/apn ".toList) = (PROVMAN_ERR_NONE, some "internet".toList) :=
  ⟨rfl, by decide, by decide,
   (set_all_is_sequence_of_sets strict_plugins (idle_manager [some []]) set_all_entries
      rfl).2.2.2 [] " /telephony/mms/apn ".toList "internet".toList
      [("/telephony/imsi".toList, "1".toList), ("/telephony/contexts/a/x".toList, "1".toList)]
      rfl (by decide) (by decide)⟩

/-! ## C19: GetAll -/

theorem charAt_length_append (a t : CString) :
    charAt (a ++ t) a.length = '/' ↔ ['/'] <+: t := by
  unfold charAt
  rw [List.getD_eq_getElem?_getD, List.getElem?_append_right (Nat.le_refl _)]
  simp only [Nat.sub_self]
  cases t with
  | nil => simp
  | cons c cs => simp [eq_comm]

theorem charAt_last_eq_slash_iff (a : CString) (ha : a ≠ []) :
    charAt a (a.length - 1) = '/' ↔ a.getLast? = some '/' := by
  unfold charAt
  rw [List.getD_eq_getElem?_getD, List.getLast?_eq_getElem?]
  have hlt : a.length - 1 < a.length := by
    have := List.length_pos.mpr ha
    omega
  rw [List.getElem?_eq_getElem hlt]
  simp

theorem prv_key_matches_search_iff (search_key key : CString) (hne : search_key ≠ []) :
    prv_key_matches_search search_key key = true ↔
      key = search_key
        ∨ (search_key <+: key
            ∧ (search_key.getLast? = some '/' ∨ (search_key ++ ['/']) <+: key)) := by
  unfold prv_key_matches_search
  simp only []
  by_cases hpre : search_key <+: key
  · have hlen : key.length ≥ search_key.length := hpre.length_le
    have hcmp := (strncmp_is0_length_iff_starts search_key key).mpr hpre
    rw [if_pos hlen, if_pos hcmp]
    obtain ⟨t, rfl⟩ := hpre
    by_cases ht : t = []
    · subst ht
      simp
    · have hl : ¬ (search_key ++ t).length = search_key.length := by
        have := List.length_pos.mpr ht
        simp only [List.length_append]
        omega
      have hk : ¬ search_key ++ t = search_key := by
        intro h
        apply hl
        rw [h]
      rw [if_neg hl]
      have happ : (search_key ++ ['/']) <+: (search_key ++ t) ↔ ['/'] <+: t :=
        List.prefix_append_right_inj search_key
      have hc1 := charAt_last_eq_slash_iff search_key hne
      have hc2 := charAt_length_append search_key t
      by_cases h1 : search_key.getLast? = some '/'
      · rw [if_pos (hc1.mpr h1)]
        simp [h1]
      · rw [if_neg (fun h => h1 (hc1.mp h))]
        by_cases h2 : ['/'] <+: t
        · rw [if_pos (hc2.mpr h2)]
          simp [happ, h2]
        · rw [if_neg (fun h => h2 (hc2.mp h))]
          simp [h1, happ, h2, hk]
  · have hnk : ¬ key = search_key := fun h => hpre (h ▸ List.prefix_refl _)
    have hcmp : ¬ strncmp_is0 search_key key search_key.length = true :=
      fun h => hpre ((strncmp_is0_length_iff_starts search_key key).mp h)
    by_cases hlen : key.length ≥ search_key.length
    · rw [if_pos hlen, if_neg hcmp]
      simp [hnk, hpre]
    · rw [if_neg hlen]
      simp [hnk, hpre]

/-- C19: for every Idle plugin manager and every non-empty search key p,
`plugin_manager_get_all` returns success and exactly the (key, value) entries of the present
caches of the registered plugins whose key equals p, or starts with p where p ends in a slash
or the character of the key right after p is a slash.  So the search key `/applications`
selects `/applications` and `/applications/x` but not `/applicationsFoo/x`. -/
theorem get_all_returns_subtree (count : Nat) (manager : plugin_manager_t) (p : CString)
    (hidle : manager.state = PLUGIN_MANAGER_STATE_IDLE) (hp : p ≠ []) :
    (plugin_manager_get_all count manager p).1 = PROVMAN_ERR_NONE
      ∧ (∀ k v, (k, v) ∈ (plugin_manager_get_all count manager p).2 ↔
          (∃ i, i < count ∧ ∃ ht, kv_cache manager i = some ht ∧ (k, v) ∈ ht)
            ∧ (k = p ∨ (p <+: k ∧ (p.getLast? = some '/' ∨ (p ++ ['/']) <+: k))))
      ∧ prv_key_matches_search "/applications".toList "/applications".toList = true
      ∧ prv_key_matches_search "/applications".toList "/applications/x".toList = true
      ∧ prv_key_matches_search "/applications".toList "/applicationsFoo/x".toList = false := by
  have hall : plugin_manager_get_all count manager p
      = (PROVMAN_ERR_NONE,
         (List.range count).flatMap (fun i =>
           match kv_cache manager i with
           | some ht => ht.filter (fun kv => prv_key_matches_search p kv.1)
           | none => [])) := by
    unfold plugin_manager_get_all
    rw [if_neg (fun hn => hn hidle)]
  rw [hall]
  refine ⟨rfl, fun k v => ?_, by decide, by decide, by decide⟩
  simp only [List.mem_flatMap, List.mem_range]
  constructor
  · rintro ⟨i, hi, hmem⟩
    cases hc : kv_cache manager i with
    | none => simp [hc] at hmem
    | some ht =>
      simp only [hc, List.mem_filter] at hmem
      exact ⟨⟨i, hi, ht, hc, hmem.1⟩, (prv_key_matches_search_iff p k hp).mp hmem.2⟩
  · rintro ⟨⟨i, hi, ht, hc, hmem⟩, hmatch⟩
    refine ⟨i, hi, ?_⟩
    simp only [hc, List.mem_filter]
    exact ⟨hmem, (prv_key_matches_search_iff p k hp).mpr hmatch⟩

/-- C19 at two caches and the search key `/applications`: the call succeeds, and the entry
`/applications/x` of the first cache is returned. -/
theorem get_all_returns_subtree_witness :
    (idle_manager applications_caches).state = PLUGIN_MANAGER_STATE_IDLE
      ∧ "/applications".toList ≠ []
      ∧ (plugin_manager_get_all 2 (idle_manager applications_caches) "/applications".toList).1
          = PROVMAN_ERR_NONE
      ∧ (plugin_manager_get_all 2 (idle_manager applications_caches) "/applications".toList).2
          = [("/applications".toList, "r".toList), ("/applications/x".toList, "1".toList)] :=
  ⟨rfl, by decide,
   (get_all_returns_subtree 2 (idle_manager applications_caches) "/applications".toList rfl
      (by decide)).1,
   by decide⟩

/-! ## C20: Delete of a key owned by one plugin -/

theorem uint_sub_one_pos (n : Nat) (hpos : 0 < n) (hlt : n < 2 ^ 32) : uint_sub n 1 = n - 1 := by
  unfold uint_sub
  rw [Nat.mod_eq_of_lt hlt]
  have h1 : (1 : Nat) % 2 ^ 32 = 1 := by decide
  rw [h1]
  have h2 : n + 2 ^ 32 - 1 = (n - 1) + 2 ^ 32 := by omega
  rw [h2, Nat.add_mod_right, Nat.mod_eq_of_lt (by omega)]

theorem prv_delete_key_matches_iff (key existing_key : CString) :
    prv_delete_key_matches key existing_key = true ↔ (key ++ ['/']) <+: existing_key := by
  unfold prv_delete_key_matches
  rw [Bool.and_eq_true, decide_eq_true_eq, strncmp_is0_iff_take, List.take_length]
  constructor
  · rintro ⟨htake, hchar⟩
    have hpre : key <+: existing_key := by
      rw [← htake]
      exact List.take_prefix _ _
    obtain ⟨t, rfl⟩ := hpre
    exact (List.prefix_append_right_inj key).mpr ((charAt_length_append key t).mp hchar)
  · intro h
    have hpre : key <+: existing_key := (List.prefix_append key ['/']).trans h
    obtain ⟨t, rfl⟩ := hpre
    refine ⟨by simp, (charAt_length_append key t).mpr ?_⟩
    exact (List.prefix_append_right_inj key).mp h

theorem mem_g_hash_table_remove (table : GHashTable) (key : CString) (kv : CString × CString)
    (hnodup : (table.map Prod.fst).Nodup) :
    kv ∈ g_hash_table_remove table key ↔ kv ∈ table ∧ kv.1 ≠ key := by
  induction table with
  | nil => simp [g_hash_table_remove]
  | cons e t ih =>
    obtain ⟨k0, v0⟩ := e
    simp only [List.map_cons, List.nodup_cons, List.mem_map, not_exists, not_and] at hnodup
    by_cases hk : k0 = key
    · subst hk
      simp only [g_hash_table_remove, if_true, List.mem_cons]
      constructor
      · intro hmem
        exact ⟨Or.inr hmem, fun h => hnodup.1 kv hmem h⟩
      · rintro ⟨h1 | h1, h2⟩
        · exact absurd (by rw [h1]) h2
        · exact h1
    · simp only [g_hash_table_remove, hk, if_false, List.mem_cons, ih hnodup.2]
      constructor
      · rintro (h | ⟨h1, h2⟩)
        · exact ⟨Or.inl h, by rw [h]; exact hk⟩
        · exact ⟨Or.inr h1, h2⟩
      · rintro ⟨h1 | h1, h2⟩
        · exact Or.inl h1
        · exact Or.inr ⟨h1, h2⟩

theorem kv_cache_some_lt (manager : plugin_manager_t) (index : Nat) (cache : GHashTable)
    (hc : kv_cache manager index = some cache) : index < manager.kv_caches.length := by
  unfold kv_cache at hc
  by_contra hge
  rw [List.getD_eq_default _ _ (by omega)] at hc
  exact Option.noConfusion hc

theorem kv_caches_set_same (manager : plugin_manager_t) (index : Nat) (cache : GHashTable)
    (hc : kv_cache manager index = some cache) :
    ({ manager with kv_caches := manager.kv_caches.set index (some cache) } : plugin_manager_t)
      = manager := by
  have hj : index < manager.kv_caches.length := kv_cache_some_lt manager index cache hc
  have hget : manager.kv_caches[index] = some cache := by
    unfold kv_cache at hc
    rw [List.getD_eq_getElem?_getD, List.getElem?_eq_getElem hj] at hc
    simpa using hc
  have hl : manager.kv_caches.set index (some cache) = manager.kv_caches := by
    apply List.ext_getElem?
    intro n
    by_cases hn : index = n
    · subst hn
      rw [List.getElem?_set_self hj, List.getElem?_eq_getElem hj, hget]
    · rw [List.getElem?_set_ne hn]
  rw [hl]

theorem prv_delete_key_rejected (plugins : List provman_plugin) (manager : plugin_manager_t)
    (raw_key : CString) (index : Nat) (cache : GHashTable) (plugin : provman_plugin)
    (hc : kv_cache manager index = some cache)
    (hp : provman_plugin_get plugins index = some plugin)
    (hv : (plugin.validate_del_fn (prv_delete_key_strip raw_key)).1 ≠ PROVMAN_ERR_NONE) :
    prv_delete_key plugins manager raw_key index =
      ((plugin.validate_del_fn (prv_delete_key_strip raw_key)).1, manager,
       [plugin_call.validate_del_fn index (prv_delete_key_strip raw_key)]) := by
  unfold prv_delete_key
  simp only [hc, hp]
  rw [if_pos hv]

theorem prv_delete_key_leaf (plugins : List provman_plugin) (manager : plugin_manager_t)
    (raw_key : CString) (index : Nat) (cache : GHashTable) (plugin : provman_plugin)
    (hc : kv_cache manager index = some cache)
    (hp : provman_plugin_get plugins index = some plugin)
    (hv : plugin.validate_del_fn (prv_delete_key_strip raw_key) = (PROVMAN_ERR_NONE, true)) :
    prv_delete_key plugins manager raw_key index =
      match g_hash_table_lookup cache (prv_delete_key_strip raw_key) with
      | none =>
        (PROVMAN_ERR_NOT_FOUND, manager,
         [plugin_call.validate_del_fn index (prv_delete_key_strip raw_key)])
      | some _ =>
        (PROVMAN_ERR_NONE,
         { manager with
             kv_caches := manager.kv_caches.set index
               (some (g_hash_table_remove cache (prv_delete_key_strip raw_key))) },
         [plugin_call.validate_del_fn index (prv_delete_key_strip raw_key)]) := by
  unfold prv_delete_key
  simp only [hc, hp, hv, ne_eq, not_true_eq_false, if_false, if_true]

theorem prv_delete_key_directory (plugins : List provman_plugin) (manager : plugin_manager_t)
    (raw_key : CString) (index : Nat) (cache : GHashTable) (plugin : provman_plugin)
    (hc : kv_cache manager index = some cache)
    (hp : provman_plugin_get plugins index = some plugin)
    (hv : plugin.validate_del_fn (prv_delete_key_strip raw_key) = (PROVMAN_ERR_NONE, false)) :
    prv_delete_key plugins manager raw_key index =
      (if (cache.filter
            (fun kv => prv_delete_key_matches (prv_delete_key_strip raw_key) kv.1)).length = 0
        then PROVMAN_ERR_NOT_FOUND else PROVMAN_ERR_NONE,
       { manager with
           kv_caches := manager.kv_caches.set index
             (some (cache.filter
               (fun kv => !(prv_delete_key_matches (prv_delete_key_strip raw_key) kv.1)))) },
       [plugin_call.validate_del_fn index (prv_delete_key_strip raw_key)]) := by
  unfold prv_delete_key
  simp only [hc, hp, hv, ne_eq, not_true_eq_false, if_false, Bool.false_eq_true]
  split <;> rfl

/-- What the delete does at the plugin it is routed to: on an idle manager, for a non-empty
key that `provman_plugin_find_index` maps to plugin `index`, whose cache is present (the keys of
a cache being distinct, one trailing slash of the key being dropped): a rejection by the
plugin's `validate_del` is returned and the manager is unchanged; for a leaf, the entries of the
cache afterwards are exactly those whose key differs from the key, or NOT_FOUND is returned and
the manager is unchanged when the key is not cached; for a directory, the entries afterwards are
exactly those whose key does not start with the key followed by a slash, or NOT_FOUND is
returned and the manager is unchanged when there are none; the cache of every other plugin is
unchanged, the only plugin call made is `validate_del`, and the byte read at `key_length - 1`
is inside the key.  Whether the plugin found is the one that owns the key is another matter,
treated at the end of the file. -/
theorem remove_owned_key (plugins : List provman_plugin) (manager : plugin_manager_t)
    (key : CString) (index : Nat) (cache : GHashTable) (plugin : provman_plugin)
    (hidle : manager.state = PLUGIN_MANAGER_STATE_IDLE)
    (hkey : key ≠ []) (hlen : key.length < 2 ^ 32)
    (hown : provman_plugin_find_index plugins key = some index)
    (hp : provman_plugin_get plugins index = some plugin)
    (hc : kv_cache manager index = some cache)
    (hnodup : (cache.map Prod.fst).Nodup) :
    ((plugin.validate_del_fn (prv_delete_key_strip key)).1 ≠ PROVMAN_ERR_NONE →
        (plugin_manager_remove plugins manager key).1
            = (plugin.validate_del_fn (prv_delete_key_strip key)).1
          ∧ (plugin_manager_remove plugins manager key).2.1 = manager)
      ∧ (plugin.validate_del_fn (prv_delete_key_strip key) = (PROVMAN_ERR_NONE, true) →
          ((∃ kv ∈ cache, kv.1 = prv_delete_key_strip key) →
              (plugin_manager_remove plugins manager key).1 = PROVMAN_ERR_NONE
                ∧ ∃ cache2, kv_cache (plugin_manager_remove plugins manager key).2.1 index
                      = some cache2
                    ∧ ∀ kv, kv ∈ cache2 ↔ kv ∈ cache ∧ kv.1 ≠ prv_delete_key_strip key)
            ∧ ((∀ kv ∈ cache, kv.1 ≠ prv_delete_key_strip key) →
              (plugin_manager_remove plugins manager key).1 = PROVMAN_ERR_NOT_FOUND
                ∧ (plugin_manager_remove plugins manager key).2.1 = manager))
      ∧ (plugin.validate_del_fn (prv_delete_key_strip key) = (PROVMAN_ERR_NONE, false) →
          ((∃ kv ∈ cache, (prv_delete_key_strip key ++ ['/']) <+: kv.1) →
              (plugin_manager_remove plugins manager key).1 = PROVMAN_ERR_NONE
                ∧ ∃ cache2, kv_cache (plugin_manager_remove plugins manager key).2.1 index
                      = some cache2
                    ∧ ∀ kv, kv ∈ cache2 ↔
                        kv ∈ cache ∧ ¬ (prv_delete_key_strip key ++ ['/']) <+: kv.1)
            ∧ ((∀ kv ∈ cache, ¬ (prv_delete_key_strip key ++ ['/']) <+: kv.1) →
              (plugin_manager_remove plugins manager key).1 = PROVMAN_ERR_NOT_FOUND
                ∧ (plugin_manager_remove plugins manager key).2.1 = manager))
      ∧ (∀ j, j ≠ index →
          kv_cache (plugin_manager_remove plugins manager key).2.1 j = kv_cache manager j)
      ∧ (plugin_manager_remove plugins manager key).2.2
          = [plugin_call.validate_del_fn index (prv_delete_key_strip key)]
      ∧ uint_sub key.length 1 < key.length := by
  have hlt : index < manager.kv_caches.length := kv_cache_some_lt manager index cache hc
  have hpos : 0 < key.length := List.length_pos.mpr hkey
  have hrem : plugin_manager_remove plugins manager key
      = prv_delete_key plugins manager key index := by
    unfold plugin_manager_remove
    rw [if_neg (fun hn => hn hidle), hown]
  rw [hrem]
  refine ⟨?_, ?_, ?_, ?_, ?_, by rw [uint_sub_one_pos _ hpos hlen]; omega⟩
  · intro hv
    rw [prv_delete_key_rejected plugins manager key index cache plugin hc hp hv]
    exact ⟨rfl, rfl⟩
  · intro hv
    rw [prv_delete_key_leaf plugins manager key index cache plugin hc hp hv]
    constructor
    · rintro ⟨kv, hmem, hk⟩
      cases hl : g_hash_table_lookup cache (prv_delete_key_strip key) with
      | none => exact absurd hk ((g_hash_table_lookup_eq_none_iff _ _).mp hl kv hmem)
      | some v =>
        refine ⟨rfl, g_hash_table_remove cache (prv_delete_key_strip key), ?_, ?_⟩
        · exact (kv_cache_set manager index index _ hlt).trans (if_pos rfl)
        · intro e
          exact mem_g_hash_table_remove cache _ e hnodup
    · intro hnone
      rw [(g_hash_table_lookup_eq_none_iff _ _).mpr hnone]
      exact ⟨rfl, rfl⟩
  · intro hv
    rw [prv_delete_key_directory plugins manager key index cache plugin hc hp hv]
    constructor
    · rintro ⟨kv, hmem, hk⟩
      refine ⟨?_, _, (kv_cache_set manager index index _ hlt).trans (if_pos rfl), ?_⟩
      · have hne : (cache.filter
            (fun e => prv_delete_key_matches (prv_delete_key_strip key) e.1)).length ≠ 0 := by
          have hin : kv ∈ cache.filter
              (fun e => prv_delete_key_matches (prv_delete_key_strip key) e.1) :=
            List.mem_filter.mpr ⟨hmem, (prv_delete_key_matches_iff _ _).mpr hk⟩
          exact Nat.pos_iff_ne_zero.mp (List.length_pos_of_mem hin)
        exact if_neg hne
      · intro e
        rw [List.mem_filter, Bool.not_eq_true', ← Bool.not_eq_true,
          prv_delete_key_matches_iff]
    · intro hnone
      have hzero : (cache.filter
          (fun e => prv_delete_key_matches (prv_delete_key_strip key) e.1)).length = 0 := by
        rw [List.length_eq_zero, List.filter_eq_nil_iff]
        intro e he hm
        exact hnone e he ((prv_delete_key_matches_iff _ _).mp hm)
      have hall : cache.filter
          (fun e => !(prv_delete_key_matches (prv_delete_key_strip key) e.1)) = cache := by
        rw [List.filter_eq_self]
        intro e he
        rw [Bool.not_eq_true', ← Bool.not_eq_true, prv_delete_key_matches_iff]
        exact hnone e he
      rw [hall, kv_caches_set_same manager index cache hc]
      exact ⟨if_pos hzero, rfl⟩
  · intro j hj
    unfold prv_delete_key
    simp only [hc, hp]
    split
    · rfl
    · split
      · split
        · rfl
        · exact (kv_cache_set manager index j _ hlt).trans (if_neg hj)
      · split <;> exact (kv_cache_set manager index j _ hlt).trans (if_neg hj)
  · unfold prv_delete_key
    simp only [hc, hp]
    split
    · rfl
    · split
      · split <;> rfl
      · split <;> rfl

/-- The delete at the stricter plugin with the settings of the contexts `a` and `b` cached:
Delete of `/telephony/contexts/a/` removes the two settings of the context `a` and nothing
else. -/
theorem remove_owned_key_witness :
    provman_plugin_find_index strict_plugins "/telephony/contexts/a/".toList = some 0
      ∧ kv_cache (idle_manager [some (snapshot_a_xy ++ cache_b_y)]) 0
          = some (snapshot_a_xy ++ cache_b_y)
      ∧ strict_plugin.validate_del_fn (prv_delete_key_strip "/telephony/contexts/a/".toList)
          = (PROVMAN_ERR_NONE, false)
      ∧ (plugin_manager_remove strict_plugins (idle_manager [some (snapshot_a_xy ++ cache_b_y)])
            "/telephony/contexts/a/".toList).1 = PROVMAN_ERR_NONE
      ∧ ∃ cache2,
          kv_cache (plugin_manager_remove strict_plugins
              (idle_manager [some (snapshot_a_xy ++ cache_b_y)])
              "/telephony/contexts/a/".toList).2.1 0 = some cache2
            ∧ ∀ kv, kv ∈ cache2 ↔
                kv ∈ snapshot_a_xy ++ cache_b_y
                  ∧ ¬ (prv_delete_key_strip "/telephony/contexts/a/".toList ++ ['/']) <+: kv.1 :=
  ⟨by decide, by decide, by decide,
   ((remove_owned_key strict_plugins (idle_manager [some (snapshot_a_xy ++ cache_b_y)])
      "/telephony/contexts/a/".toList 0 (snapshot_a_xy ++ cache_b_y) strict_plugin
      rfl (by decide) (by decide) (by decide) rfl (by decide) (by decide)).2.2.1
      (by decide)).1
     ⟨("/telephony/contexts/a/x".toList, "1".toList), by decide, by decide⟩⟩

/-! ## C14: a second Start of the same client -/

theorem prv_find_connection_iff (context : provman_context)
    (invocation : GDBusMethodInvocation) :
    prv_find_connection context invocation = true ↔
      (context.holder = some invocation.sender
        ∨ ∃ q ∈ context.queued_clients, q.sender = invocation.sender) := by
  unfold prv_find_connection
  rw [Bool.or_eq_true, decide_eq_true_eq, List.any_eq_true]
  constructor
  · rintro (h | ⟨q, hq, hs⟩)
    · exact Or.inl h.symm
    · exact Or.inr ⟨q, hq, (of_decide_eq_true hs).symm⟩
  · rintro (h | ⟨q, hq, hs⟩)
    · exact Or.inl h.symm
    · exact Or.inr ⟨q, hq, decide_eq_true hs.symm⟩

theorem prv_provman_method_call_start (context : provman_context) (sender imsi : CString)
    (hholder : context.holder ≠ none) :
    prv_provman_method_call context { sender := sender, call := provman_call.Start imsi } =
      if prv_find_connection context { sender := sender, call := provman_call.Start imsi }
      then
        ((if context.timeout_id = true then { context with timeout_id := false } else context),
         [dbus_reply.return_dbus_error { sender := sender, call := provman_call.Start imsi }
            PROVMAN_DBUS_ERR_UNEXPECTED])
      else
        ({ (if context.timeout_id = true then { context with timeout_id := false }
            else context) with
            queued_clients :=
              context.queued_clients ++ [{ sender := sender, call := provman_call.Start imsi }] },
         []) := by
  have hfc : prv_find_connection { context with timeout_id := false }
        { sender := sender, call := provman_call.Start imsi }
      = prv_find_connection context { sender := sender, call := provman_call.Start imsi } := rfl
  cases ht : context.timeout_id <;>
    cases hf : prv_find_connection context { sender := sender, call := provman_call.Start imsi }
      <;> simp [prv_provman_method_call, ht, hholder, hfc, hf]

/-- C14: in every coordinator state that has a holder, a Start call whose sender is the holder,
or whose sender already has a Start waiting in the queue, is answered at once with the
Unexpected error and leaves the holder, the wait queue, the task queue and the plugin manager
unchanged. -/
theorem start_of_known_sender_unexpected (context : provman_context) (holder : CString)
    (invocation : GDBusMethodInvocation) (imsi : CString)
    (hholder : context.holder = some holder)
    (hcall : invocation.call = provman_call.Start imsi)
    (hknown : invocation.sender = holder
      ∨ ∃ q ∈ context.queued_clients, q.sender = invocation.sender) :
    (prv_provman_method_call context invocation).2
        = [dbus_reply.return_dbus_error invocation PROVMAN_DBUS_ERR_UNEXPECTED]
      ∧ (prv_provman_method_call context invocation).1.holder = context.holder
      ∧ (prv_provman_method_call context invocation).1.queued_clients = context.queued_clients
      ∧ (prv_provman_method_call context invocation).1.tasks = context.tasks
      ∧ (prv_provman_method_call context invocation).1.plugin_manager
          = context.plugin_manager := by
  obtain ⟨sender, call⟩ := invocation
  simp only at hcall hknown
  subst hcall
  have hfind : prv_find_connection context { sender := sender, call := provman_call.Start imsi }
      = true := by
    rw [prv_find_connection_iff]
    rcases hknown with h | h
    · exact Or.inl (by rw [hholder, h])
    · exact Or.inr h
  rw [prv_provman_method_call_start context sender imsi (by rw [hholder]; exact fun h => nomatch h),
    if_pos hfind]
  cases context.timeout_id <;> simp

/-- C14 at the state reached by Start of a first client followed by Start of a second one: a
second Start of the waiting client and a second Start of the holder both get the Unexpected
error. -/
theorem start_of_known_sender_unexpected_witness :
    (provman_run_events system_plugins
        [provman_event.method_call (start_of client_a),
         provman_event.method_call (start_of client_b)]).holder = some client_a
      ∧ (prv_provman_method_call
          (provman_run_events system_plugins
            [provman_event.method_call (start_of client_a),
             provman_event.method_call (start_of client_b)]) (start_of client_b)).2
        = [dbus_reply.return_dbus_error (start_of client_b) PROVMAN_DBUS_ERR_UNEXPECTED]
      ∧ (prv_provman_method_call
          (provman_run_events system_plugins
            [provman_event.method_call (start_of client_a),
             provman_event.method_call (start_of client_b)]) (start_of client_a)).2
        = [dbus_reply.return_dbus_error (start_of client_a) PROVMAN_DBUS_ERR_UNEXPECTED] :=
  ⟨by decide,
   (start_of_known_sender_unexpected
      (provman_run_events system_plugins
        [provman_event.method_call (start_of client_a),
         provman_event.method_call (start_of client_b)])
      client_a (start_of client_b) [] (by decide) rfl
      (Or.inr ⟨start_of client_b, by decide, rfl⟩)).1,
   (start_of_known_sender_unexpected
      (provman_run_events system_plugins
        [provman_event.method_call (start_of client_a),
         provman_event.method_call (start_of client_b)])
      client_a (start_of client_a) [] (by decide) rfl (Or.inl rfl)).1⟩

/-! ## C11: the wait queue is served first in, first out -/

theorem prv_session_ended_iterate (n : Nat) (context : provman_context) :
    (Nat.iterate (fun c => (prv_session_ended c).1) (n + 1) context).holder
        = (context.queued_clients.get? n).map (fun invocation => invocation.sender)
      ∧ (Nat.iterate (fun c => (prv_session_ended c).1) (n + 1) context).queued_clients
        = context.queued_clients.drop (n + 1) := by
  induction n generalizing context with
  | zero =>
    rw [Function.iterate_succ_apply, Function.iterate_zero_apply,
      (prv_session_ended_fields context).1, (prv_session_ended_fields context).2.1]
    cases context.queued_clients <;> simp
  | succ n ih =>
    rw [Function.iterate_succ_apply]
    rw [(ih (prv_session_ended context).1).1, (ih (prv_session_ended context).1).2,
      (prv_session_ended_fields context).2.1]
    cases context.queued_clients <;> simp

/-- C11: in every coordinator state with a holder H and wait queue q, a Start call of a sender
that is neither H nor waiting in q receives no reply yet and is appended at the tail of q; the
end of the session of H (an End call of H, or `prv_session_ended` itself) makes the sender of
the head of q the holder and leaves the tail of q, in the same order, as the wait queue.  Hence
the client at position n of q becomes the holder at the session end number n + 1, the queue
then being q without its first n + 1 elements: a client that queued earlier is promoted
earlier. -/
theorem wait_queue_is_fifo (context : provman_context) (holder : CString)
    (hholder : context.holder = some holder) :
    (∀ invocation imsi, invocation.call = provman_call.Start imsi →
        invocation.sender ≠ holder →
        (∀ q ∈ context.queued_clients, q.sender ≠ invocation.sender) →
        (prv_provman_method_call context invocation).1.queued_clients
            = context.queued_clients ++ [invocation]
          ∧ (prv_provman_method_call context invocation).1.holder = context.holder
          ∧ (prv_provman_method_call context invocation).2 = [])
      ∧ (prv_provman_method_call context (end_of holder)).1.holder
          = (context.queued_clients.head?).map (fun invocation => invocation.sender)
      ∧ (prv_provman_method_call context (end_of holder)).1.queued_clients
          = context.queued_clients.tail
      ∧ ∀ n,
          (Nat.iterate (fun c => (prv_session_ended c).1) (n + 1) context).holder
              = (context.queued_clients.get? n).map (fun invocation => invocation.sender)
            ∧ (Nat.iterate (fun c => (prv_session_ended c).1) (n + 1) context).queued_clients
              = context.queued_clients.drop (n + 1) := by
  refine ⟨?_, ?_, ?_, fun n => prv_session_ended_iterate n context⟩
  · intro invocation imsi hcall hsender hqueue
    obtain ⟨sender, call⟩ := invocation
    simp only at hcall hsender hqueue
    subst hcall
    have hfind : ¬ prv_find_connection context
        { sender := sender, call := provman_call.Start imsi } = true := by
      rw [prv_find_connection_iff]
      rintro (h | ⟨q, hq, hs⟩)
      · rw [hholder] at h
        exact hsender (Option.some.inj h).symm
      · exact hqueue q hq hs
    rw [prv_provman_method_call_start context sender imsi
      (by rw [hholder]; exact fun h => nomatch h), if_neg hfind]
    cases context.timeout_id <;> simp
  · rw [prv_provman_method_call_end context holder hholder]
    refine ((prv_session_ended_fields _).1).trans ?_
    cases context.timeout_id <;> rfl
  · rw [prv_provman_method_call_end context holder hholder]
    refine ((prv_session_ended_fields _).2.1).trans ?_
    cases context.timeout_id <;> rfl

/-- C11 at the state reached by Start of a first client: the Start of a second client is
appended to the empty wait queue. -/
theorem wait_queue_is_fifo_witness :
    (provman_run_events system_plugins
        [provman_event.method_call (start_of client_a)]).holder = some client_a
      ∧ (provman_run_events system_plugins
          [provman_event.method_call (start_of client_a)]).queued_clients = []
      ∧ (prv_provman_method_call
          (provman_run_events system_plugins [provman_event.method_call (start_of client_a)])
          (start_of client_b)).1.queued_clients
        = (provman_run_events system_plugins
            [provman_event.method_call (start_of client_a)]).queued_clients
          ++ [start_of client_b] :=
  ⟨by decide, by decide,
   ((wait_queue_is_fifo
      (provman_run_events system_plugins [provman_event.method_call (start_of client_a)])
      client_a (by decide)).1 (start_of client_b) [] rfl (by decide) (by decide)).1⟩

/-! ## C13: End while a client waits -/

theorem prv_add_task_plugin_manager (context : provman_context) (task : provman_task) :
    (prv_add_task context task).plugin_manager = context.plugin_manager := by
  unfold prv_add_task
  simp only []
  split <;> rfl

theorem prv_session_ended_plugin_manager (context : provman_context) :
    (prv_session_ended context).1.plugin_manager = context.plugin_manager := by
  unfold prv_session_ended
  simp only [prv_add_sync_out_task, prv_add_sync_in_task]
  cases hq : context.queued_clients with
  | nil => simp [prv_add_task_plugin_manager, (prv_add_task_fields _ _).2.2, hq]
  | cons invocation rest =>
    simp [prv_add_task_plugin_manager, (prv_add_task_fields _ _).2.2, hq]

/-- C13 (what the code does): in every coordinator state with a holder H and a wait queue
whose head is a Start invocation followed by `rest`, the handler of an End call of H itself
makes the sender of that invocation the holder, answers its Start with success right after the
End, leaves `rest` as the wait queue and appends the sync-out task and the sync-in task of the
new session to the task queue; the plugin manager is not touched, so no sync-out has been
started, let alone completed, when the waiting client is promoted and answered. -/
theorem end_promotes_head_at_once (context : provman_context) (holder : CString)
    (invocation : GDBusMethodInvocation) (rest : List GDBusMethodInvocation)
    (hholder : context.holder = some holder)
    (hqueue : context.queued_clients = invocation :: rest) :
    (prv_provman_method_call context (end_of holder)).2
        = [dbus_reply.return_value (end_of holder) reply_value.null,
           dbus_reply.return_value invocation reply_value.null]
      ∧ (prv_provman_method_call context (end_of holder)).1.holder = some invocation.sender
      ∧ (prv_provman_method_call context (end_of holder)).1.queued_clients = rest
      ∧ (prv_provman_method_call context (end_of holder)).1.tasks
          = context.tasks ++ [sync_out_task, sync_in_task invocation.imsi]
      ∧ (prv_provman_method_call context (end_of holder)).1.plugin_manager
          = context.plugin_manager := by
  rw [prv_provman_method_call_end context holder hholder]
  have hq2 : (if context.timeout_id = true then { context with timeout_id := false }
      else context).queued_clients = invocation :: rest := by
    cases context.timeout_id <;> exact hqueue
  have ht2 : (if context.timeout_id = true then { context with timeout_id := false }
      else context).tasks = context.tasks := by
    cases context.timeout_id <;> rfl
  have hp2 : (if context.timeout_id = true then { context with timeout_id := false }
      else context).plugin_manager = context.plugin_manager := by
    cases context.timeout_id <;> rfl
  refine ⟨?_, ?_, ?_, ?_, ?_⟩
  · simp only [(prv_session_ended_fields _).2.2.2, hq2, List.head?_cons]
  · simp only [(prv_session_ended_fields _).1, hq2, List.head?_cons, Option.map_some']
  · simp only [(prv_session_ended_fields _).2.1, hq2, List.tail_cons]
  · simp only [(prv_session_ended_fields _).2.2.1, hq2, ht2, List.head?_cons]
  · simp only [prv_session_ended_plugin_manager, hp2]

/-- C13 at the state reached by Start of a first client followed by Start of a second one,
before the main loop has run any task: End of the first client answers the Start of the second
one, which becomes the holder while the sync-out task is still waiting in the task queue. -/
theorem end_promotes_head_at_once_witness :
    (provman_run_events system_plugins
        [provman_event.method_call (start_of client_a),
         provman_event.method_call (start_of client_b)]).holder = some client_a
      ∧ (provman_run_events system_plugins
          [provman_event.method_call (start_of client_a),
           provman_event.method_call (start_of client_b)]).queued_clients = [start_of client_b]
      ∧ (prv_provman_method_call
          (provman_run_events system_plugins
            [provman_event.method_call (start_of client_a),
             provman_event.method_call (start_of client_b)]) (end_of client_a)).2
        = [dbus_reply.return_value (end_of client_a) reply_value.null,
           dbus_reply.return_value (start_of client_b) reply_value.null]
      ∧ (prv_provman_method_call
          (provman_run_events system_plugins
            [provman_event.method_call (start_of client_a),
             provman_event.method_call (start_of client_b)]) (end_of client_a)).1.holder
        = some client_b
      ∧ (prv_provman_method_call
          (provman_run_events system_plugins
            [provman_event.method_call (start_of client_a),
             provman_event.method_call (start_of client_b)]) (end_of client_a)).1.tasks
        = [sync_in_task [], sync_out_task, sync_in_task []] :=
  ⟨by decide, by decide,
   (end_promotes_head_at_once
      (provman_run_events system_plugins
        [provman_event.method_call (start_of client_a),
         provman_event.method_call (start_of client_b)])
      client_a (start_of client_b) [] (by decide) (by decide)).1,
   (end_promotes_head_at_once
      (provman_run_events system_plugins
        [provman_event.method_call (start_of client_a),
         provman_event.method_call (start_of client_b)])
      client_a (start_of client_b) [] (by decide) (by decide)).2.1,
   by decide⟩

/-! ## C12: the order of the sync-out and the next sync-in -/

theorem prv_process_task_runs_head (behaviour : plugin_behaviour) (context : provman_context)
    (task : provman_task) (rest : List provman_task) (htasks : context.tasks = task :: rest)
    (hrun : context.quitting = false) :
    (prv_process_task behaviour context).context.tasks = rest
      ∧ (prv_process_task behaviour context).calls
          = (prv_process_task_switch behaviour context.plugin_manager task).2.2.2 := by
  unfold prv_process_task
  simp only [htasks, hrun, Bool.not_false, if_true, Bool.false_or]
  split
  · split
    · exact ⟨rfl, rfl⟩
    · split <;> exact ⟨rfl, rfl⟩
  · exact ⟨rfl, rfl⟩

/-- C12 (what the code does): tasks are appended at the tail and run from the head, and at the
end of a session the sync-in task of the next session is queued behind the sync-out task; yet
the sync-in task can be run before the sync-out has completed.  In the run where a first client
ends its session after the plugin has completed the sync-in and before the main loop has
dispatched `prv_complete_callback`, the End handler attaches `prv_process_task` and the
completion attaches it a second time.  The first dispatch starts the sync-out; the second one
runs the sync-in task of the second session while the manager is still in state SyncOut:
`plugin_manager_sync_in` is denied and the task is dropped.  When the sync-out has completed
and every idle source has been dispatched, the second client holds the session, the task queue
is empty, the plugin has no cache and `sync_in_fn` has been called for the first session
only. -/
theorem sync_in_task_run_during_sync_out :
    (main_loop_run system_behaviour events_end_before_completion).context.tasks
        = [sync_out_task, sync_in_task []]
      ∧ (main_loop_run system_behaviour events_end_before_completion).context.holder
        = some client_b
      ∧ (main_loop_run system_behaviour events_end_before_completion).idle_sources
        = [idle_source.complete_callback, idle_source.process_task]
      ∧ (main_loop_run system_behaviour
          (events_end_before_completion ++ [main_loop_event.idle])).idle_sources
        = [idle_source.process_task, idle_source.process_task]
      ∧ (main_loop_run system_behaviour
          (events_end_before_completion
            ++ [main_loop_event.idle, main_loop_event.idle])).context.plugin_manager.state
        = PLUGIN_MANAGER_STATE_SYNC_OUT
      ∧ (main_loop_run system_behaviour
          (events_end_before_completion
            ++ [main_loop_event.idle, main_loop_event.idle])).context.tasks
        = [sync_in_task []]
      ∧ (main_loop_run system_behaviour
          (events_end_before_completion
            ++ [main_loop_event.idle, main_loop_event.idle,
                main_loop_event.idle])).context.plugin_manager.state
        = PLUGIN_MANAGER_STATE_SYNC_OUT
      ∧ (main_loop_run system_behaviour
          (events_end_before_completion
            ++ [main_loop_event.idle, main_loop_event.idle,
                main_loop_event.idle])).context.tasks = []
      ∧ (main_loop_run system_behaviour
          (events_end_before_completion
            ++ [main_loop_event.idle, main_loop_event.idle,
                main_loop_event.idle])).calls
        = [plugin_call.sync_in_fn 0 (some []), plugin_call.sync_out_fn 0 snapshot_a_x]
      ∧ (main_loop_run system_behaviour
          (events_end_before_completion
            ++ [main_loop_event.idle, main_loop_event.idle, main_loop_event.idle,
                main_loop_event.plugin_sync_out_cb PROVMAN_ERR_NONE,
                main_loop_event.idle, main_loop_event.idle])).context.holder = some client_b
      ∧ (main_loop_run system_behaviour
          (events_end_before_completion
            ++ [main_loop_event.idle, main_loop_event.idle, main_loop_event.idle,
                main_loop_event.plugin_sync_out_cb PROVMAN_ERR_NONE,
                main_loop_event.idle, main_loop_event.idle])).idle_sources = []
      ∧ (main_loop_run system_behaviour
          (events_end_before_completion
            ++ [main_loop_event.idle, main_loop_event.idle, main_loop_event.idle,
                main_loop_event.plugin_sync_out_cb PROVMAN_ERR_NONE,
                main_loop_event.idle, main_loop_event.idle])).context.tasks = []
      ∧ kv_cache (main_loop_run system_behaviour
          (events_end_before_completion
            ++ [main_loop_event.idle, main_loop_event.idle, main_loop_event.idle,
                main_loop_event.plugin_sync_out_cb PROVMAN_ERR_NONE,
                main_loop_event.idle, main_loop_event.idle])).context.plugin_manager 0 = none
      ∧ (main_loop_run system_behaviour
          (events_end_before_completion
            ++ [main_loop_event.idle, main_loop_event.idle, main_loop_event.idle,
                main_loop_event.plugin_sync_out_cb PROVMAN_ERR_NONE,
                main_loop_event.idle, main_loop_event.idle])).calls
        = [plugin_call.sync_in_fn 0 (some []), plugin_call.sync_out_fn 0 snapshot_a_x] := by
  refine ⟨by decide, by decide, by decide, by decide, by decide, by decide, by decide,
    by decide, by decide, by decide, by decide, by decide, by decide, by decide⟩

/-! ## C21: Delete of a key above the roots of the plugins -/

theorem strncmp_is0_comm (a b : CString) (n : Nat) : strncmp_is0 a b n = strncmp_is0 b a n := by
  rw [Bool.eq_iff_iff, strncmp_is0_iff_take, strncmp_is0_iff_take]
  exact eq_comm

theorem find_children_test_eq (uri root : CString) :
    (if uri.length > root.length then false
      else
        strncmp_is0 root uri uri.length
          && (decide (uri.length = root.length)
              || decide (charAt uri (uri.length - 1) = '/')
              || decide (charAt root uri.length = '/')))
      = prv_key_matches_search uri root := by
  unfold prv_key_matches_search
  simp only []
  rw [strncmp_is0_comm root uri]
  by_cases hlen : uri.length > root.length
  · rw [if_pos hlen, if_neg (by omega)]
  · rw [if_neg hlen, if_pos (by omega)]
    cases strncmp_is0 uri root uri.length
    · simp
    · by_cases h1 : root.length = uri.length
      · simp [h1]
      · have h1b : ¬ uri.length = root.length := fun h => h1 h.symm
        by_cases h2 : charAt uri (uri.length - 1) = '/'
        · simp [h1, h1b, h2]
        · by_cases h3 : charAt root uri.length = '/'
          · simp [h1, h1b, h2, h3]
          · simp [h1, h1b, h2, h3]

theorem mem_provman_plugin_find_children (plugins : List provman_plugin) (uri root : CString)
    (huri : uri ≠ []) :
    root ∈ provman_plugin_find_children plugins uri ↔
      (∃ plugin ∈ plugins, plugin.root = root)
        ∧ (root = uri
            ∨ (uri <+: root ∧ (uri.getLast? = some '/' ∨ (uri ++ ['/']) <+: root))) := by
  unfold provman_plugin_find_children
  simp only [List.mem_map, List.mem_filter, find_children_test_eq]
  constructor
  · rintro ⟨plugin, ⟨hmem, htest⟩, rfl⟩
    exact ⟨⟨plugin, hmem, rfl⟩, (prv_key_matches_search_iff uri plugin.root huri).mp htest⟩
  · rintro ⟨⟨plugin, hmem, rfl⟩, hcond⟩
    exact ⟨plugin, ⟨hmem, (prv_key_matches_search_iff uri plugin.root huri).mpr hcond⟩, rfl⟩

theorem provman_plugin_find_index_root (plugins : List provman_plugin)
    (plugin : provman_plugin) (hmem : plugin ∈ plugins) :
    provman_plugin_find_index plugins plugin.root ≠ none := by
  unfold provman_plugin_find_index
  intro hnone
  have h := (prv_find_index_from_none plugin.root plugins 0).mp hnone plugin hmem
  have hm : prv_find_index_matches plugin.root plugin.root = true :=
    (prv_find_index_matches_iff _ _).mpr (Or.inr List.infix_rfl)
  rw [hm] at h
  exact Bool.noConfusion h

theorem prv_remove_children_spec (plugins : List provman_plugin) (roots : List CString)
    (hroots : ∀ root ∈ roots, provman_plugin_find_index plugins root ≠ none)
    (err : provman_errors) (manager : plugin_manager_t) :
    (prv_remove_children plugins err manager roots).1
        = (if roots = [] then err else PROVMAN_ERR_NONE)
      ∧ (prv_remove_children plugins err manager roots).2.1
        = roots.foldl
            (fun m root =>
              match provman_plugin_find_index plugins root with
              | some index => (prv_delete_key plugins m root index).2.1
              | none => m) manager := by
  induction roots generalizing err manager with
  | nil => simp [prv_remove_children]
  | cons root rest ih =>
    have hrest : ∀ r ∈ rest, provman_plugin_find_index plugins r ≠ none :=
      fun r hr => hroots r (List.mem_cons_of_mem _ hr)
    cases hfi : provman_plugin_find_index plugins root with
    | none => exact absurd hfi (hroots root (List.mem_cons_self _ _))
    | some index =>
      have ih2 := ih hrest PROVMAN_ERR_NONE (prv_delete_key plugins manager root index).2.1
      conv => lhs; unfold prv_remove_children
      conv => rhs; lhs; unfold prv_remove_children
      simp only [hfi, List.foldl_cons]
      refine ⟨?_, ih2.2⟩
      rw [ih2.1]
      by_cases hr : rest = []
      · simp [hr]
      · simp [hr]

/-- What the fan-out does: on an idle manager, for a non-empty key that
`provman_plugin_find_index` maps to no plugin, `plugin_manager_remove` runs `prv_delete_key`
(the delete described above, on the root without
its trailing slash) on every root returned by `provman_plugin_find_children`, in registry
order, at the plugin `provman_plugin_find_index` gives for the root, which always exists and is
the plugin itself when no earlier root matches; whatever these deletes return, the result is
success when there is such a root and NOT_FOUND when there is none.  The roots returned are
those of the registered plugins that equal the key, or start with the key where the key ends in
a slash or the next character of the root is a slash.  Whether the plugin found for a root is
the plugin of that root is another matter, treated at the end of the file. -/
theorem remove_fans_out (plugins : List provman_plugin) (manager : plugin_manager_t)
    (key : CString)
    (hidle : manager.state = PLUGIN_MANAGER_STATE_IDLE)
    (hkey : key ≠ [])
    (hnone : provman_plugin_find_index plugins key = none) :
    (∀ root, root ∈ provman_plugin_find_children plugins key ↔
        (∃ plugin ∈ plugins, plugin.root = root)
          ∧ (root = key
              ∨ (key <+: root ∧ (key.getLast? = some '/' ∨ (key ++ ['/']) <+: root))))
      ∧ (provman_plugin_find_children plugins key).Sublist
          (plugins.map (fun plugin => plugin.root))
      ∧ (∀ root ∈ provman_plugin_find_children plugins key,
          provman_plugin_find_index plugins root ≠ none)
      ∧ (∀ i plugin, plugins.get? i = some plugin →
          (∀ j other, j < i → plugins.get? j = some other →
            prv_find_index_matches other.root plugin.root = false) →
          provman_plugin_find_index plugins plugin.root = some i)
      ∧ (plugin_manager_remove plugins manager key).2.1
          = (provman_plugin_find_children plugins key).foldl
              (fun m root =>
                match provman_plugin_find_index plugins root with
                | some index => (prv_delete_key plugins m root index).2.1
                | none => m) manager
      ∧ (plugin_manager_remove plugins manager key).1
          = (if provman_plugin_find_children plugins key = [] then PROVMAN_ERR_NOT_FOUND
             else PROVMAN_ERR_NONE) := by
  have hchildren : ∀ root ∈ provman_plugin_find_children plugins key,
      provman_plugin_find_index plugins root ≠ none := by
    intro root hroot
    obtain ⟨⟨plugin, hmem, rfl⟩, _⟩ :=
      (mem_provman_plugin_find_children plugins key root hkey).mp hroot
    exact provman_plugin_find_index_root plugins plugin hmem
  have hrem : plugin_manager_remove plugins manager key
      = prv_remove_children plugins PROVMAN_ERR_NOT_FOUND manager
          (provman_plugin_find_children plugins key) := by
    unfold plugin_manager_remove
    rw [if_neg (fun hn => hn hidle), hnone]
  have hspec := prv_remove_children_spec plugins (provman_plugin_find_children plugins key)
    hchildren PROVMAN_ERR_NOT_FOUND manager
  refine ⟨fun root => mem_provman_plugin_find_children plugins key root hkey, ?_, hchildren,
    ?_, ?_, ?_⟩
  · unfold provman_plugin_find_children
    exact List.Sublist.map _ (List.filter_sublist _)
  · intro i plugin hget hbefore
    have hm : prv_find_index_matches plugin.root plugin.root = true :=
      (prv_find_index_matches_iff _ _).mpr (Or.inr List.infix_rfl)
    have h := prv_find_index_from_first plugin.root plugins 0 i plugin hget hm hbefore
    rw [Nat.zero_add] at h
    exact h
  · rw [hrem]
    exact hspec.2
  · rw [hrem]
    exact hspec.1

/-- The fan-out at the session plugins with both caches present: Delete of `/applications`
reaches the roots of both plugins and returns success. -/
theorem remove_fans_out_witness :
    (idle_manager applications_caches).state = PLUGIN_MANAGER_STATE_IDLE
      ∧ provman_plugin_find_index session_plugins "/applications".toList = none
      ∧ provman_plugin_find_children session_plugins "/applications".toList
          = ["/applications/email/".toList, "/applications/sync/".toList]
      ∧ (plugin_manager_remove session_plugins (idle_manager applications_caches)
            "/applications".toList).1
          = (if provman_plugin_find_children session_plugins "/applications".toList = []
             then PROVMAN_ERR_NOT_FOUND else PROVMAN_ERR_NONE) :=
  ⟨rfl, by decide, by decide,
   (remove_fans_out session_plugins (idle_manager applications_caches) "/applications".toList
      rfl (by decide) (by decide)).2.2.2.2.2⟩

/-! ## C22: the error kinds of Set, Get and Delete -/

theorem provman_err_to_dbus_cases (err : provman_errors) :
    provman_err_to_dbus err = "" ∧ err = PROVMAN_ERR_NONE
      ∨ provman_err_to_dbus err ∈
          [PROVMAN_DBUS_ERR_OOM, PROVMAN_DBUS_ERR_NOT_FOUND, PROVMAN_DBUS_ERR_CANCELLED,
           PROVMAN_DBUS_ERR_IN_PROGRESS, PROVMAN_DBUS_ERR_NO_TRANSACTION,
           PROVMAN_DBUS_ERR_BAD_ARGS, PROVMAN_DBUS_ERR_UNKNOWN] := by
  cases err <;> simp [provman_err_to_dbus]

/-- C22 (what the code does): `provman_err_to_dbus` has no case for PROVMAN_ERR_BAD_KEY,
PROVMAN_ERR_DENIED or PROVMAN_ERR_CORRUPT, which all become the Unknown error.  So a Set whose
key the owning plugin's `validate_set` rejects as a bad key is answered with Unknown, not with
BadArgs, and so are a Get of a key that is not in the cache of its plugin and a Delete the
plugin's `validate_del` rejects; Unknown is none of Unexpected, NotFound, BadArgs and
Cancelled. -/
theorem bad_key_reported_as_unknown :
    provman_err_to_dbus PROVMAN_ERR_BAD_KEY = PROVMAN_DBUS_ERR_UNKNOWN
      ∧ PROVMAN_DBUS_ERR_UNKNOWN ∉
          [PROVMAN_DBUS_ERR_UNEXPECTED, PROVMAN_DBUS_ERR_NOT_FOUND, PROVMAN_DBUS_ERR_BAD_ARGS,
           PROVMAN_DBUS_ERR_CANCELLED]
      ∧ (plugin_manager_set strict_plugins (idle_manager [some []]) "/telephony/imsi".toList
            "1".toList).1 = PROVMAN_ERR_BAD_KEY
      ∧ (provman_task_set strict_behaviour (idle_manager [some []])
            (set_task client_a "/telephony/imsi" "1")).2.1
          = [dbus_reply.return_dbus_error (set_of client_a "/telephony/imsi" "1")
              PROVMAN_DBUS_ERR_UNKNOWN]
      ∧ (plugin_manager_get strict_plugins (idle_manager [some []])
            "/telephony/mms/apn".toList).1 = PROVMAN_ERR_DENIED
      ∧ provman_task_get strict_behaviour (idle_manager [some []])
            (get_task client_a "/telephony/mms/apn")
          = [dbus_reply.return_dbus_error (get_of client_a "/telephony/mms/apn")
              PROVMAN_DBUS_ERR_UNKNOWN]
      ∧ (provman_task_delete strict_behaviour (idle_manager [some []])
            { type := PROVMAN_TASK_DELETE,
              invocation := some
                { sender := client_a, call := provman_call.Delete "/telephony/mms".toList },
              imsi := none, data := provman_task_data.key "/telephony/mms".toList }).2.1
          = [dbus_reply.return_dbus_error
              { sender := client_a, call := provman_call.Delete "/telephony/mms".toList }
              PROVMAN_DBUS_ERR_UNKNOWN] := by
  refine ⟨rfl, by decide, by decide, by decide, by decide, by decide, by decide⟩

/-! ## C23: GetAll of a key that does not exist -/

/-- C23 (what the code does): on an idle manager, a GetAll task for a search key that no cached
key matches (no cached setting has that key or lies under it) is answered with success and the
empty dictionary; `plugin_manager_get_all` never returns PROVMAN_ERR_NOT_FOUND. -/
theorem get_all_of_missing_key_succeeds (behaviour : plugin_behaviour)
    (manager : plugin_manager_t) (invocation : GDBusMethodInvocation) (key : CString)
    (hidle : manager.state = PLUGIN_MANAGER_STATE_IDLE)
    (hmissing : ∀ i cache, kv_cache manager i = some cache →
      ∀ kv ∈ cache, prv_key_matches_search key kv.1 = false) :
    plugin_manager_get_all (provman_plugin_get_count behaviour) manager key
        = (PROVMAN_ERR_NONE, [])
      ∧ provman_task_get_all behaviour manager
          { type := PROVMAN_TASK_GET_ALL, invocation := some invocation, imsi := none,
            data := provman_task_data.key key }
        = [dbus_reply.return_value invocation (reply_value.dict [])] := by
  have hall : plugin_manager_get_all (provman_plugin_get_count behaviour) manager key
      = (PROVMAN_ERR_NONE, []) := by
    unfold plugin_manager_get_all
    rw [if_neg (fun hn => hn hidle)]
    refine Prod.ext rfl ?_
    simp only [List.flatMap_eq_nil_iff, List.mem_range]
    intro i _
    cases hc : kv_cache manager i with
    | none => rfl
    | some cache =>
      simp only [List.filter_eq_nil_iff]
      intro kv hkv
      rw [hmissing i cache hc kv hkv]
      exact Bool.false_ne_true
  refine ⟨hall, ?_⟩
  unfold provman_task_get_all
  simp only [hall]
  rfl

/-- C23 at the stricter plugin with one setting of the context `a` cached: GetAll of
`/telephony/mms` returns the empty dictionary. -/
theorem get_all_of_missing_key_succeeds_witness :
    (idle_manager [some snapshot_a_x]).state = PLUGIN_MANAGER_STATE_IDLE
      ∧ provman_task_get_all strict_behaviour (idle_manager [some snapshot_a_x])
          { type := PROVMAN_TASK_GET_ALL,
            invocation := some (get_all_of client_a "/telephony/mms"), imsi := none,
            data := provman_task_data.key "/telephony/mms".toList }
        = [dbus_reply.return_value (get_all_of client_a "/telephony/mms")
            (reply_value.dict [])] :=
  ⟨rfl,
   (get_all_of_missing_key_succeeds strict_behaviour (idle_manager [some snapshot_a_x])
      (get_all_of client_a "/telephony/mms") "/telephony/mms".toList rfl
      (fun i cache hc kv hkv =>
        match i, hc with
        | 0, hc => by
          have hcache : cache = snapshot_a_x := (Option.some.inj hc).symm
          subst hcache
          have hkv2 : kv = ("/telephony/contexts/a/x".toList, "1".toList) := by
            simpa [snapshot_a_x] using hkv
          subst hkv2
          decide
        | _ + 1, hc => Option.noConfusion hc)).2⟩

/-! ## C24: the bare root -/

/-- C24 (what the code does): the validator accepts the key `/`: after the first character
nothing is left to scan, and PROVMAN_ERR_NONE is returned, against the documentation of
utils.h. -/
theorem validate_key_accepts_bare_root :
    provman_utils_validate_key (some "/".toList) = PROVMAN_ERR_NONE := by
  decide

/-! ## C25: contexts of keys -/

theorem dropWhile_not_slash_starts (rest : CString) :
    rest.dropWhile (fun c => c ≠ '/') = [] ∨ ['/'] <+: rest.dropWhile (fun c => c ≠ '/') := by
  induction rest with
  | nil => exact Or.inl rfl
  | cons c cs ih =>
    by_cases hc : c = '/'
    · right
      subst hc
      simp [List.dropWhile]
    · simpa [List.dropWhile, hc] using ih

/-- C25: with `root_len` the length of the root, `provman_utils_get_context_from_key` returns
NULL exactly when the key does not begin with the root; on a key `root ++ rest` it returns the
longest beginning of `rest` without a slash, which is followed in the key by a slash or by the
end of the key; `provman_utils_get_contexts` returns, without repetition, exactly the contexts
of the keys of the settings table; and for the four settings of the example of utils.h these
are `operator3G` and `company1`. -/
theorem contexts_of_keys (key root rest : CString) (settings : GHashTable) (c : CString) :
    (provman_utils_get_context_from_key key root root.length = none ↔ ¬ root <+: key)
      ∧ provman_utils_get_context_from_key (root ++ rest) root root.length
          = some (rest.takeWhile (fun c => c ≠ '/'))
      ∧ '/' ∉ rest.takeWhile (fun c => c ≠ '/')
      ∧ rest = rest.takeWhile (fun c => c ≠ '/') ++ rest.dropWhile (fun c => c ≠ '/')
      ∧ (rest.dropWhile (fun c => c ≠ '/') = []
          ∨ ['/'] <+: rest.dropWhile (fun c => c ≠ '/'))
      ∧ (c ∈ provman_utils_get_contexts settings root root.length ↔
          ∃ kv ∈ settings, provman_utils_get_context_from_key kv.1 root root.length = some c)
      ∧ (provman_utils_get_contexts settings root root.length).Nodup
      ∧ provman_utils_get_contexts utils_h_settings "/telephony/contexts/".toList
            "/telephony/contexts/".toList.length
          = ["operator3G".toList, "company1".toList] := by
  have hstarts : ∀ k : CString, strncmp_is0 root k root.length = true ↔ root <+: k :=
    fun k => strncmp_is0_length_iff_starts root k
  refine ⟨?_, ?_, ?_, (List.takeWhile_append_dropWhile _ _).symm,
    dropWhile_not_slash_starts rest, mem_provman_utils_get_contexts settings root _ c,
    nodup_provman_utils_get_contexts settings root _, by decide⟩
  · unfold provman_utils_get_context_from_key
    by_cases h : root <+: key
    · rw [if_pos ((hstarts key).mpr h)]
      simp [h]
    · rw [if_neg (fun hn => h ((hstarts key).mp hn))]
      simp [h]
  · unfold provman_utils_get_context_from_key
    rw [if_pos ((hstarts _).mpr (List.prefix_append root rest)), List.drop_left]
  · intro hmem
    have := List.mem_takeWhile_imp hmem
    simp at this

/-! ## C27: what a set changes -/

theorem mem_g_hash_table_insert_other (table : GHashTable) (key value : CString)
    (kv : CString × CString) (hne : kv.1 ≠ key) :
    kv ∈ g_hash_table_insert table key value ↔ kv ∈ table := by
  induction table with
  | nil =>
    simp only [g_hash_table_insert, List.mem_singleton, List.not_mem_nil, iff_false]
    intro h
    exact hne (by rw [h])
  | cons e t ih =>
    obtain ⟨k0, v0⟩ := e
    by_cases hk : k0 = key
    · subst hk
      simp only [g_hash_table_insert, if_true, List.mem_cons]
      constructor
      · rintro (h | h)
        · exact absurd (by rw [h]) hne
        · exact Or.inr h
      · rintro (h | h)
        · exact absurd (by rw [h]) hne
        · exact Or.inr h
    · simp only [g_hash_table_insert, hk, if_false, List.mem_cons, ih]

/-- What a set changes: on an idle manager, a successful `plugin_manager_set` of key k to value
v replaces the cache of the plugin that `provman_plugin_find_index` gives for k by that cache with k mapped to
v: every entry with another key is in the new cache exactly when it was in the old one, and the
cache of every other plugin is unchanged.  A failing set leaves the manager unchanged; a set
fails with NOT_FOUND when no plugin is found for k, with CORRUPT when the plugin found has no
cache, and with the error of `validate_set` when the plugin rejects the setting.  Whether the
plugin found is the one that owns k is another matter, treated at the end of the file. -/
theorem set_changes_one_entry (plugins : List provman_plugin) (manager : plugin_manager_t)
    (k v : CString) (hidle : manager.state = PLUGIN_MANAGER_STATE_IDLE) :
    ((plugin_manager_set plugins manager k v).1 = PROVMAN_ERR_NONE →
        ∃ index cache,
          provman_plugin_find_index plugins k = some index
            ∧ kv_cache manager index = some cache
            ∧ kv_cache (plugin_manager_set plugins manager k v).2.1 index
                = some (g_hash_table_insert cache k v)
            ∧ g_hash_table_lookup (g_hash_table_insert cache k v) k = some v
            ∧ (∀ other, other ≠ k →
                g_hash_table_lookup (g_hash_table_insert cache k v) other
                  = g_hash_table_lookup cache other)
            ∧ (∀ kv : CString × CString, kv.1 ≠ k →
                (kv ∈ g_hash_table_insert cache k v ↔ kv ∈ cache))
            ∧ ∀ j, j ≠ index →
                kv_cache (plugin_manager_set plugins manager k v).2.1 j = kv_cache manager j)
      ∧ ((plugin_manager_set plugins manager k v).1 ≠ PROVMAN_ERR_NONE →
          (plugin_manager_set plugins manager k v).2.1 = manager)
      ∧ (provman_plugin_find_index plugins k = none →
          (plugin_manager_set plugins manager k v).1 = PROVMAN_ERR_NOT_FOUND)
      ∧ (∀ index, provman_plugin_find_index plugins k = some index →
          kv_cache manager index = none →
          (plugin_manager_set plugins manager k v).1 = PROVMAN_ERR_CORRUPT)
      ∧ (∀ index cache plugin, provman_plugin_find_index plugins k = some index →
          kv_cache manager index = some cache →
          provman_plugin_get plugins index = some plugin →
          (plugin_manager_set plugins manager k v).1 = plugin.validate_set_fn k v) := by
  rw [plugin_manager_set_idle plugins manager k v hidle]
  refine ⟨?_, prv_set_common_failed plugins manager k v, ?_, ?_, ?_⟩
  · intro hok
    obtain ⟨index, cache, plugin, hfi, hc, _, _, hm⟩ := prv_set_common_ok plugins manager k v hok
    have hlt : index < manager.kv_caches.length := kv_cache_some_lt manager index cache hc
    refine ⟨index, cache, hfi, hc, ?_, g_hash_table_lookup_insert_self cache k v, ?_, ?_, ?_⟩
    · rw [hm]
      exact (kv_cache_set manager index index _ hlt).trans (if_pos rfl)
    · intro other hne
      rw [g_hash_table_lookup_insert, if_neg (fun h => hne h.symm)]
    · intro kv hne
      exact mem_g_hash_table_insert_other cache k v kv hne
    · intro j hj
      rw [hm]
      exact (kv_cache_set manager index j _ hlt).trans (if_neg hj)
  · intro hfi
    rw [prv_set_common_err, hfi]
  · intro index hfi hc
    rw [prv_set_common_err, hfi]
    simp only [hc, Option.isSome_none]
  · intro index cache plugin hfi hc hp
    rw [prv_set_common_err, hfi]
    simp only [hc, hp, Option.isSome_some]

/-- A set at the system plugin with the settings of the contexts `a` and `b` cached: a Set of
a new key succeeds and the cached settings stay. -/
theorem set_changes_one_entry_witness :
    (idle_manager [some (snapshot_a_xy ++ cache_b_y)]).state = PLUGIN_MANAGER_STATE_IDLE
      ∧ (plugin_manager_set system_plugins (idle_manager [some (snapshot_a_xy ++ cache_b_y)])
            "/telephony/mms/apn".toList "internet".toList).1 = PROVMAN_ERR_NONE
      ∧ ∃ index cache,
          provman_plugin_find_index system_plugins "/telephony/mms/apn".toList = some index
            ∧ kv_cache (idle_manager [some (snapshot_a_xy ++ cache_b_y)]) index = some cache
            ∧ kv_cache (plugin_manager_set system_plugins
                  (idle_manager [some (snapshot_a_xy ++ cache_b_y)])
                  "/telephony/mms/apn".toList "internet".toList).2.1 index
                = some (g_hash_table_insert cache "/telephony/mms/apn".toList "internet".toList)
            ∧ g_hash_table_lookup
                (g_hash_table_insert cache "/telephony/mms/apn".toList "internet".toList)
                "/telephony/mms/apn".toList = some "internet".toList
            ∧ (∀ other, other ≠ "/telephony/mms/apn".toList →
                g_hash_table_lookup
                    (g_hash_table_insert cache "/telephony/mms/apn".toList "internet".toList)
                    other
                  = g_hash_table_lookup cache other)
            ∧ (∀ kv : CString × CString, kv.1 ≠ "/telephony/mms/apn".toList →
                (kv ∈ g_hash_table_insert cache "/telephony/mms/apn".toList "internet".toList
                  ↔ kv ∈ cache))
            ∧ ∀ j, j ≠ index →
                kv_cache (plugin_manager_set system_plugins
                    (idle_manager [some (snapshot_a_xy ++ cache_b_y)])
                    "/telephony/mms/apn".toList "internet".toList).2.1 j
                  = kv_cache (idle_manager [some (snapshot_a_xy ++ cache_b_y)]) j :=
  ⟨rfl, by decide,
   (set_changes_one_entry system_plugins (idle_manager [some (snapshot_a_xy ++ cache_b_y)])
      "/telephony/mms/apn".toList "internet".toList rfl).1 (by decide)⟩

/-! ## C26: tasks left in the queue -/

theorem prv_process_task_stops_with_holder (behaviour : plugin_behaviour)
    (context : provman_context) (task : provman_task) (rest : List provman_task)
    (holder : CString)
    (htasks : context.tasks = task :: rest) (hrun : context.quitting = false)
    (hholder : context.holder = some holder)
    (hsync : (prv_process_task_switch behaviour context.plugin_manager task).1 = false) :
    (prv_process_task behaviour context).again = false
      ∧ (prv_process_task behaviour context).quit = false
      ∧ (prv_process_task behaviour context).context.idle_id = false
      ∧ (prv_process_task behaviour context).context.tasks = rest := by
  unfold prv_process_task
  simp [htasks, hrun, hholder, hsync]

/-- C26 (what the code does): with a holder, `prv_process_task` runs one synchronous task,
clears `idle_id` and returns FALSE even when tasks are left.  In the run where a client starts
a session and sends two Set calls before the sync-in has completed, the first Set is run and
answered after the sync-in; then the second Set task is still in the queue, the manager is
idle, the process is not quitting, and no idle source is attached: dispatching idle sources
changes nothing, and the second Set is only run, and answered, when the next request (here a
Get, which is left in the queue in its turn) attaches `prv_process_task` again. -/
theorem task_left_without_idle_source :
    (main_loop_run system_behaviour events_two_sets).context.tasks
        = [set_task client_a "/telephony/mms/name" "mms"]
      ∧ (main_loop_run system_behaviour events_two_sets).context.holder = some client_a
      ∧ (main_loop_run system_behaviour events_two_sets).context.plugin_manager.state
          = PLUGIN_MANAGER_STATE_IDLE
      ∧ plugin_manager_busy
          (main_loop_run system_behaviour events_two_sets).context.plugin_manager = false
      ∧ (main_loop_run system_behaviour events_two_sets).context.quitting = false
      ∧ (main_loop_run system_behaviour events_two_sets).quit = false
      ∧ (main_loop_run system_behaviour events_two_sets).context.idle_id = false
      ∧ (main_loop_run system_behaviour events_two_sets).idle_sources = []
      ∧ (main_loop_run system_behaviour events_two_sets).replies
          = [dbus_reply.return_value (start_of client_a) reply_value.null,
             dbus_reply.return_value (set_of client_a "/telephony/mms/apn" "internet")
               reply_value.null]
      ∧ (main_loop_run system_behaviour
            (events_two_sets ++ [main_loop_event.idle, main_loop_event.idle])).context.tasks
          = [set_task client_a "/telephony/mms/name" "mms"]
      ∧ (main_loop_run system_behaviour
            (events_two_sets ++ [main_loop_event.idle, main_loop_event.idle])).replies
          = (main_loop_run system_behaviour events_two_sets).replies
      ∧ (main_loop_run system_behaviour
            (events_two_sets
              ++ [main_loop_event.method_call (get_of client_a "/telephony/mms/apn"),
                  main_loop_event.idle, main_loop_event.idle])).replies
          = [dbus_reply.return_value (start_of client_a) reply_value.null,
             dbus_reply.return_value (set_of client_a "/telephony/mms/apn" "internet")
               reply_value.null,
             dbus_reply.return_value (set_of client_a "/telephony/mms/name" "mms")
               reply_value.null]
      ∧ (main_loop_run system_behaviour
            (events_two_sets
              ++ [main_loop_event.method_call (get_of client_a "/telephony/mms/apn"),
                  main_loop_event.idle, main_loop_event.idle])).context.tasks
          = [get_task client_a "/telephony/mms/apn"] := by
  refine ⟨by decide, by decide, by decide, by decide, by decide, by decide, by decide,
    by decide, by decide, by decide, by decide, by decide, by decide⟩

/-! ## C28: the error name of a failing task -/

theorem provman_err_to_dbus_ne_empty (err : provman_errors) (herr : err ≠ PROVMAN_ERR_NONE) :
    provman_err_to_dbus err ≠ "" := by
  cases err <;> first | exact absurd rfl herr | decide

theorem task_reply_of_err_failed (task : provman_task) (invocation : GDBusMethodInvocation)
    (err : provman_errors) (value : reply_value) (hinv : task.invocation = some invocation)
    (herr : err ≠ PROVMAN_ERR_NONE) :
    task_reply_of_err task err value
      = [dbus_reply.return_dbus_error invocation (provman_err_to_dbus err)] := by
  unfold task_reply_of_err task_reply
  rw [if_neg herr, hinv]

/-- C28 (what the code does): `plugin_manager_get_all` fails, with PROVMAN_ERR_DENIED, when the
manager is not idle, and `provman_task_get_all` then computes the error name from its local
variable `err`, which still holds PROVMAN_ERR_NONE: the name passed to
`g_dbus_method_invocation_return_dbus_error` is the empty string, not the name of
PROVMAN_ERR_DENIED.  On the same manager a Set, SetAll, Get or Delete task answers with the name
`provman_err_to_dbus` gives to the error code the plugin manager returned, and that name is
never empty for an error code other than PROVMAN_ERR_NONE. -/
theorem failing_get_all_has_empty_error_name (behaviour : plugin_behaviour)
    (manager : plugin_manager_t) (invocation : GDBusMethodInvocation) (key : CString)
    (hbusy : manager.state ≠ PLUGIN_MANAGER_STATE_IDLE) :
    (plugin_manager_get_all (provman_plugin_get_count behaviour) manager key).1
        = PROVMAN_ERR_DENIED
      ∧ provman_err_to_dbus PROVMAN_ERR_DENIED = PROVMAN_DBUS_ERR_UNKNOWN
      ∧ provman_task_get_all behaviour manager
          { type := PROVMAN_TASK_GET_ALL, invocation := some invocation, imsi := none,
            data := provman_task_data.key key }
        = [dbus_reply.return_dbus_error invocation ""]
      ∧ (∀ value,
          (provman_task_set behaviour manager
              { type := PROVMAN_TASK_SET, invocation := some invocation, imsi := none,
                data := provman_task_data.key_value key value }).2.1
            = [dbus_reply.return_dbus_error invocation
                (provman_err_to_dbus (plugin_manager_set behaviour.plugins manager key value).1)])
      ∧ (∀ variant,
          (provman_task_set_all behaviour manager
              { type := PROVMAN_TASK_SET_ALL, invocation := some invocation, imsi := none,
                data := provman_task_data.variant variant }).2.1
            = [dbus_reply.return_dbus_error invocation
                (provman_err_to_dbus
                  (plugin_manager_set_all behaviour.plugins manager variant).1)])
      ∧ provman_task_get behaviour manager
          { type := PROVMAN_TASK_GET, invocation := some invocation, imsi := none,
            data := provman_task_data.key key }
        = [dbus_reply.return_dbus_error invocation
            (provman_err_to_dbus (plugin_manager_get behaviour.plugins manager key).1)]
      ∧ (provman_task_delete behaviour manager
            { type := PROVMAN_TASK_DELETE, invocation := some invocation, imsi := none,
              data := provman_task_data.key key }).2.1
        = [dbus_reply.return_dbus_error invocation
            (provman_err_to_dbus (plugin_manager_remove behaviour.plugins manager key).1)]
      ∧ ∀ err, err ≠ PROVMAN_ERR_NONE → provman_err_to_dbus err ≠ "" := by
  have hall : plugin_manager_get_all (provman_plugin_get_count behaviour) manager key
      = (PROVMAN_ERR_DENIED, []) := by
    unfold plugin_manager_get_all
    rw [if_pos hbusy]
  have hdenied : PROVMAN_ERR_DENIED ≠ PROVMAN_ERR_NONE := by decide
  refine ⟨by rw [hall], rfl, ?_, ?_, ?_, ?_, ?_, provman_err_to_dbus_ne_empty⟩
  · unfold provman_task_get_all
    simp only [hall]
    rfl
  · intro value
    have hset : plugin_manager_set behaviour.plugins manager key value
        = (PROVMAN_ERR_DENIED, manager, []) := by
      unfold plugin_manager_set
      rw [if_pos hbusy]
    unfold provman_task_set
    simp only [hset]
    exact task_reply_of_err_failed _ invocation _ _ rfl hdenied
  · intro variant
    have hset : plugin_manager_set_all behaviour.plugins manager variant
        = (PROVMAN_ERR_DENIED, manager, [], []) := by
      unfold plugin_manager_set_all
      rw [if_pos hbusy]
    unfold provman_task_set_all
    simp only [hset]
    exact task_reply_of_err_failed _ invocation _ _ rfl hdenied
  · have hget : plugin_manager_get behaviour.plugins manager key
        = (PROVMAN_ERR_DENIED, none) := by
      unfold plugin_manager_get
      rw [if_pos hbusy]
    unfold provman_task_get
    simp only [hget]
    exact task_reply_of_err_failed _ invocation _ _ rfl hdenied
  · have hrem : plugin_manager_remove behaviour.plugins manager key
        = (PROVMAN_ERR_DENIED, manager, []) := by
      unfold plugin_manager_remove
      rw [if_pos hbusy]
    unfold provman_task_delete
    simp only [hrem]
    exact task_reply_of_err_failed _ invocation _ _ rfl hdenied

/-- C28 in a run of the main loop: the second client calls GetAll after the plugin has
completed the sync-out of the first session and before the completion is dispatched; its
sync-in is then started, the GetAll task is run while the manager is in state SyncIn, and the
error name of the answer is empty. -/
theorem failing_get_all_has_empty_error_name_witness :
    (main_loop_run system_behaviour
        events_get_all_in_window.dropLast).context.plugin_manager.state
        ≠ PLUGIN_MANAGER_STATE_IDLE
      ∧ (main_loop_run system_behaviour events_get_all_in_window.dropLast).context.tasks
          = [get_all_task client_b "/telephony"]
      ∧ provman_task_get_all system_behaviour
          (main_loop_run system_behaviour
            events_get_all_in_window.dropLast).context.plugin_manager
          { type := PROVMAN_TASK_GET_ALL, invocation := some (get_all_of client_b "/telephony"),
            imsi := none, data := provman_task_data.key "/telephony".toList }
        = [dbus_reply.return_dbus_error (get_all_of client_b "/telephony") ""]
      ∧ (main_loop_run system_behaviour events_get_all_in_window).replies.getLast?
        = some (dbus_reply.return_dbus_error (get_all_of client_b "/telephony") "") :=
  ⟨by decide, by decide,
   (failing_get_all_has_empty_error_name system_behaviour
      (main_loop_run system_behaviour events_get_all_in_window.dropLast).context.plugin_manager
      (get_all_of client_b "/telephony") "/telephony".toList (by decide)).2.2.1,
   by decide⟩

/-! ## C29: the holder and the wait queue -/

theorem prv_provman_method_call_queue (context : provman_context)
    (invocation : GDBusMethodInvocation) :
    ((prv_provman_method_call context invocation).1.holder = context.holder
        ∧ (prv_provman_method_call context invocation).1.queued_clients
            = context.queued_clients)
      ∨ (context.holder = none
          ∧ (prv_provman_method_call context invocation).1.holder = some invocation.sender
          ∧ (prv_provman_method_call context invocation).1.queued_clients
              = context.queued_clients)
      ∨ (context.holder ≠ none ∧ prv_find_connection context invocation = false
          ∧ (prv_provman_method_call context invocation).1.holder = context.holder
          ∧ (prv_provman_method_call context invocation).1.queued_clients
              = context.queued_clients ++ [invocation])
      ∨ ((prv_provman_method_call context invocation).1.holder
            = (context.queued_clients.head?).map (fun invocation => invocation.sender)
          ∧ (prv_provman_method_call context invocation).1.queued_clients
              = context.queued_clients.tail) := by
  obtain ⟨sender, call⟩ := invocation
  by_cases hstart : ∃ imsi, call = provman_call.Start imsi
  · obtain ⟨imsi, rfl⟩ := hstart
    by_cases hh : context.holder = none
    · right
      left
      refine ⟨hh, ?_, ?_⟩
      · cases ht : context.timeout_id <;>
          simp [prv_provman_method_call, ht, hh, prv_add_sync_in_task,
            (prv_add_task_fields _ _).2.1]
      · cases ht : context.timeout_id <;>
          simp [prv_provman_method_call, ht, hh, prv_add_sync_in_task,
            (prv_add_task_fields _ _).2.2]
    · rw [prv_provman_method_call_start context sender imsi hh]
      cases hf : prv_find_connection context
          { sender := sender, call := provman_call.Start imsi }
      · right
        right
        left
        refine ⟨hh, rfl, ?_, ?_⟩ <;> cases context.timeout_id <;> simp
      · left
        constructor <;> cases context.timeout_id <;> simp
  · by_cases hne : context.holder = some sender
    · cases call with
      | Start imsi => exact absurd ⟨imsi, rfl⟩ hstart
      | End =>
        right
        right
        right
        have hend := prv_provman_method_call_end context sender hne
        unfold end_of at hend
        rw [hend]
        constructor
        · refine ((prv_session_ended_fields _).1).trans ?_
          cases context.timeout_id <;> rfl
        · refine ((prv_session_ended_fields _).2.1).trans ?_
          cases context.timeout_id <;> rfl
      | Set key value =>
        left
        constructor <;> cases ht : context.timeout_id <;>
          simp [prv_provman_method_call, ht, hne, prv_add_set_task,
            (prv_add_task_fields _ _).2.1, (prv_add_task_fields _ _).2.2]
      | SetAll dict =>
        left
        constructor <;> cases ht : context.timeout_id <;>
          simp [prv_provman_method_call, ht, hne, prv_add_set_all_task,
            (prv_add_task_fields _ _).2.1, (prv_add_task_fields _ _).2.2]
      | Get key =>
        left
        constructor <;> cases ht : context.timeout_id <;>
          simp [prv_provman_method_call, ht, hne, prv_add_get_task,
            (prv_add_task_fields _ _).2.1, (prv_add_task_fields _ _).2.2]
      | GetAll key =>
        left
        constructor <;> cases ht : context.timeout_id <;>
          simp [prv_provman_method_call, ht, hne, prv_add_get_all_task,
            (prv_add_task_fields _ _).2.1, (prv_add_task_fields _ _).2.2]
      | Delete key =>
        left
        constructor <;> cases ht : context.timeout_id <;>
          simp [prv_provman_method_call, ht, hne, prv_add_delete_task,
            (prv_add_task_fields _ _).2.1, (prv_add_task_fields _ _).2.2]
    · left
      cases call with
      | Start imsi => exact absurd ⟨imsi, rfl⟩ hstart
      | End => constructor <;> cases ht : context.timeout_id <;>
          simp [prv_provman_method_call, ht, hne]
      | Set key value => constructor <;> cases ht : context.timeout_id <;>
          simp [prv_provman_method_call, ht, hne]
      | SetAll dict => constructor <;> cases ht : context.timeout_id <;>
          simp [prv_provman_method_call, ht, hne]
      | Get key => constructor <;> cases ht : context.timeout_id <;>
          simp [prv_provman_method_call, ht, hne]
      | GetAll key => constructor <;> cases ht : context.timeout_id <;>
          simp [prv_provman_method_call, ht, hne]
      | Delete key => constructor <;> cases ht : context.timeout_id <;>
          simp [prv_provman_method_call, ht, hne]

theorem wait_queue_invariant_promote (holder : Option CString)
    (queued_clients : List GDBusMethodInvocation)
    (hinv : wait_queue_invariant holder queued_clients) :
    wait_queue_invariant ((queued_clients.head?).map (fun invocation => invocation.sender))
      queued_clients.tail := by
  obtain ⟨_, hnodup, _⟩ := hinv
  cases queued_clients with
  | nil => exact ⟨fun _ => rfl, List.nodup_nil, fun name h => nomatch h⟩
  | cons first rest =>
    simp only [List.map_cons, List.nodup_cons] at hnodup
    refine ⟨fun h => Option.noConfusion h, hnodup.2, ?_⟩
    intro name hname
    rw [← Option.some.inj hname]
    exact hnodup.1

theorem wait_queue_invariant_method_call (context : provman_context)
    (invocation : GDBusMethodInvocation)
    (hinv : wait_queue_invariant context.holder context.queued_clients) :
    wait_queue_invariant (prv_provman_method_call context invocation).1.holder
      (prv_provman_method_call context invocation).1.queued_clients := by
  rcases prv_provman_method_call_queue context invocation with
    ⟨h1, h2⟩ | ⟨hnone, h1, h2⟩ | ⟨hsome, hfind, h1, h2⟩ | ⟨h1, h2⟩
  · rw [h1, h2]
    exact hinv
  · rw [h1, h2, hinv.1 hnone]
    exact ⟨fun h => Option.noConfusion h, List.nodup_nil, fun name _ h => nomatch h⟩
  · rw [h1, h2]
    have hnot : ¬ (context.holder = some invocation.sender
        ∨ ∃ q ∈ context.queued_clients, q.sender = invocation.sender) := by
      rw [← prv_find_connection_iff, hfind]
      exact Bool.false_ne_true
    have hnotq : invocation.sender ∉
        context.queued_clients.map (fun invocation => invocation.sender) := by
      intro hmem
      obtain ⟨q, hq, hs⟩ := List.mem_map.mp hmem
      exact hnot (Or.inr ⟨q, hq, hs⟩)
    refine ⟨fun h => absurd h hsome, ?_, ?_⟩
    · rw [List.map_append, List.map_singleton]
      refine List.Nodup.append hinv.2.1 (List.nodup_singleton _) ?_
      intro a ha hb
      rw [List.mem_singleton] at hb
      subst hb
      exact hnotq ha
    · intro name hname
      rw [List.map_append, List.map_singleton, List.mem_append, List.mem_singleton]
      rintro (h | h)
      · exact hinv.2.2 name hname h
      · subst h
        exact hnot (Or.inl hname)
  · rw [h1, h2]
    exact wait_queue_invariant_promote _ _ hinv

theorem wait_queue_invariant_lost_client (context : provman_context) (name : CString)
    (hinv : wait_queue_invariant context.holder context.queued_clients) :
    wait_queue_invariant (prv_lost_client context name).1.holder
      (prv_lost_client context name).1.queued_clients := by
  unfold prv_lost_client
  split
  · exact hinv
  · rw [(prv_session_ended_fields context).1, (prv_session_ended_fields context).2.1]
    exact wait_queue_invariant_promote _ _ hinv

theorem wait_queue_invariant_events (events : List provman_event) (context : provman_context)
    (hinv : wait_queue_invariant context.holder context.queued_clients) :
    wait_queue_invariant (events.foldl provman_dispatch context).holder
      (events.foldl provman_dispatch context).queued_clients := by
  induction events generalizing context with
  | nil => exact hinv
  | cons event rest ih =>
    rw [List.foldl_cons]
    apply ih
    cases event with
    | method_call invocation => exact wait_queue_invariant_method_call context invocation hinv
    | lost_client =>
      unfold provman_dispatch
      cases context.holder_watcher with
      | none => exact hinv
      | some name => exact wait_queue_invariant_lost_client context name hinv

/-- C29: in every coordinator state reached from the initial state by method calls and holder
disconnections: if there is no holder the wait queue is empty, the senders of the invocations
in the wait queue are pairwise distinct, and the holder is not the sender of an invocation in
the wait queue. -/
theorem holder_and_wait_queue (plugins : List provman_plugin) (events : List provman_event) :
    ((provman_run_events plugins events).holder = none →
        (provman_run_events plugins events).queued_clients = [])
      ∧ ((provman_run_events plugins events).queued_clients.map
          (fun invocation => invocation.sender)).Nodup
      ∧ ∀ name, (provman_run_events plugins events).holder = some name →
          name ∉ (provman_run_events plugins events).queued_clients.map
            (fun invocation => invocation.sender) :=
  wait_queue_invariant_events events (provman_context_init plugins)
    ⟨fun _ => rfl, List.nodup_nil, fun _ h => nomatch h⟩

/-! ## C30: the byte before the end of the search key -/

/-- C30 (what the code does): with the empty search key and any non-empty cached key,
`prv_key_matches_search` evaluates `search_key[search_key_len-1]`, and with the empty uri and
any non-empty plugin root `provman_plugin_find_children` evaluates `uri[uri_len - 1]`: the
index, computed on `unsigned int`, is 4294967295, beyond the one byte (the NUL) of the empty
string.  The empty key reaches both functions: neither the Delete and GetAll handlers nor
`g_strstrip` reject it, and `provman_plugin_find_index` maps it to no plugin of the system
instance.  For a non-empty search key (shorter than 4 GiB) the index read is inside the
string. -/
theorem empty_key_read_out_of_bounds :
    (∀ key : CString, key ≠ [] → prv_key_matches_search_read [] key = some 4294967295)
      ∧ (∀ root : CString, root ≠ [] →
          provman_plugin_find_children_read [] root = some 4294967295)
      ∧ ([] : CString).length < 4294967295
      ∧ g_strstrip "".toList = []
      ∧ (prv_provman_method_call
            (provman_run_events system_plugins [provman_event.method_call (start_of client_a)])
            (get_all_of client_a "")).1.tasks
          = [sync_in_task [], get_all_task client_a ""]
      ∧ (prv_provman_method_call
            (provman_run_events system_plugins [provman_event.method_call (start_of client_a)])
            { sender := client_a, call := provman_call.Delete [] }).1.tasks
          = [sync_in_task [],
             { type := PROVMAN_TASK_DELETE,
               invocation := some { sender := client_a, call := provman_call.Delete [] },
               imsi := none, data := provman_task_data.key [] }]
      ∧ provman_plugin_find_index system_plugins [] = none
      ∧ (∀ (search_key key : CString) (i : Nat), search_key ≠ [] →
          search_key.length < 2 ^ 32 →
          prv_key_matches_search_read search_key key = some i → i < search_key.length)
      ∧ (∀ (uri root : CString) (i : Nat), uri ≠ [] → uri.length < 2 ^ 32 →
          provman_plugin_find_children_read uri root = some i → i < uri.length) := by
  refine ⟨?_, ?_, by decide, by decide, by decide, by decide, by decide, ?_, ?_⟩
  · intro key hkey
    have hlen : ¬ key.length = 0 := fun h => hkey (List.length_eq_zero.mp h)
    unfold prv_key_matches_search_read
    simp only [List.length_nil, ge_iff_le, Nat.zero_le, if_true, strncmp_is0, hlen, if_false]
    rfl
  · intro root hroot
    have hlen : ¬ 0 = root.length := fun h => hroot (List.length_eq_zero.mp h.symm)
    unfold provman_plugin_find_children_read
    simp only [List.length_nil, gt_iff_lt, Nat.not_lt_zero, if_false, strncmp_is0, if_true, hlen]
    rfl
  · intro search_key key i hne hlt h
    have hpos : 0 < search_key.length := List.length_pos.mpr hne
    unfold prv_key_matches_search_read at h
    simp only [] at h
    split at h
    · split at h
      · split at h
        · exact Option.noConfusion h
        · rw [← Option.some.inj h, uint_sub_one_pos _ hpos hlt]
          omega
      · exact Option.noConfusion h
    · exact Option.noConfusion h
  · intro uri root i hne hlt h
    have hpos : 0 < uri.length := List.length_pos.mpr hne
    unfold provman_plugin_find_children_read at h
    simp only [] at h
    split at h
    · exact Option.noConfusion h
    · split at h
      · split at h
        · exact Option.noConfusion h
        · rw [← Option.some.inj h, uint_sub_one_pos _ hpos hlt]
          omega
      · exact Option.noConfusion h

/-! ## C20, C21 and C27: the plugin found is not always the owner

The three results below come from the test `strstr(uri, plugin->root)` of
`provman_plugin_find_index`, which finds a root anywhere inside a key (the defect of C4), while
a plugin owns what lies under its root. -/

/-- C21 (what the code does): on the session plugins with a setting in each cache, Delete of
`/applications` runs the directory delete on both plugins, empties both caches and returns
success.  But on a plugin table with the roots `/b/` and `/a/b/`, which `provman_plugin_check`
accepts, Delete of `/a` finds the root `/a/b/` of the second plugin below the key and then looks
up the plugin of that root with `provman_plugin_find_index`, which gives the first plugin,
whose root occurs inside `/a/b/`: `validate_del` is called on the first plugin only, the
directory delete runs on the cache of the first plugin, the setting `/a/b/x` of the second
plugin stays, and success is returned. -/
theorem remove_skips_plugin_below_key :
    provman_plugin_find_children session_plugins "/applications".toList
        = ["/applications/email/".toList, "/applications/sync/".toList]
      ∧ (plugin_manager_remove session_plugins
            (idle_manager
              [some [("/applications/email/acc/name".toList, "n".toList)],
               some [("/applications/sync/acc/x".toList, "1".toList)]])
            "/applications".toList).1 = PROVMAN_ERR_NONE
      ∧ (plugin_manager_remove session_plugins
            (idle_manager
              [some [("/applications/email/acc/name".toList, "n".toList)],
               some [("/applications/sync/acc/x".toList, "1".toList)]])
            "/applications".toList).2.1.kv_caches = [some [], some []]
      ∧ (plugin_manager_remove session_plugins
            (idle_manager
              [some [("/applications/email/acc/name".toList, "n".toList)],
               some [("/applications/sync/acc/x".toList, "1".toList)]])
            "/applications".toList).2.2
          = [plugin_call.validate_del_fn 0 "/applications/email".toList,
             plugin_call.validate_del_fn 1 "/applications/sync".toList]
      ∧ provman_plugin_check nested_plugins = PROVMAN_ERR_NONE
      ∧ provman_plugin_find_index nested_plugins "/a".toList = none
      ∧ provman_plugin_find_children nested_plugins "/a".toList = ["/a/b/".toList]
      ∧ provman_plugin_find_index nested_plugins "/a/b/".toList = some 0
      ∧ (plugin_manager_remove nested_plugins (idle_manager caches_of_nested)
            "/a".toList).1 = PROVMAN_ERR_NONE
      ∧ (plugin_manager_remove nested_plugins (idle_manager caches_of_nested)
            "/a".toList).2.2 = [plugin_call.validate_del_fn 0 "/a/b".toList]
      ∧ (plugin_manager_remove nested_plugins (idle_manager caches_of_nested)
            "/a".toList).2.1.kv_caches = caches_of_nested := by
  refine ⟨by decide, by decide, by decide, by decide, by decide, by decide, by decide,
    by decide, by decide, by decide, by decide⟩

/-- C27 (what the code does): on the session plugins with two empty caches, the key
`/applications/sync/acc/applications/email/x` lies under the root of the second plugin and not
under the root of the first, yet a Set of it succeeds into the cache of the first plugin, whose
`validate_set` is the one called, and the cache of the owner stays empty; the key
`/x/applications/email/y` lies under no root, and a Set of it succeeds too, into the cache of
the first plugin. -/
theorem set_lands_in_cache_of_another_plugin :
    root_owns "/applications/sync/".toList key_in_sync_with_email_inside
      ∧ ¬ root_owns "/applications/email/".toList key_in_sync_with_email_inside
      ∧ (plugin_manager_set session_plugins (idle_manager [some [], some []])
            key_in_sync_with_email_inside "v".toList).1 = PROVMAN_ERR_NONE
      ∧ (plugin_manager_set session_plugins (idle_manager [some [], some []])
            key_in_sync_with_email_inside "v".toList).2.2
          = [plugin_call.validate_set_fn 0 key_in_sync_with_email_inside "v".toList]
      ∧ (plugin_manager_set session_plugins (idle_manager [some [], some []])
            key_in_sync_with_email_inside "v".toList).2.1.kv_caches
          = [some [(key_in_sync_with_email_inside, "v".toList)], some []]
      ∧ (∀ plugin ∈ session_plugins, ¬ root_owns plugin.root key_outside_with_email_inside)
      ∧ (plugin_manager_set session_plugins (idle_manager [some [], some []])
            key_outside_with_email_inside "v".toList).1 = PROVMAN_ERR_NONE
      ∧ (plugin_manager_set session_plugins (idle_manager [some [], some []])
            key_outside_with_email_inside "v".toList).2.1.kv_caches
          = [some [(key_outside_with_email_inside, "v".toList)], some []] := by
  refine ⟨by decide, by decide, by decide, by decide, by decide, by decide, by decide,
    by decide⟩

end Provman
